import Mathlib

/-! # FreeIntv libretro front end (src/libretro.c)

Shallow embedding of the save-state functions (`retro_serialize_size`,
`retro_serialize`, `retro_unserialize`), of `retro_load_game`, of the audio mixing loop of
`retro_run`, of the multi-screen display (`init_overlay_hotspots`, `render_multi_screen`,
`process_hotspot_input`, `process_toggle_button_input`), of `retro_run`,
`retro_get_system_av_info`, `retro_get_memory_data` and `retro_get_memory_size`, followed by
the properties proved about them.

Conventions
* C `int` values are `Int`; `unsigned int` memory words are `Nat`.
* C `double` values are the rationals they denote; quotients and sums of doubles are rounded
  to double precision by `binary64`.
* Functions and constants that live outside libretro.c (the component
  serializers, `LoadGame`, the sound buffers, `AUDIO_FREQUENCY`, ...) are
  parameters of the definitions that use them.
* Calls to functions outside libretro.c are logged, so that "was never
  invoked" is a statement about the log.
-/

namespace FreeIntv

/-! ## Save states (libretro.c lines 1481-1531) -/

/-- Value of the macro `SERIALIZED_VERSION` (line 1481). -/
def SERIALIZED_VERSION : Int := 0x4f544702

/-- Number of words of the `Memory` member of `struct serialized` (line 1489) and
of the live `Memory` array of memory.c that it mirrors. -/
def MEMORY_WORDS : Nat := 0x10000

/-- One emulated chip as the save-state code sees it.  `XSerialize` and
`XUnserialize` are defined in cp1610.c, stic.c, psg.c and ivoice.c, not in
libretro.c, so they are parameters: `Serialize` reads the chip's live state and
fills the struct member it is handed, `Unserialize` reads that member and
rewrites the chip's live state. -/
structure Component where
  /-- The chip's live state. -/
  Live : Type
  /-- The member of `struct serialized` holding the chip (`struct XSerialized`). -/
  Saved : Type
  /-- Behaviour of `XSerialize(&all->X)`. -/
  Serialize : Live → Saved
  /-- Behaviour of `XUnserialize(&all->X)`. -/
  Unserialize : Saved → Live → Live

/-- The four chips captured in a save state. -/
structure Components where
  CP1610 : Component
  STIC : Component
  PSG : Component
  ivoice : Component

/-- The record `struct serialized` (lines 1483-1493), members in declaration order. -/
structure serialized (K : Components) where
  version : Int
  CP1610 : K.CP1610.Saved
  STIC : K.STIC.Saved
  PSG : K.PSG.Saved
  ivoice : K.ivoice.Saved
  Memory : Fin MEMORY_WORDS → Nat
  SR1 : Int
  intv_halt : Int

/-- The live emulator state that the save-state code reads and writes: the four
chips, the global `Memory` array, and the globals `SR1` and `intv_halt` of intv.c. -/
structure Console (K : Components) where
  cpu : K.CP1610.Live
  stic : K.STIC.Live
  psg : K.PSG.Live
  ivoice : K.ivoice.Live
  Memory : Fin MEMORY_WORDS → Nat
  SR1 : Int
  intv_halt : Int

/-- Names of the component functions the save-state code calls. -/
inductive ComponentCall
  | CP1610Serialize
  | STICSerialize
  | PSGSerialize
  | ivoiceSerialize
  | CP1610Unserialize
  | STICUnserialize
  | PSGUnserialize
  | ivoiceUnserialize
  deriving DecidableEq, Repr

/-- The call `memcpy(dst, src, n * sizeof(unsigned int))` on two word arrays: the first
`n` words of `dst` are replaced by the corresponding words of `src`. -/
def memcpy (dst src : Fin MEMORY_WORDS → Nat) (n : Nat) : Fin MEMORY_WORDS → Nat :=
  fun i => if i.val < n then src i else dst i

/-- One member of a C struct, as far as `sizeof` is concerned. -/
structure CMember where
  size : Nat
  align : Nat
  deriving DecidableEq, Repr

/-- Sizes and alignments of the four component structs, whose declarations are in
cp1610.h, stic.h, psg.h and ivoice.h and not in libretro.c. -/
structure ComponentLayout where
  CP1610 : CMember
  STIC : CMember
  PSG : CMember
  ivoice : CMember

/-- Round `off` up to a multiple of `a` (an alignment of 0 is read as 1). -/
def alignUp (off a : Nat) : Nat :=
  if a ≤ 1 then off else (off + a - 1) / a * a

/-- The usual C layout rule: each member is placed at the next offset that is a multiple
of its alignment, and the struct is padded to a multiple of its strictest alignment. -/
def sizeofStruct (members : List CMember) : Nat :=
  alignUp (members.foldl (fun off m => alignUp off m.align + m.size) 0)
    (members.foldl (fun a m => max a m.align) 1)

/-- Members of `struct serialized` in declaration order (lines 1484-1492), with `int` and
`unsigned int` taken as 4 bytes. -/
def serializedMembers (L : ComponentLayout) : List CMember :=
  [⟨4, 4⟩, L.CP1610, L.STIC, L.PSG, L.ivoice, ⟨4 * MEMORY_WORDS, 4⟩, ⟨4, 4⟩, ⟨4, 4⟩]

/-- The function `retro_serialize_size` (lines 1495-1498): `return sizeof(struct serialized);`.
It takes no argument; the live state is passed to make explicit that it is not read. -/
def retro_serialize_size {K : Components} (L : ComponentLayout) (_s : Console K) : Nat :=
  sizeofStruct (serializedMembers L)

/-- What a call of `retro_serialize` leaves behind: the return value, the caller's buffer,
the live state, and the component functions called, in call order. -/
structure SerializeResult (K : Components) where
  ret : Bool
  data : serialized K
  live : Console K
  calls : List ComponentCall

/-- The function `retro_serialize` (lines 1500-1514).  `data` is the caller's buffer as it is
before the call, `size` the ignored size argument. -/
def retro_serialize (K : Components) (data : serialized K) (_size : Nat) (s : Console K) :
    SerializeResult K :=
  let all := data
  let all := { all with version := SERIALIZED_VERSION }
  let all := { all with CP1610 := K.CP1610.Serialize s.cpu }
  let all := { all with STIC := K.STIC.Serialize s.stic }
  let all := { all with PSG := K.PSG.Serialize s.psg }
  let all := { all with ivoice := K.ivoice.Serialize s.ivoice }
  let all := { all with Memory := memcpy all.Memory s.Memory MEMORY_WORDS }
  let all := { all with SR1 := s.SR1 }
  let all := { all with intv_halt := s.intv_halt }
  { ret := true
    data := all
    live := s
    calls := [.CP1610Serialize, .STICSerialize, .PSGSerialize, .ivoiceSerialize] }

/-- What a call of `retro_unserialize` leaves behind: the return value, the live state, and
the component functions called, in call order. -/
structure UnserializeResult (K : Components) where
  ret : Bool
  live : Console K
  calls : List ComponentCall

/-- The function `retro_unserialize` (lines 1516-1531).  `size` is the ignored size argument. -/
def retro_unserialize (K : Components) (data : serialized K) (_size : Nat) (s : Console K) :
    UnserializeResult K :=
  let all := data
  if all.version ≠ SERIALIZED_VERSION then
    { ret := false, live := s, calls := [] }
  else
    let s := { s with cpu := K.CP1610.Unserialize all.CP1610 s.cpu }
    let s := { s with stic := K.STIC.Unserialize all.STIC s.stic }
    let s := { s with psg := K.PSG.Unserialize all.PSG s.psg }
    let s := { s with ivoice := K.ivoice.Unserialize all.ivoice s.ivoice }
    let s := { s with Memory := memcpy s.Memory all.Memory MEMORY_WORDS }
    let s := { s with SR1 := all.SR1 }
    let s := { s with intv_halt := all.intv_halt }
    { ret := true
      live := s
      calls := [.CP1610Unserialize, .STICUnserialize, .PSGUnserialize, .ivoiceUnserialize] }

/-- The members of a save state in the order of their declaration in `struct serialized`,
each tagged with which member it is. -/
inductive Field (K : Components)
  | version (v : Int)
  | CP1610 (c : K.CP1610.Saved)
  | STIC (c : K.STIC.Saved)
  | PSG (c : K.PSG.Saved)
  | ivoice (c : K.ivoice.Saved)
  | Memory (m : Fin MEMORY_WORDS → Nat)
  | SR1 (v : Int)
  | intv_halt (v : Int)

/-- The members of a `struct serialized` value listed by increasing offset, which in C is the
order of declaration (lines 1484-1492). -/
def serialized.fields {K : Components} (b : serialized K) : List (Field K) :=
  [.version b.version, .CP1610 b.CP1610, .STIC b.STIC, .PSG b.PSG, .ivoice b.ivoice,
   .Memory b.Memory, .SR1 b.SR1, .intv_halt b.intv_halt]

/-- A chip whose `Unserialize` undoes its `Serialize`: loading what was saved from a live
state `c` gives `c` back, whatever the live state is at the time of loading. -/
def Component.RoundTrips (C : Component) : Prop :=
  ∀ c l : C.Live, C.Unserialize (C.Serialize c) l = c

/-- Entry points of the core that a front end may call between two size queries.
`retro_run` and `retro_reset` reach the console through `Run` and `Reset` of intv.c. -/
inductive ApiCall (K : Components)
  | retro_run
  | retro_reset
  | retro_serialize (data : serialized K) (size : Nat)
  | retro_unserialize (data : serialized K) (size : Nat)

/-- Effect of one entry point on the console.  `runFrame` and `reset` stand for what
`retro_run` and `retro_reset` do to the console through intv.c. -/
def ApiCall.apply {K : Components} (runFrame reset : Console K → Console K) :
    ApiCall K → Console K → Console K
  | .retro_run, s => runFrame s
  | .retro_reset, s => reset s
  | .retro_serialize data size, s => (FreeIntv.retro_serialize K data size s).live
  | .retro_unserialize data size, s => (FreeIntv.retro_unserialize K data size s).live

/-- A small concrete component: the live state and the saved form are both a number, saving
copies it and loading copies it back. -/
def natComponent : Component :=
  { Live := Nat, Saved := Nat, Serialize := fun c => c, Unserialize := fun b _ => b }

/-- Four copies of `natComponent`. -/
def natComponents : Components :=
  { CP1610 := natComponent, STIC := natComponent, PSG := natComponent, ivoice := natComponent }

/-- A console over `natComponents` with recognisable contents. -/
def sampleConsole : Console natComponents :=
  { cpu := (1 : Nat), stic := (2 : Nat), psg := (3 : Nat), ivoice := (4 : Nat),
    Memory := fun i => i.val, SR1 := 5, intv_halt := 0 }

/-- A save state over `natComponents` whose version member is not `SERIALIZED_VERSION`. -/
def staleBlob : serialized natComponents :=
  { version := 0, CP1610 := (9 : Nat), STIC := (9 : Nat), PSG := (9 : Nat), ivoice := (9 : Nat),
    Memory := fun _ => 9,
    SR1 := 9, intv_halt := 1 }

/-- A console over `natComponents` that differs from `sampleConsole` in every part. -/
def otherConsole : Console natComponents :=
  { cpu := (7 : Nat), stic := (7 : Nat), psg := (7 : Nat), ivoice := (7 : Nat),
    Memory := fun _ => 7, SR1 := 7, intv_halt := 1 }

/-! ## Loading a game (libretro.c lines 1180-1190) -/

/-- Functions called by `retro_load_game`, in the order of the calls. -/
inductive LoadCall
  | check_variables (first_run : Bool)
  | LoadGame (path : String)
  | load_controller_base
  | load_banner
  | load_overlay_for_rom (path : String)
  | init_overlay_hotspots
  deriving DecidableEq, Repr

/-- What a call of `retro_load_game` leaves behind: the value returned to the front end,
whether the cartridge image was loaded, and the functions called. -/
structure LoadGameResult where
  ret : Bool
  cartLoaded : Bool
  calls : List LoadCall
  deriving DecidableEq, Repr

/-- The function `retro_load_game` (lines 1180-1190).  `LoadGame` is defined in intv.c;
`LoadGame path = true` means that the cartridge image at `path` was loaded and `false`
that it could not be.  The call `LoadGame(info->path);` is an expression statement: nothing
it reports is looked at, and the function ends in `return true;`. -/
def retro_load_game (LoadGame : String → Bool) (path : String) : LoadGameResult :=
  let loaded := LoadGame path
  { ret := true
    cartLoaded := loaded
    calls := [.check_variables true, .LoadGame path, .load_controller_base, .load_banner,
              .load_overlay_for_rom path, .init_overlay_hotspots] }

/-! ## Audio mixing in `retro_run` (libretro.c lines 1197-1371)

The C variables `audioBufferPos`, `audioInc`, `ivoiceBufferPos` and `ivoiceInc` are `double`s.
A `double` value is embedded as the rational number it denotes, and the result of every
division and addition on doubles is rounded by `binary64` (IEEE 754 double precision, round
to nearest, ties to even; each operation evaluated in double precision).  The literals
`3733.5`, `1.0` and `0.0`, every `int` converted to `double`, and a product with the value 0 or
1 of a comparison are exact. -/

/-- The integer nearest to `x`; of two equally near integers, the even one. -/
def roundHalfEven (x : ℚ) : Int :=
  let f := ⌊x⌋
  if x - f < 1 / 2 then f
  else if 1 / 2 < x - f then f + 1
  else if f % 2 = 0 then f else f + 1

/-- Rounding of an exact result `x` to `double`: with `2^(e+52) ≤ |x| < 2^(e+53)`, the
multiple of `2^e` nearest to `x`, ties going to the even multiple (53 significant bits).
Overflow and subnormal numbers are left out: in the frames considered below every nonzero
value that is rounded lies between 1 and 8192. -/
def binary64 (x : ℚ) : ℚ :=
  if x = 0 then 0
  else
    let e := Int.log 2 |x| - 52
    (roundHalfEven (x / 2 ^ e) : ℚ) * 2 ^ e

/-- Sound data defined in psg.c and ivoice.c, as the mixing loop finds it after `Run()`. -/
structure AudioEnv where
  PSGBuffer : Int → Int
  PSGBufferSize : Int
  ivoiceBuffer : Int → Int
  ivoiceBufferSize : Int

/-- The global `int audioSamples = AUDIO_FREQUENCY / 60;` (line 937).  The macro
`AUDIO_FREQUENCY` is defined outside libretro.c and is a parameter. -/
def audioSamples (AUDIO_FREQUENCY : Int) : Int := Int.tdiv AUDIO_FREQUENCY 60

/-- Conversion of a `double` to `int`: the fractional part is discarded. -/
def truncToInt (x : ℚ) : Int := if 0 ≤ x then ⌊x⌋ else ⌈x⌉

/-- The globals of libretro.c that decide the audio calls of a frame. -/
structure FrameState where
  joypad0 : Nat → Int
  joypad1 : Nat → Int
  joypre0 : Nat → Int
  joypre1 : Nat → Int
  paused : Bool
  audioBufferPos : ℚ
  audioInc : ℚ
  ivoiceBufferPos : ℚ
  ivoiceInc : ℚ

/-- The globals as initialised at program start (lines 923-943). -/
def FrameState.init : FrameState :=
  { joypad0 := fun _ => 0, joypad1 := fun _ => 0, joypre0 := fun _ => 0, joypre1 := fun _ => 0,
    paused := false, audioBufferPos := 0, audioInc := 0, ivoiceBufferPos := 0, ivoiceInc := 0 }

/-- What one frame receives from outside libretro.c: the pad states that `update_input`
decodes from the front end, and the sound data that `Run()` leaves. -/
structure FrameInput where
  pad0 : Nat → Int
  pad1 : Nat → Int
  env : AudioEnv

/-- The function `update_input` (lines 981-1060): the 20 entries of each pad are copied to the
previous-state arrays, then overwritten with the newly polled values. -/
def update_input (pad0 pad1 : Nat → Int) (s : FrameState) : FrameState :=
  let s := { s with joypre0 := fun i => if i < 20 then s.joypad0 i else s.joypre0 i,
                    joypre1 := fun i => if i < 20 then s.joypad1 i else s.joypre1 i }
  { s with joypad0 := fun i => if i < 20 then pad0 i else s.joypad0 i,
           joypad1 := fun i => if i < 20 then pad1 i else s.joypad1 i }

/-- The pause toggle of `retro_run` (lines 1220-1228): `paused` is negated on a rising edge of
Start (index 8) on either pad. -/
def pauseToggle (s : FrameState) : FrameState :=
  if (s.joypad0 8 = 1 ∧ s.joypre0 8 = 0) ∨ (s.joypad1 8 = 1 ∧ s.joypre1 8 = 0) then
    { s with paused := !s.paused }
  else s

/-- Local state of the mixing loop that survives from one iteration to the next. -/
structure MixState where
  audioBufferPos : ℚ
  ivoiceBufferPos : ℚ
  j : Int

/-- What one iteration of the mixing loop does that is visible outside: the indices of
`PSGBuffer` it read (in order), the index of `ivoiceBuffer` it read, and the two arguments
of its call of `Audio`. -/
structure MixRecord where
  window : List Int
  voiceIndex : Int
  left : Int
  right : Int
  deriving DecidableEq, Repr

/-- The inner loop `while (j < k) c += PSGBuffer[j++];` (lines 1351-1352) on the triple
(j, c, indices read so far).  The first argument bounds the number of iterations; the loop
makes `k - j` of them when `j < k` and none otherwise. -/
def sumWhile (PSGBuffer : Int → Int) (k : Int) : Nat → Int × Int × List Int → Int × Int × List Int
  | 0, st => st
  | fuel + 1, (j, c, reads) =>
    if j < k then sumWhile PSGBuffer k fuel (j + 1, c + PSGBuffer j, reads ++ [j])
    else (j, c, reads)

/-- One iteration of the loop `for(i=0; i<audioSamples; i++)` (lines 1346-1365).  The result
is `none` when `c / l` divides by zero. -/
def mixStep (e : AudioEnv) (audioInc ivoiceInc : ℚ) (s : MixState) : Option (MixState × MixRecord) :=
  let audioBufferPos := binary64 (s.audioBufferPos + audioInc)
  let k := truncToInt audioBufferPos
  let l := k - s.j
  let c := 0
  let w := sumWhile e.PSGBuffer k (k - s.j).toNat (s.j, c, [])
  let j := w.1
  let c := w.2.1
  if l = 0 then none
  else
    let c := Int.tdiv c l
    let voiceIndex := truncToInt s.ivoiceBufferPos
    let c := Int.tdiv (c + e.ivoiceBuffer voiceIndex) 2
    let ivoiceBufferPos := binary64 (s.ivoiceBufferPos + ivoiceInc)
    let ivoiceBufferPos := if ivoiceBufferPos ≥ (e.ivoiceBufferSize : ℚ) then 0 else ivoiceBufferPos
    let audioBufferPos :=
      audioBufferPos * (if audioBufferPos < ((e.PSGBufferSize - 1 : Int) : ℚ) then 1 else 0)
    some ({ audioBufferPos := audioBufferPos, ivoiceBufferPos := ivoiceBufferPos, j := j },
          { window := w.2.2, voiceIndex := voiceIndex, left := c, right := c })

/-- The loop `for(i=0; i<audioSamples; i++)` (lines 1339-1366), run for the given number of
iterations; the records are in iteration order. -/
def mixLoop (e : AudioEnv) (audioInc ivoiceInc : ℚ) : Nat → MixState → Option (MixState × List MixRecord)
  | 0, s => some (s, [])
  | n + 1, s =>
    match mixStep e audioInc ivoiceInc s with
    | none => none
    | some (s1, r) =>
      match mixLoop e audioInc ivoiceInc n s1 with
      | none => none
      | some (s2, rs) => some (s2, r :: rs)

/-- What a call of `retro_run` leaves behind, as far as audio is concerned: the globals, and
one record per iteration of the mixing loop. -/
structure FrameResult where
  state : FrameState
  records : List MixRecord

/-- The calls of `Audio(left, right)` made during the frame, in order. -/
def FrameResult.audioCalls (r : FrameResult) : List (Int × Int) :=
  r.records.map (fun m => (m.left, m.right))

/-- The part of `retro_run` (lines 1197-1371) that decides its calls of `Audio`: the input
update (line 1217), the pause toggle (lines 1220-1228), the test of `paused` (line 1230)
and, in the branch that is not paused, the mixing loop and the reset of the two buffer
positions (lines 1335-1369).  The statements left out (option update, on-screen display,
controller input, `Run()`, keypad drawing, `PSGFrame()`, `ivoice_frame()`) make no call of
`Audio` and write none of the variables read here; `inp.env` is the sound data after `Run()`.
The result is `none` when the loop divides by zero. -/
def retro_run_audio (AUDIO_FREQUENCY : Int) (inp : FrameInput) (s : FrameState) :
    Option FrameResult :=
  let s := update_input inp.pad0 inp.pad1 s
  let s := pauseToggle s
  if s.paused then
    some { state := s, records := [] }
  else
    let s := { s with audioInc := binary64 ((3733.5 : ℚ) / (audioSamples AUDIO_FREQUENCY : ℚ)) }
    let s := { s with ivoiceInc := 1.0 }
    match mixLoop inp.env s.audioInc s.ivoiceInc (audioSamples AUDIO_FREQUENCY).toNat
        { audioBufferPos := s.audioBufferPos, ivoiceBufferPos := s.ivoiceBufferPos, j := 0 } with
    | none => none
    | some (m, records) =>
      let s := { s with audioBufferPos := m.audioBufferPos, ivoiceBufferPos := m.ivoiceBufferPos }
      let s := { s with audioBufferPos := 0.0 }
      let s := { s with ivoiceBufferPos := 0.0 }
      some { state := s, records := records }

/-- States of the globals that occur in a run of the program: the initial one, and the one
left by any completed call of `retro_run` made in such a state. -/
inductive Reachable (AUDIO_FREQUENCY : Int) : FrameState → Prop
  | init : Reachable AUDIO_FREQUENCY FrameState.init
  | step (inp : FrameInput) (s : FrameState) (r : FrameResult) :
      Reachable AUDIO_FREQUENCY s → retro_run_audio AUDIO_FREQUENCY inp s = some r →
      Reachable AUDIO_FREQUENCY r.state

/-- The integers `lo, lo+1, ..., lo+n-1`. -/
def intRange (lo : Int) (n : Nat) : List Int :=
  (List.range n).map (fun t : Nat => lo + (t : Int))

/-- The increment `inc = 3733.5 / audioSamples` of the specification, in exact arithmetic. -/
def specInc (n : Int) : ℚ := (3733.5 : ℚ) / (n : ℚ)

/-- Window `i` as the specification describes it: the index range
`[floor(i*inc), floor((i+1)*inc))` of `PSGBuffer`, in exact arithmetic. -/
def specWindow (n : Int) (i : Nat) : List Int :=
  intRange ⌊(i : ℚ) * specInc n⌋ (⌊((i : ℚ) + 1) * specInc n⌋ - ⌊(i : ℚ) * specInc n⌋).toNat

/-- The value of `audioInc` in a frame with `audioSamples = n`: the double nearest to
`3733.5 / n` (line 1335). -/
def doubleInc (n : Int) : ℚ := binary64 ((3733.5 : ℚ) / (n : ℚ))

/-- The value of `audioBufferPos` after `i` executions of `audioBufferPos += audioInc`
(line 1346) that start from 0: each sum is rounded to a double. -/
def doublePos (n : Int) : Nat → ℚ
  | 0 => 0
  | i + 1 => binary64 (doublePos n i + doubleInc n)

/-- The value of `k` (line 1347) in iteration `i - 1`, which is the value of `j` when
iteration `i` begins: the integer part of `doublePos n i`. -/
def windowStart (n : Int) (i : Nat) : Int := ⌊doublePos n i⌋

/-- The index range `[windowStart n i, windowStart n (i+1))` of `PSGBuffer`. -/
def mixWindow (n : Int) (i : Nat) : List Int :=
  intRange (windowStart n i) (windowStart n (i + 1) - windowStart n i).toNat

/-- A concrete frame input with silent pads and constant sound data: every PSG sample is
100, every speech sample is 50, and the buffer sizes are those of a 44.1 kHz build (7467 PSG
samples, 735 speech samples). -/
def sampleInput : FrameInput :=
  { pad0 := fun _ => 0, pad1 := fun _ => 0,
    env := { PSGBuffer := fun _ => 100, PSGBufferSize := 7467,
             ivoiceBuffer := fun _ => 50, ivoiceBufferSize := 735 } }

/-- A frame input whose PSG samples rise with the index (`PSGBuffer[j] = 2*j`) over silent
speech, otherwise as `sampleInput`. -/
def rampInput : FrameInput :=
  { sampleInput with
    env := { PSGBuffer := fun j => 2 * j, PSGBufferSize := 7467,
             ivoiceBuffer := fun _ => 0, ivoiceBufferSize := 735 } }

/-- A frame input on which Start is held on pad 0, otherwise as `sampleInput`. -/
def startInput : FrameInput :=
  { sampleInput with pad0 := fun i => if i = 8 then 1 else 0 }

/-- Closed form of the index of `ivoiceBuffer` read by iteration `i` of the mixing loop: the
position starts at 0, advances by one and returns to 0 when it reaches `ivoiceBufferSize`
(at once, when that size is not positive). -/
def voiceIndexAt (e : AudioEnv) (i : Nat) : Int :=
  if 0 < e.ivoiceBufferSize then (i : Int) % e.ivoiceBufferSize else 0

/-- The record of iteration `i` of the mixing loop in terms of `mixWindow` and
`voiceIndexAt`. -/
def closedRecord (e : AudioEnv) (n : Int) (i : Nat) : MixRecord :=
  { window := mixWindow n i
    voiceIndex := voiceIndexAt e i
    left := Int.tdiv (Int.tdiv ((mixWindow n i).map e.PSGBuffer).sum ((mixWindow n i).length : Int)
      + e.ivoiceBuffer (voiceIndexAt e i)) 2
    right := Int.tdiv (Int.tdiv ((mixWindow n i).map e.PSGBuffer).sum ((mixWindow n i).length : Int)
      + e.ivoiceBuffer (voiceIndexAt e i)) 2 }

/-- The loop state at the start of iteration `i` of the mixing loop in terms of `doublePos`
and `voiceIndexAt`. -/
def closedState (e : AudioEnv) (n : Int) (i : Nat) : MixState :=
  { audioBufferPos := doublePos n i
    ivoiceBufferPos := ((voiceIndexAt e i : Int) : ℚ)
    j := windowStart n i }

/-! ### Rounding on scaled integers

A double between 1 and 8192 is a multiple of `2^-52`.  The functions below redo the rounded
additions of `doublePos` on the numerators of such fractions, where they can be evaluated. -/

/-- The quotient `N / d` rounded to the nearest integer, ties to even. -/
def roundDiv (N d : Nat) : Nat :=
  let q := N / d
  let r := N % d
  if 2 * r < d then q
  else if d < 2 * r then q + 1
  else if q % 2 = 0 then q else q + 1

/-- The number `sh` with `2^(52+sh) ≤ M < 2^(53+sh)`, for `2^52 ≤ M < 2^(53+fuel)`. -/
def shiftOf : Nat → Nat → Nat
  | 0, _ => 0
  | fuel + 1, M => if M < 2 ^ 53 then 0 else shiftOf fuel (M / 2) + 1

/-- Rounding of `M / 2^52` to a double, as a numerator over `2^52`. -/
def roundBits (M : Nat) : Nat :=
  roundDiv M (2 ^ shiftOf 12 M) * 2 ^ shiftOf 12 M

/-- The numerator over `2^52` of the position after `i` rounded additions of `I / 2^52`
starting from 0; `none` when a sum leaves the range `[2^52, 2^65)`. -/
def posBits (I : Nat) : Nat → Option Nat
  | 0 => some 0
  | i + 1 =>
    match posBits I i with
    | none => none
    | some N =>
      if 2 ^ 52 ≤ N + I ∧ N + I < 2 ^ 65 then some (roundBits (N + I)) else none

/-! ## Multi-screen display: constants and state (libretro.c lines 46-116) -/

/-- The macro `DefaultFPS`. -/
def DefaultFPS : Int := 60

/-- The macro `MaxWidth`. -/
def MaxWidth : Int := 352

/-- The macro `MaxHeight`. -/
def MaxHeight : Int := 224

/-- The macro `WORKSPACE_WIDTH`. -/
def WORKSPACE_WIDTH : Int := 1074

/-- The macro `WORKSPACE_HEIGHT`. -/
def WORKSPACE_HEIGHT : Int := 600

/-- The macro `GAME_SCREEN_WIDTH`. -/
def GAME_SCREEN_WIDTH : Int := 704

/-- The macro `GAME_SCREEN_HEIGHT`. -/
def GAME_SCREEN_HEIGHT : Int := 448

/-- The macro `KEYPAD_WIDTH`. -/
def KEYPAD_WIDTH : Int := 370

/-- The macro `KEYPAD_HEIGHT`. -/
def KEYPAD_HEIGHT : Int := 600

/-- The macro `OVERLAY_HOTSPOT_COUNT`. -/
def OVERLAY_HOTSPOT_COUNT : Nat := 12

/-- The macro `OVERLAY_HOTSPOT_SIZE`. -/
def OVERLAY_HOTSPOT_SIZE : Int := 70

/-- The constant `GAME_WIDTH` (line 88). -/
def GAME_WIDTH : Int := 352

/-- The constant `GAME_HEIGHT` (line 89). -/
def GAME_HEIGHT : Int := 224

/-- Keypad code `K_1` (controller.h line 26). -/
def K_1 : Int := 0x81
/-- Keypad code `K_2`. -/
def K_2 : Int := 0x41
/-- Keypad code `K_3`. -/
def K_3 : Int := 0x21
/-- Keypad code `K_4`. -/
def K_4 : Int := 0x82
/-- Keypad code `K_5`. -/
def K_5 : Int := 0x42
/-- Keypad code `K_6`. -/
def K_6 : Int := 0x22
/-- Keypad code `K_7`. -/
def K_7 : Int := 0x84
/-- Keypad code `K_8`. -/
def K_8 : Int := 0x44
/-- Keypad code `K_9`. -/
def K_9 : Int := 0x24
/-- Keypad code `K_0`. -/
def K_0 : Int := 0x48
/-- Keypad code `K_C` (clear). -/
def K_C : Int := 0x88
/-- Keypad code `K_E` (enter). -/
def K_E : Int := 0x28

/-- The record `overlay_hotspot_t` (lines 74-81). -/
structure overlay_hotspot_t where
  x : Int
  y : Int
  width : Int
  height : Int
  id : Int
  keypad_code : Int
  deriving DecidableEq, Repr

/-- An array of 32-bit pixels, addressed by the C index expression. -/
abbrev Pixels := Int → Nat

/-- The globals of libretro.c behind the multi-screen display (lines 83-116) together with
the emulated framebuffer `frame` (declared `extern unsigned int frame[352 * 224]`, line 379).
A pointer is `none` when it is NULL and otherwise carries the array it points to. -/
structure Display where
  multi_screen_enabled : Int
  multi_screen_buffer : Option Pixels
  frame : Pixels
  display_swap : Int
  overlay_hotspots : Nat → overlay_hotspot_t
  hotspot_pressed : Nat → Int
  overlay_buffer : Option Pixels
  overlay_loaded : Int
  overlay_width : Int
  overlay_height : Int
  controller_base : Option Pixels
  controller_base_loaded : Int
  controller_base_width : Int
  controller_base_height : Int
  banner_buffer : Option Pixels
  banner_loaded : Int
  banner_width : Int
  banner_height : Int
  toggle_button_pressed : Int
  last_toggle_button_state : Int

/-- The display globals with their initialisers (lines 83-116) and an all-zero framebuffer. -/
def Display.init : Display :=
  { multi_screen_enabled := 0, multi_screen_buffer := none, frame := fun _ => 0,
    display_swap := 0,
    overlay_hotspots := fun _ => ⟨0, 0, 0, 0, 0, 0⟩, hotspot_pressed := fun _ => 0,
    overlay_buffer := none, overlay_loaded := 0, overlay_width := 370, overlay_height := 600,
    controller_base := none, controller_base_loaded := 0, controller_base_width := 446,
    controller_base_height := 620,
    banner_buffer := none, banner_loaded := 0, banner_width := 704, banner_height := 152,
    toggle_button_pressed := 0, last_toggle_button_state := 0 }

/-- The loop `for (v = lo; v < hi; v++) body` over a C `int`, for a body that neither
assigns `v` nor leaves the loop early. -/
def forLoop {σ : Type} (lo hi : Int) (body : Int → σ → σ) (s : σ) : σ :=
  (intRange lo (hi - lo).toNat).foldl (fun st v => body v st) s

/-- The loop `for (i = 0; i < n; i++) body` over an array index. -/
def forNat {σ : Type} (n : Nat) (body : Nat → σ → σ) (s : σ) : σ :=
  (List.range n).foldl (fun st i => body i st) s

/-- The array `a` with element `i` replaced by `v`. -/
def setAt {α : Type} (a : Nat → α) (i : Nat) (v : α) : Nat → α :=
  fun k => if k = i then v else a k

/-! ## Keypad hotspots (libretro.c lines 118-160) -/

/-- The local array `keypad_map` of `init_overlay_hotspots` (line 147). -/
def keypad_map : List Int := [K_1, K_2, K_3, K_4, K_5, K_6, K_7, K_8, K_9, K_C, K_0, K_E]

/-- The function `init_overlay_hotspots` (lines 119-160). -/
def init_overlay_hotspots (s : Display) : Display :=
  let hotspot_w := OVERLAY_HOTSPOT_SIZE
  let hotspot_h := OVERLAY_HOTSPOT_SIZE
  let gap_x : Int := 28
  let gap_y : Int := 29
  let rows : Nat := 4
  let cols : Nat := 3
  let keypad_x_offset := GAME_SCREEN_WIDTH
  let keypad_y_offset : Int := 0
  let ctrl_base_x_offset := Int.tdiv (KEYPAD_WIDTH - s.controller_base_width) 2
  let hotspots_width := 3 * hotspot_w + 2 * gap_x
  let hotspots_x_in_base := Int.tdiv (s.controller_base_width - hotspots_width) 2
  let top_margin : Int := 183
  let start_x := keypad_x_offset + ctrl_base_x_offset + hotspots_x_in_base
  let start_y := keypad_y_offset + top_margin
  forNat rows (fun row s =>
    forNat cols (fun col s =>
      let idx := row * cols + col
      let h : overlay_hotspot_t :=
        { x := start_x + (col : Int) * (hotspot_w + gap_x)
          y := start_y + (row : Int) * (hotspot_h + gap_y)
          width := hotspot_w
          height := hotspot_h
          id := (idx : Int) + 1
          keypad_code := keypad_map.getD idx 0 }
      { s with overlay_hotspots := setAt s.overlay_hotspots idx h }) s) s

/-! ## Pointer input (libretro.c lines 752-916) -/

/-- Where a value passed to `setControllerInput` comes from. -/
inductive InputSource
  | controller
  | keypad
  | hotspot
  | keyboard
  deriving DecidableEq, Repr

/-- The two buffers `retro_run` can hand to the `Video` callback. -/
inductive VideoBuffer
  | frame
  | workspace
  deriving DecidableEq, Repr

/-- Calls made by `retro_run` and its helpers to functions outside libretro.c, with their
arguments.  `setControllerInput` carries the kind of expression its state argument was. -/
inductive Event
  | OSD_drawPaused
  | OSD_drawTextCenterBG (row : Int) (text : String)
  | OSD_drawTextBG (x y : Int) (text : String)
  | setControllerInput (player state : Int) (src : InputSource)
  | Run
  | drawMiniKeypad (player : Int)
  | Audio (left right : Int)
  | PSGFrame
  | ivoice_frame
  | OSD_drawLeftRight
  | OSD_drawRightLeft
  | Video (data : VideoBuffer) (width height pitch : Int)
  deriving DecidableEq, Repr

/-- What `InputState(0, RETRO_DEVICE_POINTER, 0, ...)` returns for the three pointer
queries `RETRO_DEVICE_ID_POINTER_X`, `_Y` and `_PRESSED`. -/
structure PointerInput where
  x : Int
  y : Int
  pressed : Int
  deriving DecidableEq, Repr

/-- The cast `(int16_t)v`. -/
def toInt16 (v : Int) : Int := (v + 32768) % 65536 - 32768

/-- The mapping of one normalized pointer coordinate to a pixel coordinate
(lines 779-785 and 852-858): `((int32_t)n + 32767) * W / 65534`, then the two clamps. -/
def pointerToPixel (n W : Int) : Int :=
  let m := Int.tdiv ((n + 32767) * W) 65534
  let m := if m < 0 then 0 else m
  let m := if m ≥ W then W - 1 else m
  m

/-- The pixel position `(mouse_x, mouse_y)` computed at the start of both pointer functions
(lines 771-786 and 841-859). -/
def mousePosition (p : PointerInput) : Int × Int :=
  let ptr_x_normalized := toInt16 p.x
  let ptr_y_normalized := toInt16 p.y
  let mouse_button := p.pressed
  if ptr_x_normalized ≠ 0 ∨ ptr_y_normalized ≠ 0 ∨ mouse_button ≠ 0 then
    (pointerToPixel ptr_x_normalized WORKSPACE_WIDTH,
     pointerToPixel ptr_y_normalized WORKSPACE_HEIGHT)
  else (0, 0)

/-- The test `is_over` of `process_hotspot_input` for hotspot `h` (lines 870-879). -/
def hotspotIsOver (display_swap : Int) (h : overlay_hotspot_t) (mouse_x mouse_y : Int) : Bool :=
  let hotspot_x := if display_swap ≠ 0 then h.x - GAME_SCREEN_WIDTH else h.x
  decide (mouse_x ≥ hotspot_x ∧ mouse_x < hotspot_x + h.width ∧
          mouse_y ≥ h.y ∧ mouse_y < h.y + h.height)

/-- The first loop of `process_hotspot_input` (lines 862-898), which updates `hotspot_pressed`. -/
def trackHotspots (mouse_x mouse_y mouse_button : Int) (s : Display) : Display :=
  forNat OVERLAY_HOTSPOT_COUNT (fun i s =>
    let h := s.overlay_hotspots i
    let is_over := hotspotIsOver s.display_swap h mouse_x mouse_y
    if is_over = true ∧ mouse_button ≠ 0 then
      if s.hotspot_pressed i = 0 then { s with hotspot_pressed := setAt s.hotspot_pressed i 1 }
      else s
    else
      if s.hotspot_pressed i ≠ 0 then { s with hotspot_pressed := setAt s.hotspot_pressed i 0 }
      else s) s

/-- The second loop of `process_hotspot_input` (lines 901-909): the value of `hotspot_input`. -/
def hotspotInput (s : Display) : Int :=
  forNat OVERLAY_HOTSPOT_COUNT (fun i hotspot_input =>
    if s.hotspot_pressed i ≠ 0 then Int.lor hotspot_input (s.overlay_hotspots i).keypad_code
    else hotspot_input) 0

/-- The function `process_hotspot_input` (lines 823-916): the display globals afterwards and
the call of `setControllerInput` it makes, if any.  The counter `call_count` is never read
and is left out. -/
def process_hotspot_input (p : PointerInput) (s : Display) : Display × List Event :=
  let mouse := mousePosition p
  let mouse_button := p.pressed
  let s := trackHotspots mouse.1 mouse.2 mouse_button s
  let hotspot_input := hotspotInput s
  if hotspot_input ≠ 0 then (s, [Event.setControllerInput 0 hotspot_input InputSource.hotspot])
  else (s, [])

/-- The test `is_over` of `process_toggle_button_input` (lines 793-805). -/
def toggleIsOver (display_swap mouse_x mouse_y : Int) : Bool :=
  let banner_start_x := if display_swap ≠ 0 then KEYPAD_WIDTH else 0
  let banner_start_y : Int := 448
  let toggle_x := banner_start_x + 651
  let toggle_y := banner_start_y + 76
  let toggle_radius : Int := 45
  let dx := mouse_x - toggle_x
  let dy := mouse_y - toggle_y
  let distance_sq := dx * dx + dy * dy
  decide (distance_sq ≤ toggle_radius * toggle_radius)

/-- The function `process_toggle_button_input` (lines 753-820). -/
def process_toggle_button_input (p : PointerInput) (s : Display) : Display :=
  let mouse := mousePosition p
  let mouse_button := p.pressed
  let is_over := toggleIsOver s.display_swap mouse.1 mouse.2
  if is_over = true ∧ mouse_button ≠ 0 then
    if s.toggle_button_pressed = 0 then
      { s with toggle_button_pressed := 1, last_toggle_button_state := 1 }
    else s
  else
    let s :=
      if s.toggle_button_pressed ≠ 0 ∧ s.last_toggle_button_state ≠ 0 then
        { s with display_swap := if s.display_swap = 0 then 1 else 0 }
      else s
    { s with toggle_button_pressed := 0, last_toggle_button_state := 0 }

/-! ## The compositor `render_multi_screen` (libretro.c lines 375-728)

The workspace is a pixel array addressed by `y * WORKSPACE_WIDTH + x`.  Where a loop is left
by `break` as soon as its counter passes a bound (`if (y >= WORKSPACE_HEIGHT) break;`), the
body is guarded by the negated test instead: the counter only grows, so the iterations after
the first failing one would fail the test as well.  The variable `alpha` is a `float` that
only ever holds an integer from 0 to 255; the products and sums it enters stay below 2^24,
are exact in `float`, and the quotient by 255 is truncated when assigned to an `int`, so the
blend is the integer quotient. -/

/-- The assignment `buf[idx] = v`. -/
def setPx (b : Pixels) (idx : Int) (v : Nat) : Pixels :=
  fun i => if i = idx then v else b i

/-- The read-modify-write `existing = buf[idx]; buf[idx] = g(existing)`. -/
def modPx (b : Pixels) (idx : Int) (g : Nat → Nat) : Pixels :=
  fun i => if i = idx then g (b i) else b i

/-- The array behind a pointer that has been tested to be non-null. -/
def deref (p : Option Pixels) : Pixels :=
  fun i => match p with
    | some f => f i
    | none => 0

/-- The expression `(p >> 24) & 0xFF`. -/
def alphaOf (p : Nat) : Nat := (p >>> 24) &&& 0xFF

/-- The expression `(p >> 16) & 0xFF`. -/
def redOf (p : Nat) : Nat := (p >>> 16) &&& 0xFF

/-- The expression `(p >> 8) & 0xFF`. -/
def greenOf (p : Nat) : Nat := (p >>> 8) &&& 0xFF

/-- The expression `p & 0xFF`. -/
def blueOf (p : Nat) : Nat := p &&& 0xFF

/-- The alpha blend of `src` over `existing` (lines 524-537, 569-583 and 708-723). -/
def blendOver (src alpha existing : Nat) : Nat :=
  let inv_alpha := 255 - alpha
  let r := redOf src
  let g := greenOf src
  let b := blueOf src
  let existing_r := redOf existing
  let existing_g := greenOf existing
  let existing_b := blueOf existing
  let blended_r := (r * alpha + existing_r * inv_alpha) / 255
  let blended_g := (g * alpha + existing_g * inv_alpha) / 255
  let blended_b := (b * alpha + existing_b * inv_alpha) / 255
  0xFF000000 ||| (blended_r <<< 16) ||| (blended_g <<< 8) ||| blended_b

/-- The value of `game_x_offset` (line 425). -/
def gameXOffset (s : Display) : Int := if s.display_swap ≠ 0 then KEYPAD_WIDTH else 0

/-- The value of `keypad_x_offset` (line 426). -/
def keypadXOffset (s : Display) : Int := if s.display_swap ≠ 0 then 0 else GAME_SCREEN_WIDTH

/-- Clearing the workspace (lines 420-422). -/
def clearWorkspace (b : Pixels) : Pixels :=
  forLoop 0 (WORKSPACE_WIDTH * WORKSPACE_HEIGHT) (fun i b => setPx b i 0xFF000000) b

/-- The utility section background (lines 430-445). -/
def utilityBackground (s : Display) (b : Pixels) : Pixels :=
  let util_bg_x1 := gameXOffset s
  let util_bg_x2 := gameXOffset s + GAME_SCREEN_WIDTH
  let util_bg_y1 : Int := 448
  let util_bg_y2 : Int := 600
  let utility_bg_color : Nat := 0xFF1a2a3a
  forLoop util_bg_y1 util_bg_y2 (fun y b =>
    if y ≥ WORKSPACE_HEIGHT then b
    else forLoop util_bg_x1 util_bg_x2 (fun x b =>
      if x < WORKSPACE_WIDTH then setPx b (y * WORKSPACE_WIDTH + x) utility_bg_color else b) b) b

/-- The game screen, scaled by two (lines 448-462). -/
def gameScreen (s : Display) (b : Pixels) : Pixels :=
  forLoop 0 GAME_SCREEN_HEIGHT (fun y b =>
    let src_y := Int.tdiv y 2
    forLoop 0 GAME_SCREEN_WIDTH (fun x b =>
      let src_x := Int.tdiv x 2
      let workspace_x := gameXOffset s + x
      if workspace_x ≥ WORKSPACE_WIDTH then b
      else if src_y < GAME_HEIGHT ∧ src_x < GAME_WIDTH then
        setPx b (y * WORKSPACE_WIDTH + workspace_x) (s.frame (src_y * GAME_WIDTH + src_x))
      else
        setPx b (y * WORKSPACE_WIDTH + workspace_x) 0xFF000000) b) b

/-- The keypad background (lines 466-474). -/
def keypadBackground (s : Display) (b : Pixels) : Pixels :=
  let bg_color : Nat := 0xFF1a1a1a
  forLoop 0 (min KEYPAD_HEIGHT WORKSPACE_HEIGHT) (fun y b =>
    forLoop 0 KEYPAD_WIDTH (fun x b =>
      let workspace_x := keypadXOffset s + x
      if workspace_x < WORKSPACE_WIDTH then setPx b (y * WORKSPACE_WIDTH + workspace_x) bg_color
      else b) b) b

/-- The value of `pixel` stored by the keypad layer at keypad column `x`, row `y`
(lines 488-542). -/
def keypadPixel (s : Display) (x y : Int) : Nat :=
  let bg_color : Nat := 0xFF1a1a1a
  let ctrl_base_x_offset := Int.tdiv (KEYPAD_WIDTH - s.controller_base_width) 2
  let overlay_x_offset := Int.tdiv (KEYPAD_WIDTH - s.overlay_width) 2
  let pixel := bg_color
  let pixel :=
    if s.overlay_loaded ≠ 0 ∧ s.overlay_buffer.isSome = true ∧ y < s.overlay_height then
      let overlay_x := x - overlay_x_offset
      if overlay_x ≥ 0 ∧ overlay_x < s.overlay_width then
        let overlay_pixel_val := deref s.overlay_buffer (y * s.overlay_width + overlay_x)
        if alphaOf overlay_pixel_val ≠ 0 then overlay_pixel_val else pixel
      else pixel
    else if s.overlay_loaded = 0 ∧ s.controller_base_loaded ≠ 0 ∧
        s.controller_base.isSome = true ∧ y < s.controller_base_height then
      let ctrl_x := x - ctrl_base_x_offset
      if ctrl_x ≥ 0 ∧ ctrl_x < s.controller_base_width then
        let base_pixel := deref s.controller_base (y * s.controller_base_width + ctrl_x)
        let alpha := alphaOf base_pixel
        if alpha > 0 then base_pixel else pixel
      else pixel
    else pixel
  let pixel :=
    if s.overlay_loaded ≠ 0 ∧ s.controller_base_loaded ≠ 0 ∧
        s.controller_base.isSome = true ∧ y < s.controller_base_height then
      let ctrl_x := x - ctrl_base_x_offset
      if ctrl_x ≥ 0 ∧ ctrl_x < s.controller_base_width then
        let base_pixel := deref s.controller_base (y * s.controller_base_width + ctrl_x)
        let alpha := alphaOf base_pixel
        if alpha > 0 then
          if alpha = 255 then base_pixel
          else blendOver base_pixel alpha pixel
        else pixel
      else pixel
    else pixel
  pixel

/-- The overlay and controller base layered over the keypad area (lines 477-546). -/
def keypadLayer (s : Display) (b : Pixels) : Pixels :=
  forLoop 0 (min KEYPAD_HEIGHT WORKSPACE_HEIGHT) (fun y b =>
    forLoop 0 KEYPAD_WIDTH (fun x b =>
      let workspace_x := keypadXOffset s + x
      let workspace_y := y
      if workspace_x ≥ WORKSPACE_WIDTH ∨ workspace_y ≥ WORKSPACE_HEIGHT then b
      else setPx b (workspace_y * WORKSPACE_WIDTH + workspace_x) (keypadPixel s x y)) b) b

/-- The banner, or the fallback background when no banner is loaded (lines 551-598). -/
def bannerLayer (s : Display) (b : Pixels) : Pixels :=
  if s.banner_loaded ≠ 0 ∧ s.banner_buffer.isSome = true then
    forLoop 0 s.banner_height (fun banner_y b =>
      forLoop 0 s.banner_width (fun banner_x b =>
        let workspace_x := gameXOffset s + banner_x
        let workspace_y := 448 + banner_y
        if workspace_x ≥ WORKSPACE_WIDTH ∨ workspace_y ≥ WORKSPACE_HEIGHT then b
        else if workspace_x < 0 then b
        else
          let banner_pixel := deref s.banner_buffer (banner_y * s.banner_width + banner_x)
          let alpha := alphaOf banner_pixel
          if alpha > 0 then
            if alpha = 255 then
              setPx b (workspace_y * WORKSPACE_WIDTH + workspace_x) banner_pixel
            else
              modPx b (workspace_y * WORKSPACE_WIDTH + workspace_x)
                (blendOver banner_pixel alpha)
          else b) b) b
  else
    let utility_bg_color : Nat := 0xFF1a2a3a
    forLoop 448 600 (fun y b =>
      if y ≥ WORKSPACE_HEIGHT then b
      else forLoop (gameXOffset s) (gameXOffset s + GAME_SCREEN_WIDTH) (fun x b =>
        if x ≥ WORKSPACE_WIDTH then b
        else setPx b (y * WORKSPACE_WIDTH + x) utility_bg_color) b) b

/-- The array `border_colors` (lines 608-614). -/
def border_colors : List Nat :=
  [0xFF605117, 0xFF927b18, 0xFFc7a814, 0xFFffd700, 0xFFc7a814, 0xFF927b18, 0xFF605117]

/-- One layer of the utility section border (lines 618-689). -/
def borderOneLayer (s : Display) (layer : Int) (b : Pixels) : Pixels :=
  let util_border_x1 := gameXOffset s
  let util_border_x2 := gameXOffset s + GAME_SCREEN_WIDTH
  let util_border_y1 : Int := 448
  let util_border_y2 : Int := 600
  let offset := layer
  let color := border_colors.getD layer.toNat 0
  let corner_cut := offset
  let b := forLoop (util_border_y1 + offset) (util_border_y1 + offset + 1) (fun y b =>
    if y ≥ WORKSPACE_HEIGHT then b
    else forLoop (util_border_x1 + corner_cut) (util_border_x2 - corner_cut) (fun x b =>
      if x < WORKSPACE_WIDTH then setPx b (y * WORKSPACE_WIDTH + x) color else b) b) b
  let b := forLoop (util_border_y2 - offset - 1) (util_border_y2 - offset) (fun y b =>
    if y ≥ WORKSPACE_HEIGHT then b
    else forLoop (util_border_x1 + corner_cut) (util_border_x2 - corner_cut) (fun x b =>
      if x < WORKSPACE_WIDTH then setPx b (y * WORKSPACE_WIDTH + x) color else b) b) b
  let b := forLoop (util_border_y1 + offset) (util_border_y2 - offset) (fun y b =>
    if y ≥ WORKSPACE_HEIGHT then b
    else forLoop (util_border_x1 + offset) (util_border_x1 + offset + 1) (fun x b =>
      if x ≥ 0 ∧ x < WORKSPACE_WIDTH then setPx b (y * WORKSPACE_WIDTH + x) color else b) b) b
  let b := forLoop (util_border_y1 + offset) (util_border_y2 - offset) (fun y b =>
    if y ≥ WORKSPACE_HEIGHT then b
    else forLoop (util_border_x2 - offset - 1) (util_border_x2 - offset) (fun x b =>
      if x < WORKSPACE_WIDTH then setPx b (y * WORKSPACE_WIDTH + x) color else b) b) b
  let b := forLoop 0 corner_cut (fun i b =>
    let x := util_border_x1 + i
    let y := util_border_y1 + offset + i
    if x ≥ 0 ∧ x < WORKSPACE_WIDTH ∧ y < WORKSPACE_HEIGHT then
      setPx b (y * WORKSPACE_WIDTH + x) color
    else b) b
  let b := forLoop 0 corner_cut (fun i b =>
    let x := util_border_x2 - 1 - i
    let y := util_border_y1 + offset + i
    if x ≥ 0 ∧ x < WORKSPACE_WIDTH ∧ y < WORKSPACE_HEIGHT then
      setPx b (y * WORKSPACE_WIDTH + x) color
    else b) b
  let b := forLoop 0 corner_cut (fun i b =>
    let x := util_border_x1 + i
    let y := util_border_y2 - 1 - offset - i
    if x ≥ 0 ∧ x < WORKSPACE_WIDTH ∧ y ≥ 0 ∧ y < WORKSPACE_HEIGHT then
      setPx b (y * WORKSPACE_WIDTH + x) color
    else b) b
  let b := forLoop 0 corner_cut (fun i b =>
    let x := util_border_x2 - 1 - i
    let y := util_border_y2 - 1 - offset - i
    if x ≥ 0 ∧ x < WORKSPACE_WIDTH ∧ y ≥ 0 ∧ y < WORKSPACE_HEIGHT then
      setPx b (y * WORKSPACE_WIDTH + x) color
    else b) b
  b

/-- The seven-layer utility section border (lines 602-690). -/
def borderLayer (s : Display) (b : Pixels) : Pixels :=
  forLoop 0 7 (fun layer b => borderOneLayer s layer b) b

/-- The highlight of the pressed hotspots (lines 695-727). -/
def highlightLayer (s : Display) (b : Pixels) : Pixels :=
  let hotspot_x_adjust := if s.display_swap ≠ 0 then -GAME_SCREEN_WIDTH else 0
  forNat OVERLAY_HOTSPOT_COUNT (fun i b =>
    if s.hotspot_pressed i ≠ 0 then
      let h := s.overlay_hotspots i
      let highlight_color : Nat := 0xAA00FF00
      forLoop h.y (h.y + h.height) (fun y b =>
        if y ≥ WORKSPACE_HEIGHT then b
        else forLoop (h.x + hotspot_x_adjust) (h.x + h.width + hotspot_x_adjust) (fun x b =>
          if x < 0 ∨ x ≥ WORKSPACE_WIDTH then b
          else
            modPx b (y * WORKSPACE_WIDTH + x)
              (blendOver highlight_color (alphaOf highlight_color))) b) b
    else b) b

/-- Everything `render_multi_screen` draws into the workspace once the buffer exists
(lines 417-727), in program order. -/
def renderWorkspace (s : Display) (multi_buffer : Pixels) : Pixels :=
  let multi_buffer := clearWorkspace multi_buffer
  let multi_buffer := utilityBackground s multi_buffer
  let multi_buffer := gameScreen s multi_buffer
  let multi_buffer := keypadBackground s multi_buffer
  let multi_buffer := keypadLayer s multi_buffer
  let multi_buffer := bannerLayer s multi_buffer
  let multi_buffer := borderLayer s multi_buffer
  let multi_buffer := highlightLayer s multi_buffer
  multi_buffer

/-- The function `render_multi_screen` (lines 375-728).  `malloc` is what the call of
`malloc` on line 413 returns if it is made: `none` for NULL, otherwise a fresh array with
whatever content it has. -/
def render_multi_screen (malloc : Option Pixels) (s : Display) : Display :=
  if s.multi_screen_enabled = 0 then s
  else
    let s := if s.multi_screen_buffer.isNone then { s with multi_screen_buffer := malloc } else s
    match s.multi_screen_buffer with
    | none => s
    | some multi_buffer =>
      { s with multi_screen_buffer := some (renderWorkspace s multi_buffer) }

/-- A transformation of the workspace in which the new value of every pixel is a function
of the old value of that same pixel. -/
@[reducible] def PixelLocal (f : Pixels → Pixels) : Prop :=
  ∀ (b1 b2 : Pixels) (i : Int), b1 i = b2 i → f b1 i = f b2 i

/-- The hotspot table that `init_overlay_hotspots` produces when `controller_base_width` has
its initial value 446. -/
def initHotspotTable : Nat → overlay_hotspot_t :=
  (init_overlay_hotspots Display.init).overlay_hotspots

/-- Two display states that agree on everything `render_multi_screen` draws from: the
emulated frame, `display_swap`, the overlay, controller base and banner images with their
sizes and loaded flags, the hotspot table and the `hotspot_pressed` flags. -/
def SameScene (s1 s2 : Display) : Prop :=
  s1.frame = s2.frame ∧ s1.display_swap = s2.display_swap ∧
  s1.overlay_hotspots = s2.overlay_hotspots ∧ s1.hotspot_pressed = s2.hotspot_pressed ∧
  s1.overlay_buffer = s2.overlay_buffer ∧ s1.overlay_loaded = s2.overlay_loaded ∧
  s1.overlay_width = s2.overlay_width ∧ s1.overlay_height = s2.overlay_height ∧
  s1.controller_base = s2.controller_base ∧
  s1.controller_base_loaded = s2.controller_base_loaded ∧
  s1.controller_base_width = s2.controller_base_width ∧
  s1.controller_base_height = s2.controller_base_height ∧
  s1.banner_buffer = s2.banner_buffer ∧ s1.banner_loaded = s2.banner_loaded ∧
  s1.banner_width = s2.banner_width ∧ s1.banner_height = s2.banner_height

/-- A display state with multi-screen mode on, the hotspot table initialised, a workspace
whose pixels are all 7, and hotspot 0 pressed. -/
def sampleDisplay : Display :=
  { init_overlay_hotspots Display.init with
    multi_screen_enabled := 1
    multi_screen_buffer := some (fun _ => 7)
    hotspot_pressed := fun i => if i = 0 then 1 else 0 }

/-- The closed form of one step of the first loop of `process_hotspot_input`: the new value
of `hotspot_pressed[i]` from the hit test, the button and the old value. -/
def trackOne (is_over : Bool) (mouse_button old : Int) : Int :=
  if is_over = true ∧ mouse_button ≠ 0 then (if old = 0 then 1 else old)
  else (if old ≠ 0 then 0 else old)

/-! ## The frame function `retro_run` and `retro_get_system_av_info`
(libretro.c lines 1197-1447) -/

/-- The global `frameWidth` (line 945), never assigned after its initialisation. -/
def frameWidth : Int := MaxWidth

/-- The global `frameHeight` (line 946), never assigned after its initialisation. -/
def frameHeight : Int := MaxHeight

/-- What one call of `retro_run` receives from outside libretro.c. -/
structure RunInput where
  /-- Pad 0 as decoded by `update_input`. -/
  pad0 : Nat → Int
  /-- Pad 1 as decoded by `update_input`. -/
  pad1 : Nat → Int
  /-- The pointer as `process_hotspot_input` reads it. -/
  hotspotPointer : PointerInput
  /-- The pointer as `process_toggle_button_input` reads it. -/
  togglePointer : PointerInput
  /-- The value of `getControllerState(joypad0, 0)`. -/
  controllerState0 : Int
  /-- The value of `getControllerState(joypad1, 1)`. -/
  controllerState1 : Int
  /-- The value of `getKeypadState(0, joypad0, joypre0)`. -/
  keypadState0 : Int
  /-- The value of `getKeypadState(1, joypad1, joypre1)`. -/
  keypadState1 : Int
  /-- The sound data after `Run()`. -/
  env : AudioEnv
  /-- The value of `intv_halt` when line 1390 is reached. -/
  intv_halt : Int
  /-- The content of `frame` when `render_multi_screen` is called (line 1394). -/
  frame : Pixels
  /-- What `malloc` returns if `render_multi_screen` calls it. -/
  malloc : Option Pixels

/-- The globals that `retro_run` reads and writes. -/
structure RunState where
  fs : FrameState
  d : Display
  controllerSwap : Int
  keyboardDown : Bool
  keyboardChange : Bool
  keyboardState : Int

/-- The globals at program start. -/
def RunState.init : RunState :=
  { fs := FrameState.init, d := Display.init, controllerSwap := 0,
    keyboardDown := false, keyboardChange := false, keyboardState := 0 }

/-- What a call of `retro_run` leaves behind: the globals, and the calls made to functions
outside libretro.c, in order. -/
structure RunResult where
  state : RunState
  events : List Event

/-- The help screen drawn while paused with A held (lines 1235-1249). -/
def helpScreen : List Event :=
  [ .OSD_drawTextBG 3 4 "                                      ",
    .OSD_drawTextBG 3 5 "               - HELP -               ",
    .OSD_drawTextBG 3 6 "                                      ",
    .OSD_drawTextBG 3 7 " A      - RIGHT ACTION BUTTON         ",
    .OSD_drawTextBG 3 8 " B      - LEFT ACTION BUTTON          ",
    .OSD_drawTextBG 3 9 " Y      - TOP ACTION BUTTON           ",
    .OSD_drawTextBG 3 10 " X      - LAST SELECTED KEYPAD BUTTON ",
    .OSD_drawTextBG 3 11 " L/R    - SHOW KEYPAD                 ",
    .OSD_drawTextBG 3 12 " LT/RT  - KEYPAD CLEAR/ENTER          ",
    .OSD_drawTextBG 3 13 "                                      ",
    .OSD_drawTextBG 3 14 " START  - PAUSE GAME                  ",
    .OSD_drawTextBG 3 15 " SELECT - SWAP LEFT/RIGHT CONTROLLERS ",
    .OSD_drawTextBG 3 16 "                                      ",
    .OSD_drawTextBG 3 17 " freeintv 1.2          LICENSE GPL V2+",
    .OSD_drawTextBG 3 18 "                                      " ]

/-- The on-screen display calls of the pause toggle (lines 1220-1228), from the pads after
`update_input` and the value of `paused` after the toggle. -/
def pauseEvents (afterInput afterToggle : FrameState) : List Event :=
  if (afterInput.joypad0 8 = 1 ∧ afterInput.joypre0 8 = 0) ∨
      (afterInput.joypad1 8 = 1 ∧ afterInput.joypre1 8 = 0) then
    if afterToggle.paused then
      [.OSD_drawPaused, .OSD_drawTextCenterBG 21 "HELP - PRESS A"]
    else []
  else []

/-- Player 1 input in single-screen mode (lines 1258-1267): the value of `showKeypad0` and
the call made. -/
def player1Input (inp : RunInput) (fs : FrameState) : Bool × List Event :=
  if Int.lor (fs.joypad0 10) (fs.joypad0 11) ≠ 0 then
    (true, [.setControllerInput 0 inp.keypadState0 .keypad])
  else
    (false, [.setControllerInput 0 inp.controllerState0 .controller])

/-- Player 2 input (lines 1270-1279 and 1309-1318): the value of `showKeypad1` and the call
made. -/
def player2Input (inp : RunInput) (fs : FrameState) : Bool × List Event :=
  if Int.lor (fs.joypad1 10) (fs.joypad1 11) ≠ 0 then
    (true, [.setControllerInput 1 inp.keypadState1 .keypad])
  else
    (false, [.setControllerInput 1 inp.controllerState1 .controller])

/-- The value of `any_hotspot_pressed` after the loop of lines 1292-1300.  The loop is left
by `break` at the first pressed hotspot; here the later iterations leave the flag alone. -/
def anyHotspotPressed (d : Display) : Int :=
  forNat OVERLAY_HOTSPOT_COUNT (fun h any_hotspot_pressed =>
    if any_hotspot_pressed ≠ 0 then any_hotspot_pressed
    else if d.hotspot_pressed h ≠ 0 then 1 else any_hotspot_pressed) 0

/-- The multi-screen input branch of `retro_run` (lines 1283-1319): the display globals
afterwards, the value of `showKeypad1`, and the calls made. -/
def multiScreenInput (inp : RunInput) (fs : FrameState) (d : Display) :
    Display × Bool × List Event :=
  let h := process_hotspot_input inp.hotspotPointer d
  let d := h.1
  let d := process_toggle_button_input inp.togglePointer d
  let any_hotspot_pressed := anyHotspotPressed d
  let regular : List Event :=
    if any_hotspot_pressed = 0 then [.setControllerInput 0 inp.controllerState0 .controller]
    else []
  let p2 := player2Input inp fs
  (d, p2.1, h.2 ++ regular ++ p2.2)

/-- The audio part of the branch that is not paused (lines 1335-1369): the globals
afterwards and one record per call of `Audio`; `none` when `c / l` divides by zero. -/
def audioPhase (AUDIO_FREQUENCY : Int) (e : AudioEnv) (fs : FrameState) :
    Option (FrameState × List MixRecord) :=
  let fs := { fs with audioInc := binary64 ((3733.5 : ℚ) / (audioSamples AUDIO_FREQUENCY : ℚ)) }
  let fs := { fs with ivoiceInc := 1.0 }
  match mixLoop e fs.audioInc fs.ivoiceInc (audioSamples AUDIO_FREQUENCY).toNat
      { audioBufferPos := fs.audioBufferPos, ivoiceBufferPos := fs.ivoiceBufferPos, j := 0 } with
  | none => none
  | some (m, records) =>
    let fs := { fs with audioBufferPos := m.audioBufferPos, ivoiceBufferPos := m.ivoiceBufferPos }
    let fs := { fs with audioBufferPos := 0.0 }
    let fs := { fs with ivoiceBufferPos := 0.0 }
    some (fs, records)

/-- The controller swap of `retro_run` (lines 1374-1388): the new value of `controllerSwap`
and the on-screen display call made. -/
def swapControllers (fs : FrameState) (controllerSwap : Int) : Int × List Event :=
  if fs.joypad0 9 = 1 ∨ fs.joypad1 9 = 1 then
    let controllerSwap :=
      if (fs.joypad0 9 = 1 ∧ fs.joypre0 9 = 0) ∨ (fs.joypad1 9 = 1 ∧ fs.joypre1 9 = 0) then
        Int.xor controllerSwap 1
      else controllerSwap
    if controllerSwap = 1 then (controllerSwap, [.OSD_drawLeftRight])
    else (controllerSwap, [.OSD_drawRightLeft])
  else (controllerSwap, [])

/-- The call of `Video` that ends `retro_run` (lines 1397-1401). -/
def videoCall (d : Display) : Event :=
  if d.multi_screen_enabled ≠ 0 ∧ d.multi_screen_buffer.isSome = true then
    .Video .workspace WORKSPACE_WIDTH WORKSPACE_HEIGHT (4 * WORKSPACE_WIDTH)
  else
    .Video .frame frameWidth frameHeight (4 * frameWidth)

/-- The end of `retro_run` (lines 1373-1401), common to both branches: controller swap, halt
message, `render_multi_screen` and the call of `Video`. -/
def finishFrame (inp : RunInput) (s : RunState) (events : List Event) : RunResult :=
  let sw := swapControllers s.fs s.controllerSwap
  let halt : List Event :=
    if inp.intv_halt ≠ 0 then [.OSD_drawTextBG 3 5 "INTELLIVISION HALTED"] else []
  let d := render_multi_screen inp.malloc { s.d with frame := inp.frame }
  { state := { s with controllerSwap := sw.1, d := d }
    events := events ++ sw.2 ++ halt ++ [videoCall d] }

/-- The controller input of the branch that is not paused (lines 1254-1319): the display
globals afterwards, the values of `showKeypad0` and `showKeypad1`, and the calls made. -/
def inputPhase (inp : RunInput) (fs : FrameState) (d : Display) :
    Display × Bool × Bool × List Event :=
  if d.multi_screen_enabled = 0 then
    let p1 := player1Input inp fs
    let p2 := player2Input inp fs
    (d, p1.1, p2.1, p1.2 ++ p2.2)
  else
    let m := multiScreenInput inp fs d
    (m.1, false, m.2.1, m.2.2)

/-- The keyboard input of `retro_run` (lines 1321-1325): the call made, if any. -/
def keyboardInput (s : RunState) : List Event :=
  if s.keyboardDown ∨ s.keyboardChange then
    [.setControllerInput 0 s.keyboardState .keyboard]
  else []

/-- The calls `drawMiniKeypad(0, frame)` and `drawMiniKeypad(1, frame)` (lines 1331-1332). -/
def keypadDraws (showKeypad0 showKeypad1 : Bool) : List Event :=
  (if showKeypad0 then [.drawMiniKeypad 0] else []) ++
  (if showKeypad1 then [.drawMiniKeypad 1] else [])

/-- The function `retro_run` (lines 1197-1403).  Calls to functions outside libretro.c are
recorded as events; what those functions return or leave in shared variables is taken from
`inp`.  `check_variables(false)` (line 1215) does nothing and is left out, as are the unused
locals.  The result is `none` when the mixing loop divides by zero. -/
def retro_run (AUDIO_FREQUENCY : Int) (inp : RunInput) (s : RunState) : Option RunResult :=
  let afterInput := update_input inp.pad0 inp.pad1 s.fs
  let fs := pauseToggle afterInput
  let events := pauseEvents afterInput fs
  if fs.paused then
    let help : List Event :=
      if fs.joypad0 4 = 1 ∨ fs.joypad1 4 = 1 then helpScreen else []
    some (finishFrame inp { s with fs := fs } (events ++ help))
  else
    let input := inputPhase inp fs s.d
    let d := input.1
    let showKeypad0 := input.2.1
    let showKeypad1 := input.2.2.1
    let events := events ++ input.2.2.2
    let events := events ++ keyboardInput s
    let keyboardChange := if s.keyboardDown ∨ s.keyboardChange then false else s.keyboardChange
    let events := events ++ [.Run]
    let events := events ++ keypadDraws showKeypad0 showKeypad1
    match audioPhase AUDIO_FREQUENCY inp.env fs with
    | none => none
    | some (fs, records) =>
      let events := events ++ records.map (fun m => Event.Audio m.left m.right)
      let events := events ++ [.PSGFrame, .ivoice_frame]
      some (finishFrame inp
        { s with fs := fs, d := d, keyboardChange := keyboardChange } events)

/-- The part of `struct retro_system_av_info` that `retro_get_system_av_info` fills with
integers; `geometry.aspect_ratio`, a `float` quotient, is left out. -/
structure retro_system_av_info where
  base_width : Int
  base_height : Int
  max_width : Int
  max_height : Int
  fps : Int
  sample_rate : Int
  deriving DecidableEq, Repr

/-- The function `retro_get_system_av_info` (lines 1422-1447). -/
def retro_get_system_av_info (AUDIO_FREQUENCY : Int) (d : Display) : retro_system_av_info :=
  if d.multi_screen_enabled ≠ 0 then
    { base_width := WORKSPACE_WIDTH, base_height := WORKSPACE_HEIGHT,
      max_width := WORKSPACE_WIDTH, max_height := WORKSPACE_HEIGHT,
      fps := DefaultFPS, sample_rate := AUDIO_FREQUENCY }
  else
    { base_width := MaxWidth, base_height := MaxHeight,
      max_width := MaxWidth, max_height := MaxHeight,
      fps := DefaultFPS, sample_rate := AUDIO_FREQUENCY }

/-- The `Video` calls in a list of events, in order. -/
def videoCalls (events : List Event) : List Event :=
  events.filter (fun e => match e with
    | .Video _ _ _ _ => true
    | _ => false)

/-- A frame input for `retro_run` with silent pads, an idle pointer and constant sound data. -/
def sampleRunInput : RunInput :=
  { pad0 := fun _ => 0, pad1 := fun _ => 0,
    hotspotPointer := ⟨0, 0, 0⟩, togglePointer := ⟨0, 0, 0⟩,
    controllerState0 := 0, controllerState1 := 0, keypadState0 := 0, keypadState1 := 0,
    env := sampleInput.env, intv_halt := 0, frame := fun _ => 0, malloc := none }

/-- A frame input that presses the pointer on hotspot 0 (key 1), otherwise as
`sampleRunInput`. -/
def touchRunInput : RunInput :=
  { sampleRunInput with hotspotPointer := ⟨14000, -10000, 1⟩, togglePointer := ⟨14000, -10000, 1⟩ }

/-- The program state after loading a game with multi-screen mode on. -/
def sampleRunState : RunState :=
  { RunState.init with d := sampleDisplay }

/-- The OR of the keypad codes of the pressed hotspots, as the specification puts it. -/
def orOfPressed (d : Display) : Int :=
  ((List.range OVERLAY_HOTSPOT_COUNT).filter (fun i => decide (d.hotspot_pressed i ≠ 0))).foldl
    (fun acc i => Int.lor acc (d.overlay_hotspots i).keypad_code) 0

/-- The `setControllerInput` calls in a list of events, in order. -/
def controllerCalls (events : List Event) : List Event :=
  events.filter (fun e => match e with
    | .setControllerInput _ _ _ => true
    | _ => false)

/-! ## Memory exposure (libretro.c lines 1463-1479) -/

/-- `retro_get_memory_data` (lines 1463-1470): the address of the live `Memory` array when `id`
is `RETRO_MEMORY_SYSTEM_RAM`, the null pointer otherwise. The pointer is modelled by the array
it points to and the null pointer by `none`; `RETRO_MEMORY_SYSTEM_RAM` is a macro of libretro.h
and is a parameter. -/
def retro_get_memory_data {K : Components} (RETRO_MEMORY_SYSTEM_RAM : Nat) (s : Console K)
    (id : Nat) : Option (Fin MEMORY_WORDS → Nat) :=
  if id = RETRO_MEMORY_SYSTEM_RAM then some s.Memory else none

/-- `retro_get_memory_size` (lines 1472-1479). -/
def retro_get_memory_size (RETRO_MEMORY_SYSTEM_RAM : Nat) (id : Nat) : Nat :=
  if id = RETRO_MEMORY_SYSTEM_RAM then 0x10000 else 0

/-! ## Sequences of frames -/

/-- Successive calls of `retro_run`, one for each input of the list, each made in the state
the call before it left.  The result is the state after the last call, `none` when one of
the calls does not complete. -/
def retroRunCalls (AUDIO_FREQUENCY : Int) : List RunInput → RunState → Option RunState
  | [], s => some s
  | inp :: rest, s =>
    match retro_run AUDIO_FREQUENCY inp s with
    | none => none
    | some r => retroRunCalls AUDIO_FREQUENCY rest r.state

/-- The number of calls in a sequence whose poll shows a rising edge of Select (index 9) on
pad 0 or on pad 1; `prev0` and `prev1` are the values of Select on the two pads at the poll
before the first call. -/
def selectEdges (prev0 prev1 : Int) : List RunInput → Nat
  | [] => 0
  | inp :: rest =>
    (if (inp.pad0 9 = 1 ∧ prev0 = 0) ∨ (inp.pad1 9 = 1 ∧ prev1 = 0) then 1 else 0)
      + selectEdges (inp.pad0 9) (inp.pad1 9) rest

/-- A frame input on which Start is held on pad 0, otherwise as `sampleRunInput`. -/
def startRunInput : RunInput :=
  { sampleRunInput with pad0 := fun i => if i = 8 then 1 else 0 }

/-- A frame input on which Select is held on pad 0, otherwise as `sampleRunInput`. -/
def selectRunInput : RunInput :=
  { sampleRunInput with pad0 := fun i => if i = 9 then 1 else 0 }

/-! ## Theorems -/

theorem memcpy_full (dst src : Fin MEMORY_WORDS → Nat) : memcpy dst src MEMORY_WORDS = src := by
  funext i
  simp [memcpy, i.isLt]

/-- C1: `retro_unserialize` returns false exactly when the version member of the blob differs
from `SERIALIZED_VERSION` (0x4f544702); when the member equals that constant it returns true,
for every value of the size argument and every live state. -/
theorem retro_unserialize_ret_iff (K : Components) (data : serialized K) (size : Nat)
    (s : Console K) :
    SERIALIZED_VERSION = 0x4f544702 ∧
    ((retro_unserialize K data size s).ret = false ↔ data.version ≠ SERIALIZED_VERSION) ∧
    ((retro_unserialize K data size s).ret = true ↔ data.version = SERIALIZED_VERSION) := by
  refine ⟨rfl, ?_, ?_⟩ <;> by_cases h : data.version = SERIALIZED_VERSION <;>
    simp [retro_unserialize, h]

theorem natComponent_roundTrips : natComponent.RoundTrips := fun _ _ => rfl

/-- C2: a load that fails is atomic.  For every live state and every blob whose version
member differs from `SERIALIZED_VERSION`, `retro_unserialize` returns false, the live state
after the call is the live state before it (so every word of `Memory`, `SR1`, `intv_halt` and
the state of the four chips are unchanged), and none of `CP1610Unserialize`,
`STICUnserialize`, `PSGUnserialize`, `ivoiceUnserialize` has been called. -/
theorem retro_unserialize_mismatch_atomic (K : Components) (data : serialized K) (size : Nat)
    (s : Console K) (h : data.version ≠ SERIALIZED_VERSION) :
    (retro_unserialize K data size s).ret = false ∧
    (∀ i : Fin MEMORY_WORDS, (retro_unserialize K data size s).live.Memory i = s.Memory i) ∧
    (retro_unserialize K data size s).live.SR1 = s.SR1 ∧
    (retro_unserialize K data size s).live.intv_halt = s.intv_halt ∧
    (retro_unserialize K data size s).live = s ∧
    (retro_unserialize K data size s).calls = [] ∧
    ComponentCall.CP1610Unserialize ∉ (retro_unserialize K data size s).calls ∧
    ComponentCall.STICUnserialize ∉ (retro_unserialize K data size s).calls ∧
    ComponentCall.PSGUnserialize ∉ (retro_unserialize K data size s).calls ∧
    ComponentCall.ivoiceUnserialize ∉ (retro_unserialize K data size s).calls := by
  have hr : retro_unserialize K data size s = { ret := false, live := s, calls := [] } := by
    simp [retro_unserialize, h]
  rw [hr]
  simp

theorem retro_unserialize_mismatch_atomic_witness :
    staleBlob.version ≠ SERIALIZED_VERSION ∧
    (retro_unserialize natComponents staleBlob 0 sampleConsole).live = sampleConsole :=
  ⟨by decide,
   (retro_unserialize_mismatch_atomic natComponents staleBlob 0 sampleConsole (by decide)).2.2.2.2.1⟩

/-- C3: save/restore round trip.  For every live state `s`, `retro_serialize` returns true and
writes a blob; whatever the live state has become since (`changed`) and whatever the size
arguments are, `retro_unserialize` on that blob returns true and leaves every word of
`Memory`, `SR1` and `intv_halt` at their values in `s`; each chip whose `Unserialize` undoes
its `Serialize` is also back in its state in `s`. -/
theorem retro_serialize_unserialize_round_trip (K : Components) (data : serialized K)
    (size size2 : Nat) (s changed : Console K) :
    (retro_serialize K data size s).ret = true ∧
    (retro_unserialize K (retro_serialize K data size s).data size2 changed).ret = true ∧
    (∀ i : Fin MEMORY_WORDS,
      (retro_unserialize K (retro_serialize K data size s).data size2 changed).live.Memory i
        = s.Memory i) ∧
    (retro_unserialize K (retro_serialize K data size s).data size2 changed).live.SR1 = s.SR1 ∧
    (retro_unserialize K (retro_serialize K data size s).data size2 changed).live.intv_halt
      = s.intv_halt ∧
    (K.CP1610.RoundTrips →
      (retro_unserialize K (retro_serialize K data size s).data size2 changed).live.cpu
        = s.cpu) ∧
    (K.STIC.RoundTrips →
      (retro_unserialize K (retro_serialize K data size s).data size2 changed).live.stic
        = s.stic) ∧
    (K.PSG.RoundTrips →
      (retro_unserialize K (retro_serialize K data size s).data size2 changed).live.psg
        = s.psg) ∧
    (K.ivoice.RoundTrips →
      (retro_unserialize K (retro_serialize K data size s).data size2 changed).live.ivoice
        = s.ivoice) := by
  refine ⟨rfl, ?_, ?_, ?_, ?_, ?_, ?_, ?_, ?_⟩
  · simp [retro_unserialize, retro_serialize]
  · intro i
    simp [retro_unserialize, retro_serialize, memcpy_full]
  · simp [retro_unserialize, retro_serialize]
  · simp [retro_unserialize, retro_serialize]
  · intro h
    simpa [retro_unserialize, retro_serialize] using h s.cpu changed.cpu
  · intro h
    simpa [retro_unserialize, retro_serialize] using h s.stic changed.stic
  · intro h
    simpa [retro_unserialize, retro_serialize] using h s.psg changed.psg
  · intro h
    simpa [retro_unserialize, retro_serialize] using h s.ivoice changed.ivoice

theorem retro_serialize_unserialize_round_trip_witness :
    (retro_unserialize natComponents (retro_serialize natComponents staleBlob 0 sampleConsole).data
      0 otherConsole).live.cpu = sampleConsole.cpu :=
  (retro_serialize_unserialize_round_trip natComponents staleBlob 0 0 sampleConsole
    otherConsole).2.2.2.2.2.1 natComponent_roundTrips

/-- C4: `retro_serialize` always returns true, and the blob it leaves has, in the order of
the members of `struct serialized`: the version constant 0x4f544702, the CPU state, the STIC
state, the PSG state, the ivoice state, the memory image (all 65536 words, equal to the live
`Memory`), then `SR1` and `intv_halt`; nothing of the buffer's earlier content survives. -/
theorem retro_serialize_layout (K : Components) (data : serialized K) (size : Nat)
    (s : Console K) :
    (retro_serialize K data size s).ret = true ∧
    (retro_serialize K data size s).data.fields =
      [Field.version 0x4f544702,
       Field.CP1610 (K.CP1610.Serialize s.cpu),
       Field.STIC (K.STIC.Serialize s.stic),
       Field.PSG (K.PSG.Serialize s.psg),
       Field.ivoice (K.ivoice.Serialize s.ivoice),
       Field.Memory s.Memory,
       Field.SR1 s.SR1,
       Field.intv_halt s.intv_halt] ∧
    MEMORY_WORDS = 65536 ∧
    (∀ i : Fin MEMORY_WORDS, (retro_serialize K data size s).data.Memory i = s.Memory i) := by
  refine ⟨rfl, ?_, rfl, ?_⟩
  · simp [retro_serialize, serialized.fields, memcpy_full, SERIALIZED_VERSION]
  · intro i
    simp [retro_serialize, memcpy_full]

/-- C5: taking a snapshot does not disturb the running console.  `retro_serialize` leaves
the live state as it was (every word of `Memory`, `SR1`, `intv_halt`), and `retro_serialize`
immediately followed by `retro_unserialize` of the blob just written returns true and leaves
`Memory`, `SR1` and `intv_halt` identical to their values before the two calls. -/
theorem retro_serialize_preserves_live (K : Components) (data : serialized K)
    (size size2 : Nat) (s : Console K) :
    (retro_serialize K data size s).live = s ∧
    (∀ i : Fin MEMORY_WORDS, (retro_serialize K data size s).live.Memory i = s.Memory i) ∧
    (retro_serialize K data size s).live.SR1 = s.SR1 ∧
    (retro_serialize K data size s).live.intv_halt = s.intv_halt ∧
    (retro_unserialize K (retro_serialize K data size s).data size2
      (retro_serialize K data size s).live).ret = true ∧
    (∀ i : Fin MEMORY_WORDS,
      (retro_unserialize K (retro_serialize K data size s).data size2
        (retro_serialize K data size s).live).live.Memory i = s.Memory i) ∧
    (retro_unserialize K (retro_serialize K data size s).data size2
      (retro_serialize K data size s).live).live.SR1 = s.SR1 ∧
    (retro_unserialize K (retro_serialize K data size s).data size2
      (retro_serialize K data size s).live).live.intv_halt = s.intv_halt := by
  refine ⟨rfl, fun _ => rfl, rfl, rfl, ?_, ?_, ?_, ?_⟩
  · simp [retro_unserialize, retro_serialize]
  · intro i
    simp [retro_unserialize, retro_serialize, memcpy_full]
  · simp [retro_unserialize, retro_serialize]
  · simp [retro_unserialize, retro_serialize]

/-- C6: the snapshot size is constant.  `retro_serialize_size` returns the same value in
any two emulator states, in particular before and after any sequence of `retro_run`,
`retro_reset`, `retro_serialize` and `retro_unserialize` calls, and that value is
`sizeof(struct serialized)`, the size of the record `retro_serialize` fills and
`retro_unserialize` reads. -/
theorem retro_serialize_size_constant (K : Components) (L : ComponentLayout)
    (runFrame reset : Console K → Console K) (calls : List (ApiCall K)) (s t : Console K) :
    retro_serialize_size L s = retro_serialize_size L t ∧
    retro_serialize_size L (calls.foldl (fun st c => c.apply runFrame reset st) s)
      = retro_serialize_size L s ∧
    retro_serialize_size L s = sizeofStruct (serializedMembers L) :=
  ⟨rfl, rfl, rfl⟩

theorem intRange_zero (lo : Int) : intRange lo 0 = [] := rfl

theorem intRange_length (lo : Int) (n : Nat) : (intRange lo n).length = n := by
  simp [intRange]

theorem intRange_succ_left (lo : Int) (n : Nat) :
    intRange lo (n + 1) = lo :: intRange (lo + 1) n := by
  simp only [intRange, List.range_succ_eq_map, List.map_cons, List.map_map]
  congr 1
  · simp
  · apply List.map_congr_left
    intro t _
    simp only [Function.comp, Nat.succ_eq_add_one]
    push_cast
    ring

theorem intRange_append (lo : Int) (a b : Nat) :
    intRange lo a ++ intRange (lo + a) b = intRange lo (a + b) := by
  induction a generalizing lo with
  | zero => simp [intRange_zero]
  | succ a ih =>
    rw [intRange_succ_left, show a + 1 + b = (a + b) + 1 by omega, intRange_succ_left,
      List.cons_append]
    congr 1
    have := ih (lo + 1)
    rw [← this]
    congr 2
    push_cast
    ring

theorem mem_intRange (lo : Int) (n : Nat) (t : Int) :
    t ∈ intRange lo n ↔ lo ≤ t ∧ t < lo + n := by
  simp only [intRange, List.mem_map, List.mem_range]
  constructor
  · rintro ⟨a, ha, rfl⟩
    omega
  · rintro ⟨h1, h2⟩
    exact ⟨(t - lo).toNat, by omega, by omega⟩

theorem intRange_nodup (lo : Int) (n : Nat) : (intRange lo n).Nodup := by
  unfold intRange
  apply List.Nodup.map _ (List.nodup_range n)
  intro a b h
  simpa using h

theorem sumWhile_range (buf : Int → Int) (k : Int) (n : Nat) (j c : Int) (rd : List Int)
    (h : k = j + n) :
    sumWhile buf k n (j, c, rd) = (k, c + ((intRange j n).map buf).sum, rd ++ intRange j n) := by
  induction n generalizing j c rd with
  | zero =>
    simp [sumWhile, intRange_zero] at *
    exact h.symm
  | succ n ih =>
    have hlt : j < k := by omega
    rw [sumWhile]
    simp only [hlt, if_true]
    rw [ih (j + 1) (c + buf j) (rd ++ [j]) (by push_cast at h; omega), intRange_succ_left]
    simp [add_assoc]

theorem specInc_eq (n : Int) : specInc n = (7467 / 2 : ℚ) / (n : ℚ) := by
  unfold specInc
  norm_num

theorem specInc_pos (n : Int) (hn0 : 0 < n) : 0 < specInc n := by
  have : (0 : ℚ) < (n : ℚ) := by exact_mod_cast hn0
  rw [specInc_eq]
  positivity

theorem specInc_mul (n : Int) (hn0 : 0 < n) : (n : ℚ) * specInc n = 7467 / 2 := by
  have h0 : (n : ℚ) ≠ 0 := by
    have : (0 : ℚ) < (n : ℚ) := by exact_mod_cast hn0
    exact ne_of_gt this
  rw [specInc_eq]
  field_simp
  ring

theorem specInc_le (n : Int) (hn0 : 0 < n) (i : Nat) (hi : (i : Int) ≤ n) :
    (i : ℚ) * specInc n ≤ 7467 / 2 := by
  have h1 : (i : ℚ) ≤ (n : ℚ) := by exact_mod_cast hi
  have := mul_le_mul_of_nonneg_right h1 (le_of_lt (specInc_pos n hn0))
  rwa [specInc_mul n hn0] at this

theorem truncToInt_nonneg (x : ℚ) (h : 0 ≤ x) : truncToInt x = ⌊x⌋ := by
  simp [truncToInt, h]

theorem emod_succ (a m : Int) (hm : 0 < m) :
    (a + 1) % m = if a % m + 1 = m then 0 else a % m + 1 := by
  have h1 := Int.emod_nonneg a (ne_of_gt hm)
  have h2 := Int.emod_lt_of_pos a hm
  have h3 : (a + 1) % m = (a % m + 1) % m := (Int.emod_add_emod a m 1).symm
  rw [h3]
  split_ifs with h
  · rw [h, Int.emod_self]
  · exact Int.emod_eq_of_lt (by omega) (by omega)

theorem voiceIndexAt_nonneg (e : AudioEnv) (i : Nat) : 0 ≤ voiceIndexAt e i := by
  unfold voiceIndexAt
  split_ifs with h
  · exact Int.emod_nonneg _ (ne_of_gt h)
  · exact le_refl 0

theorem voiceIndexAt_succ (e : AudioEnv) (i : Nat) :
    (if ((voiceIndexAt e i : Int) : ℚ) + 1 ≥ (e.ivoiceBufferSize : ℚ) then (0 : ℚ)
      else ((voiceIndexAt e i : Int) : ℚ) + 1) = ((voiceIndexAt e (i + 1) : Int) : ℚ) := by
  unfold voiceIndexAt
  by_cases hv : 0 < e.ivoiceBufferSize
  · simp only [hv, if_true]
    have hvm0 := Int.emod_nonneg (i : Int) (ne_of_gt hv)
    have hvm1 := Int.emod_lt_of_pos (i : Int) hv
    have hs := emod_succ (i : Int) e.ivoiceBufferSize hv
    push_cast
    rw [hs]
    by_cases hc : (i : Int) % e.ivoiceBufferSize + 1 = e.ivoiceBufferSize
    · have : (((i : Int) % e.ivoiceBufferSize : Int) : ℚ) + 1 ≥ (e.ivoiceBufferSize : ℚ) := by
        have : e.ivoiceBufferSize ≤ (i : Int) % e.ivoiceBufferSize + 1 := by omega
        exact_mod_cast this
      simp [hc, this]
    · have : ¬ ((((i : Int) % e.ivoiceBufferSize : Int) : ℚ) + 1 ≥ (e.ivoiceBufferSize : ℚ)) := by
        have : (i : Int) % e.ivoiceBufferSize + 1 < e.ivoiceBufferSize := by omega
        push_neg
        exact_mod_cast this
      simp [hc, this]
  · simp only [hv, if_false]
    have : (e.ivoiceBufferSize : ℚ) ≤ 1 := by
      have : e.ivoiceBufferSize ≤ 1 := by omega
      exact_mod_cast this
    simp [this]


/-! ### Rounding to double -/

theorem roundHalfEven_error (y : ℚ) : |((roundHalfEven y : Int) : ℚ) - y| ≤ 1 / 2 := by
  have h0 := Int.floor_le y
  have h1 := Int.lt_floor_add_one y
  unfold roundHalfEven
  simp only
  rw [abs_le]
  split_ifs <;> push_cast <;> constructor <;> linarith

theorem roundHalfEven_intCast (k : Int) : roundHalfEven (k : ℚ) = k := by
  simp [roundHalfEven]

theorem binary64_zero : binary64 0 = 0 := by
  simp [binary64]

theorem binary64_error (x : ℚ) (hx : 0 < x) : |binary64 x - x| ≤ x / 2 ^ 53 := by
  have hne : x ≠ 0 := ne_of_gt hx
  have hL : ((2 : ℕ) : ℚ) ^ Int.log 2 x ≤ x := Int.zpow_log_le_self (by norm_num) hx
  rw [Nat.cast_ofNat] at hL
  have he : (2 : ℚ) ^ (Int.log 2 x - 52) = 2 ^ Int.log 2 x / 2 ^ 52 := by
    rw [zpow_sub₀ (by norm_num : (2 : ℚ) ≠ 0)]
    norm_num
  have hpos : (0 : ℚ) < 2 ^ (Int.log 2 x - 52) := zpow_pos (by norm_num) _
  have hr := roundHalfEven_error (x / 2 ^ (Int.log 2 x - 52))
  simp only [binary64, hne, if_false, abs_of_pos hx]
  have hfac : ((roundHalfEven (x / 2 ^ (Int.log 2 x - 52)) : Int) : ℚ) * 2 ^ (Int.log 2 x - 52) - x
      = (((roundHalfEven (x / 2 ^ (Int.log 2 x - 52)) : Int) : ℚ) - x / 2 ^ (Int.log 2 x - 52))
        * 2 ^ (Int.log 2 x - 52) := by
    field_simp
  rw [hfac, abs_mul, abs_of_pos hpos]
  calc |((roundHalfEven (x / 2 ^ (Int.log 2 x - 52)) : Int) : ℚ) - x / 2 ^ (Int.log 2 x - 52)|
        * 2 ^ (Int.log 2 x - 52)
      ≤ 1 / 2 * 2 ^ (Int.log 2 x - 52) := mul_le_mul_of_nonneg_right hr (le_of_lt hpos)
    _ = 2 ^ Int.log 2 x / 2 ^ 53 := by rw [he]; ring
    _ ≤ x / 2 ^ 53 := by
        apply div_le_div_of_nonneg_right hL
        positivity

theorem binary64_eq_of_bounds (x : ℚ) (e : Int) (h1 : 2 ^ 52 * (2 : ℚ) ^ e ≤ x)
    (h2 : x < 2 ^ 53 * (2 : ℚ) ^ e) :
    binary64 x = ((roundHalfEven (x / 2 ^ e) : Int) : ℚ) * 2 ^ e := by
  have hpe : (0 : ℚ) < 2 ^ e := zpow_pos (by norm_num) _
  have hx : 0 < x := lt_of_lt_of_le (by positivity) h1
  have hlog : Int.log 2 x = e + 52 := by
    apply le_antisymm
    · have : Int.log 2 x < e + 53 := by
        rw [← Int.lt_zpow_iff_log_lt (by norm_num) hx, Nat.cast_ofNat,
          zpow_add₀ (by norm_num : (2 : ℚ) ≠ 0)]
        calc x < 2 ^ 53 * (2 : ℚ) ^ e := h2
          _ = 2 ^ e * 2 ^ (53 : Int) := by norm_num [mul_comm]
      omega
    · rw [← Int.zpow_le_iff_le_log (by norm_num) hx, Nat.cast_ofNat,
        zpow_add₀ (by norm_num : (2 : ℚ) ≠ 0)]
      calc (2 : ℚ) ^ e * 2 ^ (52 : Int) = 2 ^ 52 * (2 : ℚ) ^ e := by norm_num [mul_comm]
        _ ≤ x := h1
  simp only [binary64, ne_of_gt hx, if_false, abs_of_pos hx, hlog]
  rw [show e + 52 - 52 = e by omega]

theorem binary64_natCast (k : Nat) (hk : k < 2 ^ 53) : binary64 (k : ℚ) = (k : ℚ) := by
  by_cases hk0 : k = 0
  · subst hk0
    simp [binary64]
  have h1 : 2 ^ Nat.log 2 k ≤ k := Nat.pow_log_le_self 2 hk0
  have h2 : k < 2 ^ (Nat.log 2 k + 1) := Nat.lt_pow_succ_log_self (by norm_num) k
  have hl : Nat.log 2 k < 53 := by
    by_contra hc
    have : 2 ^ 53 ≤ 2 ^ Nat.log 2 k := Nat.pow_le_pow_right (by norm_num) (by omega)
    omega
  obtain ⟨t, ht⟩ : ∃ t, Nat.log 2 k + t = 52 := ⟨52 - Nat.log 2 k, by omega⟩
  have hz : (2 : ℚ) ^ (-(t : Int)) = 1 / 2 ^ t := by
    rw [zpow_neg, zpow_natCast, one_div]
  have hpt : (0 : ℚ) < 2 ^ t := by positivity
  have h52 : (2 : ℚ) ^ 52 = 2 ^ Nat.log 2 k * 2 ^ t := by
    rw [← pow_add, ht]
  have h1q : ((2 ^ Nat.log 2 k : Nat) : ℚ) ≤ (k : ℚ) := by exact_mod_cast h1
  have h2q : (k : ℚ) < ((2 ^ (Nat.log 2 k + 1) : Nat) : ℚ) := by exact_mod_cast h2
  push_cast at h1q h2q
  rw [binary64_eq_of_bounds (k : ℚ) (-(t : Int))]
  · rw [hz]
    have hint : (k : ℚ) / (1 / 2 ^ t) = (((k * 2 ^ t : Nat) : Int) : ℚ) := by
      push_cast
      field_simp
    rw [hint, roundHalfEven_intCast]
    push_cast
    field_simp
  · rw [hz, h52]
    field_simp
    exact h1q
  · have h53 : (2 : ℚ) ^ 53 * (1 / 2 ^ t) = 2 ^ Nat.log 2 k * 2 := by
      rw [show (2 : ℚ) ^ 53 = 2 ^ 52 * 2 by norm_num, h52]
      field_simp
      ring
    rw [hz, h53]
    rw [pow_succ] at h2q
    exact h2q

theorem roundHalfEven_div (N d : Nat) (hd : 0 < d) :
    roundHalfEven ((N : ℚ) / (d : ℚ)) = ((roundDiv N d : Nat) : Int) := by
  have hdq : (0 : ℚ) < (d : ℚ) := by exact_mod_cast hd
  have hfl : ⌊(N : ℚ) / (d : ℚ)⌋ = ((N / d : Nat) : Int) := by
    have := Rat.floor_intCast_div_natCast (N : Int) d
    push_cast at this ⊢
    exact this
  have hdm : (N : ℚ) = (d : ℚ) * ((N / d : Nat) : ℚ) + ((N % d : Nat) : ℚ) := by
    exact_mod_cast (Nat.div_add_mod N d).symm
  have hfrac : (N : ℚ) / (d : ℚ) - (((N / d : Nat) : Int) : ℚ) = ((N % d : Nat) : ℚ) / (d : ℚ) := by
    rw [Int.cast_natCast]
    field_simp
    linarith
  have hlt : ((N % d : Nat) : ℚ) / (d : ℚ) < 1 / 2 ↔ 2 * (N % d) < d := by
    rw [div_lt_div_iff₀ hdq (by norm_num)]
    constructor
    · intro h
      have : ((2 * (N % d) : Nat) : ℚ) < (d : ℚ) := by push_cast; linarith
      exact_mod_cast this
    · intro h
      have : ((2 * (N % d) : Nat) : ℚ) < (d : ℚ) := by exact_mod_cast h
      push_cast at this
      linarith
  have hgt : 1 / 2 < ((N % d : Nat) : ℚ) / (d : ℚ) ↔ d < 2 * (N % d) := by
    rw [div_lt_div_iff₀ (by norm_num) hdq]
    constructor
    · intro h
      have : (d : ℚ) < ((2 * (N % d) : Nat) : ℚ) := by push_cast; linarith
      exact_mod_cast this
    · intro h
      have : (d : ℚ) < ((2 * (N % d) : Nat) : ℚ) := by exact_mod_cast h
      push_cast at this
      linarith
  have hpar : ((N / d : Nat) : Int) % 2 = 0 ↔ (N / d) % 2 = 0 := by omega
  unfold roundHalfEven roundDiv
  simp only [hfl, hfrac, hlt, hgt, hpar]
  split_ifs <;> push_cast <;> rfl

theorem shiftOf_spec (fuel : Nat) :
    ∀ M : Nat, 2 ^ 52 ≤ M → M < 2 ^ (53 + fuel) →
      2 ^ (52 + shiftOf fuel M) ≤ M ∧ M < 2 ^ (53 + shiftOf fuel M) := by
  induction fuel with
  | zero =>
    intro M h1 h2
    exact ⟨h1, h2⟩
  | succ f ih =>
    intro M h1 h2
    unfold shiftOf
    split_ifs with h
    · exact ⟨h1, h⟩
    · have hM : 2 ^ 52 ≤ M / 2 := by omega
      have hM2 : M / 2 < 2 ^ (53 + f) := by
        have : 2 ^ (53 + (f + 1)) = 2 * 2 ^ (53 + f) := by
          rw [← Nat.add_assoc, pow_succ]
          ring
        omega
      obtain ⟨ha, hb⟩ := ih (M / 2) hM hM2
      have e1 : 2 ^ (52 + (shiftOf f (M / 2) + 1)) = 2 * 2 ^ (52 + shiftOf f (M / 2)) := by
        rw [← Nat.add_assoc, pow_succ]
        ring
      have e2 : 2 ^ (53 + (shiftOf f (M / 2) + 1)) = 2 * 2 ^ (53 + shiftOf f (M / 2)) := by
        rw [← Nat.add_assoc, pow_succ]
        ring
      rw [e1, e2]
      omega

theorem binary64_scaled (M : Nat) (h1 : 2 ^ 52 ≤ M) (h2 : M < 2 ^ 65) :
    binary64 ((M : ℚ) / 2 ^ 52) = ((roundBits M : Nat) : ℚ) / 2 ^ 52 := by
  obtain ⟨ha, hb⟩ := shiftOf_spec 12 M h1 (by norm_num at h2 ⊢; exact h2)
  have hsh : (2 : ℚ) ^ ((shiftOf 12 M : Int) - 52) = 2 ^ shiftOf 12 M / 2 ^ 52 := by
    rw [zpow_sub₀ (by norm_num : (2 : ℚ) ≠ 0), zpow_natCast]
    norm_num
  have haq : ((2 ^ (52 + shiftOf 12 M) : Nat) : ℚ) ≤ (M : ℚ) := by exact_mod_cast ha
  have hbq : (M : ℚ) < ((2 ^ (53 + shiftOf 12 M) : Nat) : ℚ) := by exact_mod_cast hb
  push_cast at haq hbq
  rw [pow_add] at haq hbq
  have hp : (0 : ℚ) < 2 ^ shiftOf 12 M := by positivity
  rw [binary64_eq_of_bounds _ ((shiftOf 12 M : Int) - 52), hsh]
  · have hq : (M : ℚ) / 2 ^ 52 / (2 ^ shiftOf 12 M / 2 ^ 52)
        = (M : ℚ) / ((2 ^ shiftOf 12 M : Nat) : ℚ) := by
      push_cast
      field_simp
    rw [hq, roundHalfEven_div M _ (by positivity)]
    unfold roundBits
    push_cast
    field_simp
  · rw [hsh]
    rw [le_div_iff₀ (by positivity)]
    calc 2 ^ 52 * (2 ^ shiftOf 12 M / 2 ^ 52) * (2 : ℚ) ^ 52
        = 2 ^ 52 * 2 ^ shiftOf 12 M := by
          field_simp
          ring
      _ ≤ (M : ℚ) := haq
  · rw [hsh]
    rw [div_lt_iff₀ (by positivity)]
    calc (M : ℚ) < 2 ^ 53 * 2 ^ shiftOf 12 M := hbq
      _ = 2 ^ 53 * (2 ^ shiftOf 12 M / 2 ^ 52) * (2 : ℚ) ^ 52 := by field_simp

/-! ### The accumulated position -/

theorem specInc_lower (n : Int) (hn0 : 0 < n) (hn : n ≤ 3733) : 1 + 1 / 7466 ≤ specInc n := by
  have h0 : (0 : ℚ) < (n : ℚ) := by exact_mod_cast hn0
  have h1 : (n : ℚ) ≤ 3733 := by exact_mod_cast hn
  rw [specInc_eq, le_div_iff₀ h0]
  linarith

theorem specInc_upper (n : Int) (hn0 : 0 < n) : specInc n ≤ 7467 / 2 := by
  have h0 : (0 : ℚ) < (n : ℚ) := by exact_mod_cast hn0
  have h1 : (1 : ℚ) ≤ (n : ℚ) := by exact_mod_cast hn0
  rw [specInc_eq, div_le_iff₀ h0]
  nlinarith

theorem doubleInc_error (n : Int) (hn0 : 0 < n) :
    |doubleInc n - specInc n| ≤ 1 / 2 ^ 41 := by
  have hq := specInc_pos n hn0
  have hu := specInc_upper n hn0
  have he := binary64_error (specInc n) hq
  have hb : specInc n / 2 ^ 53 ≤ 1 / 2 ^ 41 := by
    rw [div_le_div_iff₀ (by positivity) (by positivity)]
    norm_num
    linarith
  exact le_trans he hb

theorem doubleInc_lower (n : Int) (hn0 : 0 < n) (hn : n ≤ 3733) :
    1 + 1 / 2 ^ 40 ≤ doubleInc n := by
  have h1 := specInc_lower n hn0 hn
  have h2 := (abs_le.mp (doubleInc_error n hn0)).1
  norm_num at h1 h2 ⊢
  linarith

theorem doublePos_error (n : Int) (hn0 : 0 < n) (hn : n ≤ 3733) (i : Nat)
    (hi : (i : Int) ≤ n) :
    |doublePos n i - (i : ℚ) * specInc n| ≤ (i : ℚ) / 2 ^ 40 := by
  induction i with
  | zero => simp [doublePos]
  | succ i ih =>
    have hi1 : (i : Int) ≤ n := by push_cast at hi; omega
    have ihh := abs_le.mp (ih hi1)
    have hq0 := specInc_lower n hn0 hn
    have hie := abs_le.mp (doubleInc_error n hn0)
    have hil := doubleInc_lower n hn0 hn
    have htop := specInc_le n hn0 (i + 1) hi
    have hiq : (i : ℚ) ≤ 3733 := by
      have : (i : Int) ≤ 3733 := by push_cast at hi; omega
      exact_mod_cast this
    have hi0 : (0 : ℚ) ≤ (i : ℚ) := Nat.cast_nonneg i
    have hpos0 : 0 ≤ doublePos n i := by
      have : (0 : ℚ) ≤ (i : ℚ) * (specInc n - 1 / 2 ^ 40) :=
        mul_nonneg hi0 (by norm_num at hq0 ⊢; linarith)
      norm_num at ihh this ⊢
      linarith
    have hz0 : 0 < doublePos n i + doubleInc n := by
      norm_num at hil
      linarith
    have hz1 : doublePos n i + doubleInc n < 4096 := by
      push_cast at htop
      norm_num at ihh hie htop ⊢
      linarith
    have hr := abs_le.mp (binary64_error _ hz0)
    have hb : (doublePos n i + doubleInc n) / 2 ^ 53 ≤ 1 / 2 ^ 41 := by
      rw [div_le_div_iff₀ (by positivity) (by positivity)]
      norm_num
      linarith
    show |binary64 (doublePos n i + doubleInc n) - ((i + 1 : Nat) : ℚ) * specInc n|
      ≤ ((i + 1 : Nat) : ℚ) / 2 ^ 40
    rw [abs_le]
    push_cast
    norm_num at ihh hie hb hr ⊢
    constructor <;> linarith

theorem doublePos_nonneg (n : Int) (hn0 : 0 < n) (hn : n ≤ 3733) (i : Nat)
    (hi : (i : Int) ≤ n) : 0 ≤ doublePos n i := by
  have ihh := abs_le.mp (doublePos_error n hn0 hn i hi)
  have hq0 := specInc_lower n hn0 hn
  have hi0 : (0 : ℚ) ≤ (i : ℚ) := Nat.cast_nonneg i
  have : (0 : ℚ) ≤ (i : ℚ) * (specInc n - 1 / 2 ^ 40) :=
    mul_nonneg hi0 (by norm_num at hq0 ⊢; linarith)
  norm_num at ihh this ⊢
  linarith

theorem doublePos_lt (n : Int) (hn0 : 0 < n) (hn : n ≤ 3733) (i : Nat)
    (hi : (i : Int) ≤ n) : doublePos n i < 3734 := by
  have ihh := abs_le.mp (doublePos_error n hn0 hn i hi)
  have htop := specInc_le n hn0 i hi
  have hiq : (i : ℚ) ≤ 3733 := by
    have : (i : Int) ≤ 3733 := by omega
    exact_mod_cast this
  norm_num at ihh htop ⊢
  linarith

theorem doublePos_step (n : Int) (hn0 : 0 < n) (hn : n ≤ 3733) (i : Nat)
    (hi : (i : Int) < n) : doublePos n i + 1 ≤ doublePos n (i + 1) := by
  have hp0 := doublePos_nonneg n hn0 hn i (by omega)
  have hp1 := doublePos_lt n hn0 hn i (by omega)
  have hil := doubleInc_lower n hn0 hn
  have hie := abs_le.mp (doubleInc_error n hn0)
  have hu := specInc_upper n hn0
  have hz0 : 0 < doublePos n i + doubleInc n := by
    norm_num at hil
    linarith
  have hr := abs_le.mp (binary64_error _ hz0)
  have hb : (doublePos n i + doubleInc n) / 2 ^ 53 ≤ 1 / 2 ^ 40 := by
    rw [div_le_div_iff₀ (by positivity) (by positivity)]
    norm_num at hie ⊢
    linarith
  show doublePos n i + 1 ≤ binary64 (doublePos n i + doubleInc n)
  norm_num at hil hb hr ⊢
  linarith

theorem doublePos_total (n : Int) (hn0 : 0 < n) (hn : n ≤ 3733) :
    ⌊doublePos n n.toNat⌋ = 3733 := by
  have hcastI : ((n.toNat : Nat) : Int) = n := by omega
  have hcast : ((n.toNat : Nat) : ℚ) = (n : ℚ) := by exact_mod_cast hcastI
  have ihh := abs_le.mp (doublePos_error n hn0 hn n.toNat (by omega))
  rw [hcast, specInc_mul n hn0] at ihh
  have hnq : (n : ℚ) ≤ 3733 := by exact_mod_cast hn
  have hn0q : (0 : ℚ) ≤ (n : ℚ) := by exact_mod_cast (le_of_lt hn0)
  rw [Int.floor_eq_iff]
  norm_num at ihh ⊢
  constructor <;> linarith

theorem windowStart_zero (n : Int) : windowStart n 0 = 0 := by
  simp [windowStart, doublePos]

theorem windowStart_nonneg (n : Int) (hn0 : 0 < n) (hn : n ≤ 3733) (i : Nat)
    (hi : (i : Int) ≤ n) : 0 ≤ windowStart n i :=
  Int.floor_nonneg.mpr (doublePos_nonneg n hn0 hn i hi)

theorem windowStart_step (n : Int) (hn0 : 0 < n) (hn : n ≤ 3733) (i : Nat)
    (hi : (i : Int) < n) : windowStart n i + 1 ≤ windowStart n (i + 1) := by
  unfold windowStart
  rw [← Int.floor_add_one]
  exact Int.floor_mono (doublePos_step n hn0 hn i hi)

theorem windowStart_near (n : Int) (hn0 : 0 < n) (hn : n ≤ 3733) (i : Nat)
    (hi : (i : Int) ≤ n) :
    ⌊(i : ℚ) * specInc n⌋ - 1 ≤ windowStart n i ∧ windowStart n i ≤ ⌊(i : ℚ) * specInc n⌋ + 1 := by
  have ihh := abs_le.mp (doublePos_error n hn0 hn i hi)
  have hiq : (i : ℚ) ≤ 3733 := by
    have : (i : Int) ≤ 3733 := by omega
    exact_mod_cast this
  have hb : (i : ℚ) / 2 ^ 40 ≤ 1 := by
    rw [div_le_one (by positivity)]
    norm_num
    linarith
  unfold windowStart
  constructor
  · rw [← Int.floor_sub_one]
    exact Int.floor_mono (by linarith)
  · rw [← Int.floor_add_one]
    exact Int.floor_mono (by linarith)

/-! ### The mixing loop -/

theorem mixStep_closed (e : AudioEnv) (n : Int) (i : Nat) (hn0 : 0 < n) (hn : n ≤ 3733)
    (hi : (i : Int) < n) (hsz : 3735 ≤ e.PSGBufferSize) :
    mixStep e (doubleInc n) 1 (closedState e n i)
      = some (closedState e n (i + 1), closedRecord e n i) := by
  have hnn : 0 ≤ doublePos n (i + 1) := doublePos_nonneg n hn0 hn (i + 1) (by push_cast; omega)
  have hd := windowStart_step n hn0 hn i hi
  have hlt : doublePos n (i + 1) < ((e.PSGBufferSize - 1 : Int) : ℚ) := by
    have h1 := doublePos_lt n hn0 hn (i + 1) (by push_cast; omega)
    have : (3734 : ℚ) ≤ ((e.PSGBufferSize - 1 : Int) : ℚ) := by
      have : (3734 : Int) ≤ e.PSGBufferSize - 1 := by omega
      exact_mod_cast this
    linarith
  have hv0 := voiceIndexAt_nonneg e i
  have hvq : (0 : ℚ) ≤ ((voiceIndexAt e i : Int) : ℚ) := by exact_mod_cast hv0
  have hvle : voiceIndexAt e i ≤ (i : Int) := by
    unfold voiceIndexAt
    split_ifs with h
    · have h1 := Int.emod_lt_of_pos (i : Int) h
      by_cases hc : (i : Int) < e.ivoiceBufferSize
      · rw [Int.emod_eq_of_lt (Int.natCast_nonneg i) hc]
      · omega
    · exact Int.natCast_nonneg i
  have hvone : binary64 (((voiceIndexAt e i : Int) : ℚ) + 1) = ((voiceIndexAt e i : Int) : ℚ) + 1 := by
    have hk : ((voiceIndexAt e i : Int) : ℚ) + 1 = (((voiceIndexAt e i).toNat + 1 : Nat) : ℚ) := by
      have : voiceIndexAt e i = (((voiceIndexAt e i).toNat : Nat) : Int) := by omega
      push_cast
      rw [show (((voiceIndexAt e i).toNat : Nat) : ℚ) = (((voiceIndexAt e i).toNat : Int) : ℚ) by
        norm_cast, ← this]
    rw [hk]
    apply binary64_natCast
    have : (voiceIndexAt e i).toNat + 1 ≤ 3734 := by omega
    exact lt_of_le_of_lt this (by norm_num)
  have hk : windowStart n (i + 1)
      = windowStart n i + (((windowStart n (i + 1) - windowStart n i).toNat : Nat) : Int) := by
    omega
  have hw := sumWhile_range e.PSGBuffer (windowStart n (i + 1))
    (windowStart n (i + 1) - windowStart n i).toNat (windowStart n i) 0 [] hk
  have hl : windowStart n (i + 1) - windowStart n i ≠ 0 := by omega
  have hlen : ((((windowStart n (i + 1) - windowStart n i).toNat : Nat)) : Int)
      = windowStart n (i + 1) - windowStart n i := by omega
  have hpos : binary64 (doublePos n i + doubleInc n) = doublePos n (i + 1) := rfl
  have hfl : ⌊doublePos n (i + 1)⌋ = windowStart n (i + 1) := rfl
  simp only [mixStep, closedState, hpos, truncToInt_nonneg _ hnn, truncToInt_nonneg _ hvq, hfl,
    hw, hl, if_false, hlt, if_true, mul_one, Int.floor_intCast, zero_add, List.nil_append,
    hvone, voiceIndexAt_succ]
  refine congrArg some (Prod.ext ?_ ?_)
  · rfl
  · simp only [closedRecord, mixWindow, intRange_length, hlen]

theorem mixLoop_closed (e : AudioEnv) (n : Int) (hn0 : 0 < n) (hn : n ≤ 3733)
    (hsz : 3735 ≤ e.PSGBufferSize) (m i : Nat) (him : ((i + m : Nat) : Int) ≤ n) :
    mixLoop e (doubleInc n) 1 m (closedState e n i)
      = some (closedState e n (i + m), (List.range m).map (fun t => closedRecord e n (i + t))) := by
  induction m generalizing i with
  | zero => simp [mixLoop]
  | succ m ih =>
    have hi : (i : Int) < n := by push_cast at him; omega
    rw [mixLoop, mixStep_closed e n i hn0 hn hi hsz]
    simp only
    rw [ih (i + 1) (by push_cast at him ⊢; omega)]
    simp only [List.range_succ_eq_map, List.map_cons, List.map_map, Nat.add_zero]
    refine congrArg some (Prod.ext ?_ ?_)
    · simp only
      congr 1
      omega
    · simp only [List.cons.injEq, true_and]
      apply List.map_congr_left
      intro t _
      simp only [Function.comp, Nat.succ_eq_add_one]
      congr 1
      omega

theorem closedState_zero (e : AudioEnv) (n : Int) :
    closedState e n 0 = { audioBufferPos := 0, ivoiceBufferPos := 0, j := 0 } := by
  simp [closedState, voiceIndexAt, windowStart, doublePos]

theorem update_input_pos (p0 p1 : Nat → Int) (s : FrameState) :
    (update_input p0 p1 s).audioBufferPos = s.audioBufferPos ∧
    (update_input p0 p1 s).ivoiceBufferPos = s.ivoiceBufferPos ∧
    (update_input p0 p1 s).paused = s.paused := ⟨rfl, rfl, rfl⟩

theorem pauseToggle_pos (s : FrameState) :
    (pauseToggle s).audioBufferPos = s.audioBufferPos ∧
    (pauseToggle s).ivoiceBufferPos = s.ivoiceBufferPos := by
  unfold pauseToggle
  split_ifs <;> exact ⟨rfl, rfl⟩

theorem retro_run_audio_paused (F : Int) (inp : FrameInput) (s : FrameState)
    (hp : (pauseToggle (update_input inp.pad0 inp.pad1 s)).paused = true) :
    retro_run_audio F inp s
      = some { state := pauseToggle (update_input inp.pad0 inp.pad1 s), records := [] } := by
  simp [retro_run_audio, hp]

theorem retro_run_audio_running (F : Int) (inp : FrameInput) (s : FrameState)
    (hp : (pauseToggle (update_input inp.pad0 inp.pad1 s)).paused = false)
    (ha : s.audioBufferPos = 0) (hi : s.ivoiceBufferPos = 0)
    (hn0 : 0 < audioSamples F) (hn : audioSamples F ≤ 3733)
    (hsz : 3735 ≤ inp.env.PSGBufferSize) :
    ∃ st : FrameState, st.paused = false ∧ st.audioBufferPos = 0 ∧ st.ivoiceBufferPos = 0 ∧
      retro_run_audio F inp s = some
        { state := st
          records := (List.range (audioSamples F).toNat).map
            (fun t => closedRecord inp.env (audioSamples F) t) } := by
  have ha2 : (pauseToggle (update_input inp.pad0 inp.pad1 s)).audioBufferPos = 0 := by
    rw [(pauseToggle_pos _).1, (update_input_pos _ _ _).1, ha]
  have hi2 : (pauseToggle (update_input inp.pad0 inp.pad1 s)).ivoiceBufferPos = 0 := by
    rw [(pauseToggle_pos _).2, (update_input_pos _ _ _).2.1, hi]
  have hone : (1.0 : ℚ) = 1 := by norm_num
  have hloop := mixLoop_closed inp.env (audioSamples F) hn0 hn hsz (audioSamples F).toNat 0
    (by omega)
  rw [closedState_zero] at hloop
  simp only [Nat.zero_add] at hloop
  simp only [retro_run_audio, hp, Bool.false_eq_true, if_false, ha2, hi2, hone]
  have hinc : binary64 ((3733.5 : ℚ) / (audioSamples F : ℚ)) = doubleInc (audioSamples F) := rfl
  rw [hinc, hloop]
  dsimp only
  exact ⟨_, rfl, by norm_num, by norm_num, rfl⟩

theorem reachable_pos (F : Int) (s : FrameState) (h : Reachable F s) :
    s.audioBufferPos = 0 ∧ s.ivoiceBufferPos = 0 := by
  induction h with
  | init => exact ⟨rfl, rfl⟩
  | step inp s r _ hrun ih =>
    by_cases hp : (pauseToggle (update_input inp.pad0 inp.pad1 s)).paused = true
    · rw [retro_run_audio_paused F inp s hp] at hrun
      have hr := (Option.some.inj hrun).symm
      subst hr
      simp only
      rw [(pauseToggle_pos _).1, (pauseToggle_pos _).2, (update_input_pos _ _ _).1,
        (update_input_pos _ _ _).2.1]
      exact ih
    · have hp2 : (pauseToggle (update_input inp.pad0 inp.pad1 s)).paused = false := by
        simpa using hp
      simp only [retro_run_audio, hp2, Bool.false_eq_true, if_false] at hrun
      split at hrun
      · exact absurd hrun (by simp)
      · have hr := (Option.some.inj hrun).symm
        subst hr
        simp only
        exact ⟨by norm_num, by norm_num⟩

theorem windows_flatten (n : Int) (hn0 : 0 < n) (hn : n ≤ 3733) (m : Nat)
    (hm : (m : Int) ≤ n) :
    ((List.range m).map (mixWindow n)).flatten = intRange 0 (windowStart n m).toNat := by
  induction m with
  | zero => simp [intRange_zero, windowStart_zero]
  | succ m ih =>
    have hm1 : (m : Int) < n := by push_cast at hm; omega
    have h0 := windowStart_nonneg n hn0 hn m (by omega)
    have h1 := windowStart_step n hn0 hn m hm1
    rw [List.range_succ, List.map_append, List.flatten_append, ih (by omega)]
    simp only [List.map_cons, List.map_nil, List.flatten_cons, List.flatten_nil, List.append_nil,
      mixWindow]
    have hlo : windowStart n m = 0 + (((windowStart n m).toNat : Nat) : Int) := by omega
    nth_rewrite 2 [hlo]
    rw [intRange_append]
    congr 1
    omega

theorem psg_size_of_gt (size : Int) (h : (3733.5 : ℚ) < ((size - 1 : Int) : ℚ)) : 3735 ≤ size := by
  by_contra hc
  have h1 : size - 1 ≤ 3733 := by omega
  have h2 : ((size - 1 : Int) : ℚ) ≤ 3733 := by exact_mod_cast h1
  norm_num at h
  push_cast at h2
  linarith

/-! ### Evaluating positions at 44.1 kHz -/

theorem posBits_spec (n : Int) (I : Nat) (hI : doubleInc n = (I : ℚ) / 2 ^ 52) (i : Nat) :
    ∀ N : Nat, posBits I i = some N → doublePos n i = (N : ℚ) / 2 ^ 52 := by
  induction i with
  | zero =>
    intro N h
    simp only [posBits, Option.some.injEq] at h
    subst h
    simp [doublePos]
  | succ i ih =>
    intro N h
    simp only [posBits] at h
    cases hM : posBits I i with
    | none => simp [hM] at h
    | some M =>
      simp only [hM] at h
      split_ifs at h with hc
      have hN := Option.some.inj h
      subst hN
      show binary64 (doublePos n i + doubleInc n) = _
      rw [ih M hM, hI]
      have hsum : (M : ℚ) / 2 ^ 52 + (I : ℚ) / 2 ^ 52 = ((M + I : Nat) : ℚ) / 2 ^ 52 := by
        push_cast
        ring
      rw [hsum]
      exact binary64_scaled (M + I) hc.1 hc.2

theorem doubleInc_735 : doubleInc 735 = ((22876447903112580 : Nat) : ℚ) / 2 ^ 52 := by
  have hf : ⌊((3733.5 : ℚ) / ((735 : Int) : ℚ)) / 2 ^ (-50 : Int)⌋ = 5719111975778145 := by
    rw [Int.floor_eq_iff]
    norm_num
  unfold doubleInc
  rw [binary64_eq_of_bounds _ (-50) (by norm_num) (by norm_num)]
  have hr : roundHalfEven (((3733.5 : ℚ) / ((735 : Int) : ℚ)) / 2 ^ (-50 : Int))
      = 5719111975778145 := by
    unfold roundHalfEven
    simp only [hf]
    norm_num
  rw [hr]
  norm_num

set_option maxRecDepth 100000 in
theorem posBits_735_489 : posBits 22876447903112580 489 = some 11186583024622045184 := by
  decide

set_option maxRecDepth 100000 in
theorem posBits_735_490 : posBits 22876447903112580 490 = some 11209459472525158400 := by
  decide

set_option maxRecDepth 100000 in
theorem posBits_735_491 : posBits 22876447903112580 491 = some 11232335920428271616 := by
  decide

theorem windowStart_735_489 : windowStart 735 489 = 2483 := by
  unfold windowStart
  rw [posBits_spec 735 _ doubleInc_735 489 _ posBits_735_489, Int.floor_eq_iff]
  norm_num

theorem windowStart_735_490 : windowStart 735 490 = 2488 := by
  unfold windowStart
  rw [posBits_spec 735 _ doubleInc_735 490 _ posBits_735_490, Int.floor_eq_iff]
  norm_num

theorem windowStart_735_491 : windowStart 735 491 = 2494 := by
  unfold windowStart
  rw [posBits_spec 735 _ doubleInc_735 491 _ posBits_735_491, Int.floor_eq_iff]
  norm_num

theorem mixWindow_735_489 : mixWindow 735 489 = [2483, 2484, 2485, 2486, 2487] := by
  unfold mixWindow
  rw [windowStart_735_489, windowStart_735_490]
  decide

theorem mixWindow_735_490 : mixWindow 735 490 = [2488, 2489, 2490, 2491, 2492, 2493] := by
  unfold mixWindow
  rw [windowStart_735_490, windowStart_735_491]
  decide

theorem specWindow_735_489 : specWindow 735 489 = [2483, 2484, 2485, 2486, 2487, 2488] := by
  have h1 : ⌊((489 : Nat) : ℚ) * specInc 735⌋ = 2483 := by
    rw [specInc_eq, Int.floor_eq_iff]
    norm_num
  have h2 : ⌊(((489 : Nat) : ℚ) + 1) * specInc 735⌋ = 2489 := by
    rw [specInc_eq, Int.floor_eq_iff]
    norm_num
  unfold specWindow
  rw [h1, h2]
  decide

/-- C7 as stated fails: with a `LoadGame` that cannot load the image at "missing.int",
`retro_load_game` does not return false. -/
theorem retro_load_game_failure_not_reported :
    ¬ ((fun _ : String => false) "missing.int" = false →
        (retro_load_game (fun _ => false) "missing.int").ret = false) := by
  decide

/-- C7 (amended): `retro_load_game` calls `LoadGame(info->path)` and does not look at its
outcome: it returns true to the caller both when the cartridge image loads and when it
cannot be loaded. -/
theorem retro_load_game_returns_true (LoadGame : String → Bool) (path : String) :
    (retro_load_game LoadGame path).ret = true ∧
    (retro_load_game LoadGame path).cartLoaded = LoadGame path ∧
    LoadCall.LoadGame path ∈ (retro_load_game LoadGame path).calls := by
  simp [retro_load_game]

/-- C8: audio calls per frame.  In a `retro_run` call whose `paused` flag (as tested at line
1230, after the Start toggle) is true, `Audio` is not called at all.  In a call whose flag
is false, made in a reachable state, with `audioSamples = AUDIO_FREQUENCY / 60` between 1 and
3733 and `PSGBufferSize` at least 3735, the call completes and `Audio` is called exactly
`audioSamples` times, each time with equal left and right arguments.  Without a rising edge
of Start the flag tested is the flag at entry. -/
theorem retro_run_audio_call_count (F : Int) (inp : FrameInput) (s : FrameState) :
    ((pauseToggle (update_input inp.pad0 inp.pad1 s)).paused = true →
      ∃ r, retro_run_audio F inp s = some r ∧ r.state.paused = true ∧ r.audioCalls = []) ∧
    ((pauseToggle (update_input inp.pad0 inp.pad1 s)).paused = false →
      Reachable F s → 0 < audioSamples F → audioSamples F ≤ 3733 →
      3735 ≤ inp.env.PSGBufferSize →
      ∃ r, retro_run_audio F inp s = some r ∧ r.state.paused = false ∧
        (r.audioCalls.length : Int) = audioSamples F ∧ ∀ c ∈ r.audioCalls, c.1 = c.2) ∧
    (¬ (inp.pad0 8 = 1 ∧ s.joypad0 8 = 0) → ¬ (inp.pad1 8 = 1 ∧ s.joypad1 8 = 0) →
      (pauseToggle (update_input inp.pad0 inp.pad1 s)).paused = s.paused) := by
  refine ⟨?_, ?_, ?_⟩
  · intro hp
    exact ⟨_, retro_run_audio_paused F inp s hp, hp, rfl⟩
  · intro hp hr hn0 hn hsz
    obtain ⟨ha, hi⟩ := reachable_pos F s hr
    obtain ⟨st, hst, _, _, hrun⟩ := retro_run_audio_running F inp s hp ha hi hn0 hn hsz
    refine ⟨_, hrun, hst, ?_, ?_⟩
    · simp only [FrameResult.audioCalls, List.length_map, List.length_range]
      omega
    · intro c hc
      simp only [FrameResult.audioCalls, List.map_map, List.mem_map, List.mem_range] at hc
      obtain ⟨t, _, rfl⟩ := hc
      rfl
  · intro h0 h1
    have e0 : (update_input inp.pad0 inp.pad1 s).joypad0 8 = inp.pad0 8 := by simp [update_input]
    have e1 : (update_input inp.pad0 inp.pad1 s).joypad1 8 = inp.pad1 8 := by simp [update_input]
    have e2 : (update_input inp.pad0 inp.pad1 s).joypre0 8 = s.joypad0 8 := by simp [update_input]
    have e3 : (update_input inp.pad0 inp.pad1 s).joypre1 8 = s.joypad1 8 := by simp [update_input]
    unfold pauseToggle
    rw [e0, e1, e2, e3, if_neg (by tauto)]
    rfl

theorem retro_run_audio_call_count_witness :
    (pauseToggle (update_input sampleInput.pad0 sampleInput.pad1 FrameState.init)).paused = false ∧
    0 < audioSamples 44100 ∧ audioSamples 44100 ≤ 3733 ∧ 3735 ≤ sampleInput.env.PSGBufferSize ∧
    ∃ r, retro_run_audio 44100 sampleInput FrameState.init = some r ∧ r.state.paused = false ∧
      (r.audioCalls.length : Int) = audioSamples 44100 ∧ ∀ c ∈ r.audioCalls, c.1 = c.2 :=
  ⟨by decide, by decide, by decide, by decide,
   (retro_run_audio_call_count 44100 sampleInput FrameState.init).2.1 (by decide) Reachable.init
     (by decide) (by decide) (by decide)⟩

/-- C9: mixing formula.  In a `retro_run` call whose `paused` flag is false, made in a
reachable state, with `audioSamples` between 1 and 3733, `PSGBufferSize` at least 3735 and
`ivoiceBufferSize` positive, the call completes and, for every output index `i` below
`audioSamples`, iteration `i` reads a non-empty window of `PSGBuffer` (the index range
`mixWindow`), reads the speech sample at index `i mod ivoiceBufferSize`, and passes to
`Audio`, as left and as right argument, `(m_i + v_i) / 2` with truncating division, where
`m_i` is the truncated mean of the `PSGBuffer` samples of the window read and
`v_i = ivoiceBuffer[i mod ivoiceBufferSize]`. -/
theorem retro_run_audio_mixing_formula (F : Int) (inp : FrameInput) (s : FrameState)
    (hp : (pauseToggle (update_input inp.pad0 inp.pad1 s)).paused = false)
    (hr : Reachable F s) (hn0 : 0 < audioSamples F) (hn : audioSamples F ≤ 3733)
    (hsz : 3735 ≤ inp.env.PSGBufferSize) (hv : 0 < inp.env.ivoiceBufferSize) :
    ∃ r, retro_run_audio F inp s = some r ∧
      ∀ i : Nat, (i : Int) < audioSamples F →
        ∃ m : MixRecord, r.records[i]? = some m ∧
          r.audioCalls[i]? = some (m.left, m.right) ∧
          m.window = mixWindow (audioSamples F) i ∧ m.window ≠ [] ∧
          m.voiceIndex = (i : Int) % inp.env.ivoiceBufferSize ∧
          m.left = Int.tdiv
            (Int.tdiv ((m.window.map inp.env.PSGBuffer).sum) (m.window.length : Int)
              + inp.env.ivoiceBuffer ((i : Int) % inp.env.ivoiceBufferSize)) 2 ∧
          m.right = m.left := by
  obtain ⟨ha, hi⟩ := reachable_pos F s hr
  obtain ⟨st, _, _, _, hrun⟩ := retro_run_audio_running F inp s hp ha hi hn0 hn hsz
  refine ⟨_, hrun, ?_⟩
  intro i hi
  have hlt : i < (audioSamples F).toNat := by omega
  have hstep := windowStart_step (audioSamples F) hn0 hn i hi
  refine ⟨closedRecord inp.env (audioSamples F) i, ?_, ?_, rfl, ?_, ?_, ?_, rfl⟩
  · simp only [List.getElem?_map, List.getElem?_range hlt, Option.map_some']
  · simp only [FrameResult.audioCalls, List.getElem?_map, List.getElem?_range hlt,
      Option.map_some']
  · intro hnil
    have hlen := congrArg List.length hnil
    simp only [closedRecord, mixWindow, intRange_length, List.length_nil] at hlen
    omega
  · simp only [closedRecord, voiceIndexAt, hv, if_true]
  · simp only [closedRecord, voiceIndexAt, hv, if_true]

theorem retro_run_audio_mixing_formula_witness :
    ∃ r, retro_run_audio 44100 rampInput FrameState.init = some r ∧
      ∃ m : MixRecord, r.records[490]? = some m ∧ r.audioCalls[490]? = some (m.left, m.right) ∧
        m.window = [2488, 2489, 2490, 2491, 2492, 2493] ∧ m.voiceIndex = 490 ∧
        m.left = 2490 ∧ m.right = 2490 :=
  (retro_run_audio_mixing_formula 44100 rampInput FrameState.init (by decide) Reachable.init
    (by decide) (by decide) (by decide) (by decide)).imp
    (fun _ h => ⟨h.1, (h.2 490 (by decide)).imp (fun m hm =>
      have hw : m.window = [2488, 2489, 2490, 2491, 2492, 2493] :=
        hm.2.2.1.trans mixWindow_735_490
      have hl : m.left = 2490 := by
        rw [hm.2.2.2.2.2.1, hw]
        decide
      ⟨hm.1, hm.2.1, hw, hm.2.2.2.2.1.trans (by decide), hl, hm.2.2.2.2.2.2.trans hl⟩)⟩)

/-- C10 as stated fails for the program.  At 44.1 kHz (`audioSamples = 735`) iteration 489
of a frame reads the `PSGBuffer` indices 2483..2487, whereas the range
`[floor(489*inc), floor(490*inc))` with `inc = 3733.5 / 735` is 2483..2488: the double
reached by 490 rounded additions of the double nearest to `inc` lies just below
`490 * inc = 2489`, so index 2488 is read by iteration 490. -/
theorem retro_run_audio_windows_not_floor :
    ∃ r, retro_run_audio 44100 sampleInput FrameState.init = some r ∧
      (r.records[489]?).map (fun m => m.window) = some [2483, 2484, 2485, 2486, 2487] ∧
      intRange ⌊((489 : Nat) : ℚ) * ((3733.5 : ℚ) / ((735 : Int) : ℚ))⌋
          (⌊(((489 : Nat) : ℚ) + 1) * ((3733.5 : ℚ) / ((735 : Int) : ℚ))⌋
            - ⌊((489 : Nat) : ℚ) * ((3733.5 : ℚ) / ((735 : Int) : ℚ))⌋).toNat
        = [2483, 2484, 2485, 2486, 2487, 2488] ∧
      (r.records[489]?).map (fun m => m.window) ≠
        some (intRange ⌊((489 : Nat) : ℚ) * ((3733.5 : ℚ) / ((735 : Int) : ℚ))⌋
          (⌊(((489 : Nat) : ℚ) + 1) * ((3733.5 : ℚ) / ((735 : Int) : ℚ))⌋
            - ⌊((489 : Nat) : ℚ) * ((3733.5 : ℚ) / ((735 : Int) : ℚ))⌋).toNat) := by
  obtain ⟨st, _, _, _, hrun⟩ := retro_run_audio_running 44100 sampleInput FrameState.init
    (by decide) rfl rfl (by decide) (by decide) (by decide)
  have hn : audioSamples 44100 = 735 := by decide
  have hlt : 489 < (audioSamples 44100).toNat := by decide
  have hspec : intRange ⌊((489 : Nat) : ℚ) * ((3733.5 : ℚ) / ((735 : Int) : ℚ))⌋
      (⌊(((489 : Nat) : ℚ) + 1) * ((3733.5 : ℚ) / ((735 : Int) : ℚ))⌋
        - ⌊((489 : Nat) : ℚ) * ((3733.5 : ℚ) / ((735 : Int) : ℚ))⌋).toNat
      = [2483, 2484, 2485, 2486, 2487, 2488] := specWindow_735_489
  refine ⟨_, hrun, ?_, hspec, ?_⟩
  · simp only [List.getElem?_map, List.getElem?_range hlt, Option.map_some', closedRecord]
    rw [hn, mixWindow_735_489]
  · simp only [List.getElem?_map, List.getElem?_range hlt, Option.map_some', closedRecord]
    rw [hn, mixWindow_735_489, hspec]
    decide

/-- C10, amended: truncating accumulator decimation in double arithmetic.  With
`PSGBufferSize - 1 > 3733.5` and `audioSamples` between 1 and 3733, a `retro_run` call whose
`paused` flag is false, made in a reachable state, completes.  The `PSGBuffer` indices read
by iteration `i` are exactly `k_i, ..., k_(i+1) - 1`, where `k_i = windowStart audioSamples i`
is the integer part of the double reached by `i` rounded additions of the double nearest to
`inc = 3733.5 / audioSamples`; `k_i < k_(i+1)`, that double differs from `i * inc` by at most
`i / 2^40`, and `k_i` differs from `floor(i*inc)` by at most 1.  `k_0 = 0` and
`k_audioSamples = 3733`.  The windows of the frame, one after the other, are the indices
0, 1, ..., 3732 in order: they are consecutive and pairwise disjoint, every index from 0 to
3732 is read exactly once, and no index from 3733 on (and no negative index) is read. -/
theorem retro_run_audio_windows (F : Int) (inp : FrameInput) (s : FrameState)
    (hp : (pauseToggle (update_input inp.pad0 inp.pad1 s)).paused = false)
    (hr : Reachable F s) (hn0 : 0 < audioSamples F) (hn : audioSamples F ≤ 3733)
    (hsz : (3733.5 : ℚ) < ((inp.env.PSGBufferSize - 1 : Int) : ℚ)) :
    ∃ r, retro_run_audio F inp s = some r ∧
      (∀ i : Nat, (i : Int) < audioSamples F →
        (r.records[i]?).map (fun m => m.window) =
          some (intRange (windowStart (audioSamples F) i)
            (windowStart (audioSamples F) (i + 1) - windowStart (audioSamples F) i).toNat) ∧
        windowStart (audioSamples F) i < windowStart (audioSamples F) (i + 1) ∧
        |doublePos (audioSamples F) i - (i : ℚ) * ((3733.5 : ℚ) / (audioSamples F : ℚ))|
          ≤ (i : ℚ) / 2 ^ 40 ∧
        ⌊(i : ℚ) * ((3733.5 : ℚ) / (audioSamples F : ℚ))⌋ - 1 ≤ windowStart (audioSamples F) i ∧
        windowStart (audioSamples F) i ≤ ⌊(i : ℚ) * ((3733.5 : ℚ) / (audioSamples F : ℚ))⌋ + 1) ∧
      windowStart (audioSamples F) 0 = 0 ∧
      windowStart (audioSamples F) (audioSamples F).toNat = 3733 ∧
      (r.records.map (fun m => m.window)).flatten = intRange 0 3733 ∧
      (r.records.map (fun m => m.window)).Pairwise List.Disjoint ∧
      (r.records.map (fun m => m.window)).flatten.Nodup ∧
      (∀ t : Int, t ∈ (r.records.map (fun m => m.window)).flatten ↔ 0 ≤ t ∧ t < 3733) ∧
      (∀ t : Int, 0 ≤ t → t < 3733 →
        (r.records.map (fun m => m.window)).flatten.count t = 1) := by
  obtain ⟨ha, hi⟩ := reachable_pos F s hr
  obtain ⟨st, _, _, _, hrun⟩ :=
    retro_run_audio_running F inp s hp ha hi hn0 hn (psg_size_of_gt _ hsz)
  have htot : windowStart (audioSamples F) (audioSamples F).toNat = 3733 :=
    doublePos_total (audioSamples F) hn0 hn
  have hflat : (List.map (fun m => m.window)
      (List.map (fun t => closedRecord inp.env (audioSamples F) t)
        (List.range (audioSamples F).toNat))).flatten = intRange 0 3733 := by
    have hw := windows_flatten (audioSamples F) hn0 hn (audioSamples F).toNat (by omega)
    rw [htot] at hw
    rw [List.map_map]
    exact hw
  have hnd : (intRange 0 3733).Nodup := intRange_nodup 0 3733
  have hmem : ∀ t : Int, t ∈ intRange 0 3733 ↔ 0 ≤ t ∧ t < 3733 := by
    intro t
    rw [mem_intRange]
    constructor <;> rintro ⟨h1, h2⟩ <;> exact ⟨by omega, by omega⟩
  refine ⟨_, hrun, ?_, windowStart_zero _, htot, hflat, ?_, ?_, ?_, ?_⟩
  · intro i hi
    have hlt : i < (audioSamples F).toNat := by omega
    have hstep := windowStart_step (audioSamples F) hn0 hn i hi
    have hnear := windowStart_near (audioSamples F) hn0 hn i (by omega)
    refine ⟨?_, by omega, doublePos_error (audioSamples F) hn0 hn i (by omega), hnear.1, hnear.2⟩
    simp only [List.getElem?_map, List.getElem?_range hlt, Option.map_some', closedRecord]
    rfl
  · have := hflat ▸ hnd
    exact (List.nodup_flatten.mp this).2
  · rw [hflat]
    exact hnd
  · intro t
    rw [hflat]
    exact hmem t
  · intro t h0 h1
    rw [hflat]
    exact List.count_eq_one_of_mem hnd ((hmem t).mpr ⟨h0, h1⟩)

theorem retro_run_audio_windows_witness :
    ∃ r, retro_run_audio 44100 sampleInput FrameState.init = some r ∧
      (r.records[489]?).map (fun m => m.window) = some [2483, 2484, 2485, 2486, 2487] ∧
      (r.records.map (fun m => m.window)).flatten = intRange 0 3733 :=
  (retro_run_audio_windows 44100 sampleInput FrameState.init (by decide) Reachable.init
    (by decide) (by decide) (by norm_num [sampleInput])).imp
      (fun _ h => ⟨h.1, ((h.2.1 489 (by decide)).1).trans (congrArg some mixWindow_735_489),
        h.2.2.2.2.1⟩)

/-! ### Loops over pixel arrays -/

theorem foldl_untouched {α : Type} (body : α → Pixels → Pixels) (i0 : Int) (l : List α)
    (h : ∀ v ∈ l, ∀ b, body v b i0 = b i0) (b : Pixels) :
    (l.foldl (fun st v => body v st) b) i0 = b i0 := by
  induction l generalizing b with
  | nil => rfl
  | cons a t ih =>
    rw [List.foldl_cons, ih (fun v hv => h v (List.mem_cons_of_mem _ hv)),
      h a (List.mem_cons_self _ _)]

theorem foldl_set_at {α : Type} (body : α → Pixels → Pixels) (i0 : Int) (v0 : α) (val : Nat)
    (l : List α) (hnd : l.Nodup) (hmem : v0 ∈ l)
    (hother : ∀ v ∈ l, v ≠ v0 → ∀ b, body v b i0 = b i0)
    (hset : ∀ b, body v0 b i0 = val) (b : Pixels) :
    (l.foldl (fun st v => body v st) b) i0 = val := by
  induction l generalizing b with
  | nil => exact absurd hmem (List.not_mem_nil _)
  | cons a t ih =>
    rw [List.foldl_cons]
    have hnd2 := List.nodup_cons.mp hnd
    by_cases ha : a = v0
    · subst ha
      rw [foldl_untouched body i0 t]
      · exact hset b
      · intro v hv b2
        exact hother v (List.mem_cons_of_mem _ hv) (fun hva => hnd2.1 (hva ▸ hv)) b2
    · have hm : v0 ∈ t := by
        rcases List.mem_cons.mp hmem with h | h
        · exact absurd h.symm ha
        · exact h
      exact ih hnd2.2 hm (fun v hv => hother v (List.mem_cons_of_mem _ hv)) _

theorem foldl_local {α : Type} (body : α → Pixels → Pixels) (l : List α)
    (h : ∀ v ∈ l, PixelLocal (body v)) : PixelLocal (fun b => l.foldl (fun st v => body v st) b) := by
  induction l with
  | nil => intro b1 b2 i hb; exact hb
  | cons a t ih =>
    intro b1 b2 i hb
    simp only [List.foldl_cons]
    have hl : PixelLocal (fun b => t.foldl (fun st v => body v st) b) :=
      ih (fun v hv => h v (List.mem_cons_of_mem _ hv))
    exact hl (body a b1) (body a b2) i (h a (List.mem_cons_self _ _) b1 b2 i hb)

theorem forLoop_untouched (lo hi : Int) (body : Int → Pixels → Pixels) (i0 : Int)
    (h : ∀ v, lo ≤ v → v < hi → ∀ b, body v b i0 = b i0) (b : Pixels) :
    forLoop lo hi body b i0 = b i0 := by
  unfold forLoop
  apply foldl_untouched
  intro v hv
  rw [mem_intRange] at hv
  exact h v hv.1 (by omega)

theorem forLoop_set_at (lo hi : Int) (body : Int → Pixels → Pixels) (i0 v0 : Int) (val : Nat)
    (h1 : lo ≤ v0) (h2 : v0 < hi)
    (hother : ∀ v, lo ≤ v → v < hi → v ≠ v0 → ∀ b, body v b i0 = b i0)
    (hset : ∀ b, body v0 b i0 = val) (b : Pixels) :
    forLoop lo hi body b i0 = val := by
  unfold forLoop
  apply foldl_set_at body i0 v0 val _ (intRange_nodup _ _)
  · rw [mem_intRange]
    omega
  · intro v hv
    rw [mem_intRange] at hv
    exact hother v hv.1 (by omega)
  · exact hset

theorem forLoop_local (lo hi : Int) (body : Int → Pixels → Pixels)
    (h : ∀ v, lo ≤ v → v < hi → PixelLocal (body v)) : PixelLocal (forLoop lo hi body) := by
  unfold forLoop
  apply foldl_local
  intro v hv
  rw [mem_intRange] at hv
  exact h v hv.1 (by omega)

theorem forNat_untouched (n : Nat) (body : Nat → Pixels → Pixels) (i0 : Int)
    (h : ∀ v, v < n → ∀ b, body v b i0 = b i0) (b : Pixels) :
    forNat n body b i0 = b i0 := by
  unfold forNat
  apply foldl_untouched
  intro v hv
  exact h v (List.mem_range.mp hv)

theorem forNat_local (n : Nat) (body : Nat → Pixels → Pixels)
    (h : ∀ v, v < n → PixelLocal (body v)) : PixelLocal (forNat n body) := by
  unfold forNat
  apply foldl_local
  intro v hv
  exact h v (List.mem_range.mp hv)

theorem setPx_same (b : Pixels) (idx : Int) (v : Nat) : setPx b idx v idx = v := by
  simp [setPx]

theorem setPx_other (b : Pixels) (idx i : Int) (v : Nat) (h : i ≠ idx) : setPx b idx v i = b i := by
  simp [setPx, h]

theorem modPx_other (b : Pixels) (idx i : Int) (g : Nat → Nat) (h : i ≠ idx) :
    modPx b idx g i = b i := by
  simp [modPx, h]

theorem setPx_local (idx : Int) (v : Nat) : PixelLocal (fun b => setPx b idx v) := by
  intro b1 b2 i h
  simp only [setPx]
  split_ifs
  · rfl
  · exact h

theorem modPx_local (idx : Int) (g : Nat → Nat) : PixelLocal (fun b => modPx b idx g) := by
  intro b1 b2 i h
  simp only [modPx]
  split_ifs
  · rw [h]
  · exact h

theorem id_local : PixelLocal (fun b => b) := fun _ _ _ h => h

theorem ite_local (c : Prop) [Decidable c] (f g : Pixels → Pixels) (hf : PixelLocal f)
    (hg : PixelLocal g) : PixelLocal (fun b => if c then f b else g b) := by
  intro b1 b2 i h
  by_cases hc : c
  · simpa [hc] using hf b1 b2 i h
  · simpa [hc] using hg b1 b2 i h

theorem comp_local (f g : Pixels → Pixels) (hf : PixelLocal f) (hg : PixelLocal g) :
    PixelLocal (fun b => g (f b)) :=
  fun b1 b2 i h => hg (f b1) (f b2) i (hf b1 b2 i h)

/-! ### Every drawing stage is pixel-local -/

theorem utilityBackground_local (s : Display) : PixelLocal (utilityBackground s) := by
  intro b1 b2 i h
  unfold utilityBackground
  try dsimp only
  repeat' first
    | with_reducible assumption
    | with_reducible refine forLoop_local _ _ _ (fun v _ _ => ?_) _ _ _ ?_
    | (intro c1 c2 k hk; try dsimp only)
    | split_ifs
    | with_reducible refine setPx_local _ _ _ _ _ ?_

theorem gameScreen_local (s : Display) : PixelLocal (gameScreen s) := by
  intro b1 b2 i h
  unfold gameScreen
  try dsimp only
  repeat' first
    | with_reducible assumption
    | with_reducible refine forLoop_local _ _ _ (fun v _ _ => ?_) _ _ _ ?_
    | (intro c1 c2 k hk; try dsimp only)
    | split_ifs
    | with_reducible refine setPx_local _ _ _ _ _ ?_

theorem keypadBackground_local (s : Display) : PixelLocal (keypadBackground s) := by
  intro b1 b2 i h
  unfold keypadBackground
  try dsimp only
  repeat' first
    | with_reducible assumption
    | with_reducible refine forLoop_local _ _ _ (fun v _ _ => ?_) _ _ _ ?_
    | (intro c1 c2 k hk; try dsimp only)
    | split_ifs
    | with_reducible refine setPx_local _ _ _ _ _ ?_

theorem keypadLayer_local (s : Display) : PixelLocal (keypadLayer s) := by
  intro b1 b2 i h
  unfold keypadLayer
  try dsimp only
  repeat' first
    | with_reducible assumption
    | with_reducible refine forLoop_local _ _ _ (fun v _ _ => ?_) _ _ _ ?_
    | (intro c1 c2 k hk; try dsimp only)
    | split_ifs
    | with_reducible refine setPx_local _ _ _ _ _ ?_

theorem bannerLayer_local (s : Display) : PixelLocal (bannerLayer s) := by
  intro b1 b2 i h
  unfold bannerLayer
  try dsimp only
  repeat' first
    | with_reducible assumption
    | with_reducible refine forLoop_local _ _ _ (fun v _ _ => ?_) _ _ _ ?_
    | (intro c1 c2 k hk; try dsimp only)
    | split_ifs
    | with_reducible refine setPx_local _ _ _ _ _ ?_
    | with_reducible refine modPx_local _ _ _ _ _ ?_

theorem borderOneLayer_local (s : Display) (layer : Int) : PixelLocal (borderOneLayer s layer) := by
  intro b1 b2 i h
  unfold borderOneLayer
  try dsimp only
  repeat' first
    | with_reducible assumption
    | with_reducible refine forLoop_local _ _ _ (fun v _ _ => ?_) _ _ _ ?_
    | (intro c1 c2 k hk; try dsimp only)
    | split_ifs
    | with_reducible refine setPx_local _ _ _ _ _ ?_

theorem borderLayer_local (s : Display) : PixelLocal (borderLayer s) := by
  unfold borderLayer
  exact forLoop_local _ _ _ (fun v _ _ => borderOneLayer_local s v)

theorem highlightLayer_local (s : Display) : PixelLocal (highlightLayer s) := by
  intro b1 b2 i h
  unfold highlightLayer
  try dsimp only
  repeat' first
    | with_reducible assumption
    | with_reducible refine forNat_local _ _ (fun v _ => ?_) _ _ _ ?_
    | with_reducible refine forLoop_local _ _ _ (fun v _ _ => ?_) _ _ _ ?_
    | (intro c1 c2 k hk; try dsimp only)
    | split_ifs
    | with_reducible refine modPx_local _ _ _ _ _ ?_

theorem clearWorkspace_at (b : Pixels) (i : Int) (h0 : 0 ≤ i)
    (h1 : i < WORKSPACE_WIDTH * WORKSPACE_HEIGHT) : clearWorkspace b i = 0xFF000000 := by
  unfold clearWorkspace
  apply forLoop_set_at 0 _ _ i i _ h0 h1
  · intro v _ _ hv b
    exact setPx_other _ _ _ _ (fun h => hv h.symm)
  · intro b
    exact setPx_same _ _ _

theorem renderWorkspace_independent (s : Display) (b1 b2 : Pixels) (i : Int) (h0 : 0 ≤ i)
    (h1 : i < WORKSPACE_WIDTH * WORKSPACE_HEIGHT) :
    renderWorkspace s b1 i = renderWorkspace s b2 i := by
  unfold renderWorkspace
  with_reducible apply highlightLayer_local
  with_reducible apply borderLayer_local
  with_reducible apply bannerLayer_local
  with_reducible apply keypadLayer_local
  with_reducible apply keypadBackground_local
  with_reducible apply gameScreen_local
  with_reducible apply utilityBackground_local
  rw [clearWorkspace_at b1 i h0 h1, clearWorkspace_at b2 i h0 h1]

/-! ### The game region of the workspace -/

theorem gameXOffset_cases (s : Display) :
    (gameXOffset s = 0 ∧ keypadXOffset s = 704 ∧ s.display_swap = 0) ∨
    (gameXOffset s = 370 ∧ keypadXOffset s = 0 ∧ s.display_swap ≠ 0) := by
  unfold gameXOffset keypadXOffset KEYPAD_WIDTH GAME_SCREEN_WIDTH
  by_cases h : s.display_swap = 0
  · left
    simp [h]
  · right
    simp [h]

theorem gameScreen_at (s : Display) (x0 y0 : Int) (hx0 : 0 ≤ x0) (hx1 : x0 < 704)
    (hy0 : 0 ≤ y0) (hy1 : y0 < 448) (b : Pixels) :
    gameScreen s b (y0 * 1074 + (gameXOffset s + x0))
      = s.frame (y0 / 2 * 352 + x0 / 2) := by
  have hg : gameXOffset s = 0 ∨ gameXOffset s = 370 := by
    rcases gameXOffset_cases s with h | h
    · exact Or.inl h.1
    · exact Or.inr h.1
  unfold gameScreen
  simp only [GAME_SCREEN_HEIGHT, GAME_SCREEN_WIDTH, WORKSPACE_WIDTH, GAME_HEIGHT, GAME_WIDTH]
  apply forLoop_set_at 0 448 _ _ y0 _ hy0 hy1
  · intro y hy0' hy1' hne b
    apply forLoop_untouched
    intro x hx0' hx1' b
    split_ifs
    · rfl
    · exact setPx_other _ _ _ _ (by omega)
    · exact setPx_other _ _ _ _ (by omega)
  · intro b
    apply forLoop_set_at 0 704 _ _ x0 _ hx0 hx1
    · intro x hx0' hx1' hne b
      split_ifs
      · rfl
      · exact setPx_other _ _ _ _ (by omega)
      · exact setPx_other _ _ _ _ (by omega)
    · intro b
      have e1 : Int.tdiv y0 2 = y0 / 2 := Int.tdiv_eq_ediv hy0 (by decide)
      have e2 : Int.tdiv x0 2 = x0 / 2 := Int.tdiv_eq_ediv hx0 (by decide)
      rw [e1, e2]
      have c1 : ¬ (gameXOffset s + x0 ≥ 1074) := by omega
      have c2 : y0 / 2 < 224 ∧ x0 / 2 < 352 := by omega
      simp only [c1, c2, if_false, if_true, and_self]
      exact setPx_same _ _ _

theorem keypadBackground_game (s : Display) (x0 y0 : Int) (hx0 : 0 ≤ x0) (hx1 : x0 < 704)
    (b : Pixels) :
    keypadBackground s b (y0 * 1074 + (gameXOffset s + x0))
      = b (y0 * 1074 + (gameXOffset s + x0)) := by
  have hg := gameXOffset_cases s
  unfold keypadBackground
  simp only [KEYPAD_HEIGHT, KEYPAD_WIDTH, WORKSPACE_WIDTH, WORKSPACE_HEIGHT]
  apply forLoop_untouched
  intro y hy0' hy1' b
  apply forLoop_untouched
  intro x hx0' hx1' b
  split_ifs
  · exact setPx_other _ _ _ _ (by omega)
  · rfl

theorem keypadLayer_game (s : Display) (x0 y0 : Int) (hx0 : 0 ≤ x0) (hx1 : x0 < 704)
    (b : Pixels) :
    keypadLayer s b (y0 * 1074 + (gameXOffset s + x0))
      = b (y0 * 1074 + (gameXOffset s + x0)) := by
  have hg := gameXOffset_cases s
  unfold keypadLayer
  simp only [KEYPAD_HEIGHT, KEYPAD_WIDTH, WORKSPACE_WIDTH, WORKSPACE_HEIGHT]
  apply forLoop_untouched
  intro y hy0' hy1' b
  apply forLoop_untouched
  intro x hx0' hx1' b
  split_ifs
  · rfl
  · exact setPx_other _ _ _ _ (by omega)

theorem bannerLayer_game (s : Display) (x0 y0 : Int) (hx0 : 0 ≤ x0) (hx1 : x0 < 704)
    (hy0 : 0 ≤ y0) (hy1 : y0 < 448) (b : Pixels) :
    bannerLayer s b (y0 * 1074 + (gameXOffset s + x0))
      = b (y0 * 1074 + (gameXOffset s + x0)) := by
  have hg := gameXOffset_cases s
  unfold bannerLayer
  simp only [GAME_SCREEN_WIDTH, WORKSPACE_WIDTH, WORKSPACE_HEIGHT]
  split_ifs
  · apply forLoop_untouched
    intro y hy0' hy1' b
    apply forLoop_untouched
    intro x hx0' hx1' b
    split_ifs
    · rfl
    · rfl
    · exact setPx_other _ _ _ _ (by omega)
    · exact modPx_other _ _ _ _ (by omega)
    · rfl
  · apply forLoop_untouched
    intro y hy0' hy1' b
    split_ifs
    · rfl
    · apply forLoop_untouched
      intro x hx0' hx1' b
      split_ifs
      · rfl
      · exact setPx_other _ _ _ _ (by omega)

theorem borderOneLayer_game (s : Display) (layer : Int) (hl0 : 0 ≤ layer) (hl1 : layer < 7)
    (x0 y0 : Int) (hx0 : 0 ≤ x0) (hx1 : x0 < 704) (hy0 : 0 ≤ y0) (hy1 : y0 < 448) (b : Pixels) :
    borderOneLayer s layer b (y0 * 1074 + (gameXOffset s + x0))
      = b (y0 * 1074 + (gameXOffset s + x0)) := by
  have hg := gameXOffset_cases s
  unfold borderOneLayer
  simp only [GAME_SCREEN_WIDTH, WORKSPACE_WIDTH, WORKSPACE_HEIGHT]
  repeat' first
    | with_reducible rfl
    | with_reducible refine Eq.trans (forLoop_untouched _ _ _ _ (fun v hv0 hv1 c => ?_) _) ?_
    | split_ifs
    | exact setPx_other _ _ _ _ (by omega)

theorem borderLayer_game (s : Display) (x0 y0 : Int) (hx0 : 0 ≤ x0) (hx1 : x0 < 704)
    (hy0 : 0 ≤ y0) (hy1 : y0 < 448) (b : Pixels) :
    borderLayer s b (y0 * 1074 + (gameXOffset s + x0))
      = b (y0 * 1074 + (gameXOffset s + x0)) := by
  unfold borderLayer
  apply forLoop_untouched
  intro layer hl0 hl1 b
  exact borderOneLayer_game s layer hl0 hl1 x0 y0 hx0 hx1 hy0 hy1 b

/-! ### The hotspot table -/

theorem initHotspotTable_eq (i : Nat) (hi : i < 12) :
    initHotspotTable i =
      { x := 756 + 98 * ((i % 3 : Nat) : Int), y := 183 + 99 * ((i / 3 : Nat) : Int),
        width := 70, height := 70, id := (i : Int) + 1, keypad_code := keypad_map.getD i 0 } := by
  interval_cases i <;> rfl

theorem init_overlay_hotspots_table (s : Display) (h : s.controller_base_width = 446)
    (i : Nat) (hi : i < 12) :
    (init_overlay_hotspots s).overlay_hotspots i = initHotspotTable i := by
  have h4 : List.range 4 = [0, 1, 2, 3] := rfl
  have h3 : List.range 3 = [0, 1, 2] := rfl
  rw [initHotspotTable_eq i hi]
  simp only [init_overlay_hotspots, forNat, h, h4, h3, List.foldl_cons, List.foldl_nil]
  interval_cases i <;> simp [setAt, keypad_map, OVERLAY_HOTSPOT_SIZE, GAME_SCREEN_WIDTH,
    KEYPAD_WIDTH] <;> decide

theorem highlightLayer_game (s : Display)
    (htab : ∀ i, i < 12 → s.overlay_hotspots i = initHotspotTable i)
    (x0 y0 : Int) (hx0 : 0 ≤ x0) (hx1 : x0 < 704) (b : Pixels) :
    highlightLayer s b (y0 * 1074 + (gameXOffset s + x0))
      = b (y0 * 1074 + (gameXOffset s + x0)) := by
  have hg := gameXOffset_cases s
  unfold highlightLayer
  simp only [GAME_SCREEN_WIDTH, WORKSPACE_WIDTH, WORKSPACE_HEIGHT, OVERLAY_HOTSPOT_COUNT]
  apply forNat_untouched
  intro i hi b
  simp only [htab i hi, initHotspotTable_eq i hi]
  repeat' first
    | with_reducible rfl
    | with_reducible refine forLoop_untouched _ _ _ _ (fun v hv0 hv1 c => ?_) _
    | split_ifs
    | exact modPx_other _ _ _ _ (by omega)

theorem renderWorkspace_game (s : Display)
    (htab : ∀ i, i < 12 → s.overlay_hotspots i = initHotspotTable i)
    (x0 y0 : Int) (hx0 : 0 ≤ x0) (hx1 : x0 < 704) (hy0 : 0 ≤ y0) (hy1 : y0 < 448) (b : Pixels) :
    renderWorkspace s b (y0 * 1074 + (gameXOffset s + x0)) = s.frame (y0 / 2 * 352 + x0 / 2) := by
  unfold renderWorkspace
  rw [highlightLayer_game s htab x0 y0 hx0 hx1, borderLayer_game s x0 y0 hx0 hx1 hy0 hy1,
    bannerLayer_game s x0 y0 hx0 hx1 hy0 hy1, keypadLayer_game s x0 y0 hx0 hx1,
    keypadBackground_game s x0 y0 hx0 hx1, gameScreen_at s x0 y0 hx0 hx1 hy0 hy1]

theorem renderWorkspace_congr (s1 s2 : Display) (h : SameScene s1 s2) (b : Pixels) :
    renderWorkspace s1 b = renderWorkspace s2 b := by
  obtain ⟨h1, h2, h3, h4, h5, h6, h7, h8, h9, h10, h11, h12, h13, h14, h15, h16⟩ := h
  simp only [renderWorkspace, utilityBackground, gameScreen, keypadBackground, keypadLayer,
    keypadPixel, bannerLayer, borderLayer, borderOneLayer, highlightLayer, gameXOffset,
    keypadXOffset, h1, h2, h3, h4, h5, h6, h7, h8, h9, h10, h11, h12, h13, h14, h15, h16]

theorem render_multi_screen_buffer (malloc : Option Pixels) (s : Display) (b : Pixels)
    (he : s.multi_screen_enabled ≠ 0)
    (hb : (s.multi_screen_buffer = some b) ∨ (s.multi_screen_buffer = none ∧ malloc = some b)) :
    (render_multi_screen malloc s).multi_screen_buffer = some (renderWorkspace s b) := by
  rcases hb with hb | ⟨hb, hm⟩
  · simp [render_multi_screen, he, hb]
  · simp [render_multi_screen, he, hb, hm]
    exact renderWorkspace_congr _ _
      ⟨rfl, rfl, rfl, rfl, rfl, rfl, rfl, rfl, rfl, rfl, rfl, rfl, rfl, rfl, rfl, rfl⟩ b

/-- C12: the compositor only reads the emulated framebuffer.  For every display state and
every outcome of `malloc`, `render_multi_screen` leaves `frame` as it was, pixel for pixel,
and when `multi_screen_enabled` is 0 it returns the state it was given. -/
theorem render_multi_screen_frame_unchanged (malloc : Option Pixels) (s : Display) :
    (render_multi_screen malloc s).frame = s.frame ∧
    (∀ i : Int, 0 ≤ i → i < 352 * 224 → (render_multi_screen malloc s).frame i = s.frame i) ∧
    (s.multi_screen_enabled = 0 → render_multi_screen malloc s = s) := by
  have hf : (render_multi_screen malloc s).frame = s.frame := by
    unfold render_multi_screen
    by_cases h1 : s.multi_screen_enabled = 0
    · simp [h1]
    · cases hb : s.multi_screen_buffer <;> cases malloc <;> simp [h1, hb]
  refine ⟨hf, fun i _ _ => by rw [hf], ?_⟩
  intro h
  simp [render_multi_screen, h]

theorem render_multi_screen_frame_unchanged_witness :
    Display.init.multi_screen_enabled = 0 ∧
    render_multi_screen none Display.init = Display.init :=
  ⟨rfl, (render_multi_screen_frame_unchanged none Display.init).2.2 rfl⟩

/-- C13: the composited output is fully overwritten.  Take two runs of `render_multi_screen`
with multi-screen enabled whose states agree on the frame, `display_swap`, the images, the
hotspot table and the `hotspot_pressed` flags, each starting from its own workspace contents
(`b1`, `b2`: the existing buffer, or the fresh one from `malloc`).  Both runs leave a
workspace, and all 1074*600 pixels of the two are equal. -/
theorem render_multi_screen_deterministic (m1 m2 : Option Pixels) (s1 s2 : Display)
    (b1 b2 : Pixels) (he1 : s1.multi_screen_enabled ≠ 0) (he2 : s2.multi_screen_enabled ≠ 0)
    (hscene : SameScene s1 s2)
    (hb1 : s1.multi_screen_buffer = some b1 ∨ (s1.multi_screen_buffer = none ∧ m1 = some b1))
    (hb2 : s2.multi_screen_buffer = some b2 ∨ (s2.multi_screen_buffer = none ∧ m2 = some b2)) :
    ∃ o1 o2 : Pixels,
      (render_multi_screen m1 s1).multi_screen_buffer = some o1 ∧
      (render_multi_screen m2 s2).multi_screen_buffer = some o2 ∧
      (∀ i : Int, 0 ≤ i → i < 1074 * 600 → o1 i = o2 i) ∧
      (∀ x y : Int, 0 ≤ x → x < 1074 → 0 ≤ y → y < 600 →
        o1 (y * 1074 + x) = o2 (y * 1074 + x)) := by
  have hi : ∀ i : Int, 0 ≤ i → i < 1074 * 600 →
      renderWorkspace s1 b1 i = renderWorkspace s2 b2 i := by
    intro i h0 h1
    rw [renderWorkspace_congr s1 s2 hscene b1]
    exact renderWorkspace_independent s2 b1 b2 i h0 h1
  refine ⟨_, _, render_multi_screen_buffer m1 s1 b1 he1 hb1,
    render_multi_screen_buffer m2 s2 b2 he2 hb2, hi, ?_⟩
  intro x y hx0 hx1 hy0 hy1
  exact hi _ (by nlinarith) (by nlinarith)

theorem render_multi_screen_deterministic_witness :
    ∃ o1 o2 : Pixels,
      (render_multi_screen none sampleDisplay).multi_screen_buffer = some o1 ∧
      (render_multi_screen (some (fun _ => 9))
        { sampleDisplay with multi_screen_buffer := none }).multi_screen_buffer = some o2 ∧
      (∀ i : Int, 0 ≤ i → i < 1074 * 600 → o1 i = o2 i) :=
  (render_multi_screen_deterministic none (some (fun _ => 9)) sampleDisplay
    { sampleDisplay with multi_screen_buffer := none } (fun _ => 7) (fun _ => 9)
    (by decide) (by decide)
    ⟨rfl, rfl, rfl, rfl, rfl, rfl, rfl, rfl, rfl, rfl, rfl, rfl, rfl, rfl, rfl, rfl⟩
    (Or.inl rfl) (Or.inr ⟨rfl, rfl⟩)).imp
    (fun _ h => h.imp (fun _ h2 => ⟨h2.1, h2.2.1, h2.2.2.1⟩))

/-- C15: the game region is a 2x nearest-neighbour upscale of the emulated frame.  With
multi-screen enabled, a workspace available, and the hotspot table produced by
`init_overlay_hotspots` for `controller_base_width = 446`, after `render_multi_screen` the
workspace pixel at row `y`, column `gx + x` equals `frame[(y/2)*352 + (x/2)]` for every
`x` in [0,704) and `y` in [0,448), where `gx` is 370 if `display_swap` is set and 0
otherwise (so none of the layers drawn after the game screen has overwritten it), and the
frame index read lies in [0, 352*224). -/
theorem render_multi_screen_game_region (malloc : Option Pixels) (s : Display) (b : Pixels)
    (he : s.multi_screen_enabled ≠ 0)
    (htab : ∀ i, i < 12 → s.overlay_hotspots i = initHotspotTable i)
    (hb : s.multi_screen_buffer = some b ∨ (s.multi_screen_buffer = none ∧ malloc = some b)) :
    ∃ out : Pixels, (render_multi_screen malloc s).multi_screen_buffer = some out ∧
      ∀ x y : Int, 0 ≤ x → x < 704 → 0 ≤ y → y < 448 →
        out (y * 1074 + ((if s.display_swap ≠ 0 then 370 else 0) + x))
          = s.frame (y / 2 * 352 + x / 2) ∧
        0 ≤ y / 2 * 352 + x / 2 ∧ y / 2 * 352 + x / 2 < 352 * 224 := by
  refine ⟨_, render_multi_screen_buffer malloc s b he hb, ?_⟩
  intro x y hx0 hx1 hy0 hy1
  refine ⟨?_, by omega, by omega⟩
  have := renderWorkspace_game s htab x y hx0 hx1 hy0 hy1 b
  simpa [gameXOffset, KEYPAD_WIDTH] using this

theorem render_multi_screen_game_region_witness :
    ∃ out : Pixels, (render_multi_screen none sampleDisplay).multi_screen_buffer = some out ∧
      ∀ x y : Int, 0 ≤ x → x < 704 → 0 ≤ y → y < 448 →
        out (y * 1074 + ((if sampleDisplay.display_swap ≠ 0 then 370 else 0) + x))
          = sampleDisplay.frame (y / 2 * 352 + x / 2) ∧
        0 ≤ y / 2 * 352 + x / 2 ∧ y / 2 * 352 + x / 2 < 352 * 224 :=
  render_multi_screen_game_region none sampleDisplay (fun _ => 7) (by decide)
    (fun i hi => init_overlay_hotspots_table Display.init rfl i hi) (Or.inl rfl)

/-- C16: keypad hotspot layout.  With `controller_base_width = 446`,
`init_overlay_hotspots` fills the 12 hotspots as 4 rows of 3: the hotspot at index `r*3+c`
(row `r` in 0..3, column `c` in 0..2) has `x = 756 + 98*c`, `y = 183 + 99*r`, width and
height 70, `id = r*3+c+1`, and as `keypad_code` entry `r*3+c` of the key order
1,2,3,4,5,6,7,8,9,Clear,0,Enter. -/
theorem init_overlay_hotspots_grid (s : Display) (h : s.controller_base_width = 446)
    (r c : Nat) (hr : r < 4) (hc : c < 3) :
    (init_overlay_hotspots s).overlay_hotspots (r * 3 + c) =
      { x := 756 + 98 * (c : Int), y := 183 + 99 * (r : Int), width := 70, height := 70,
        id := (r : Int) * 3 + (c : Int) + 1,
        keypad_code := [K_1, K_2, K_3, K_4, K_5, K_6, K_7, K_8, K_9, K_C, K_0, K_E].getD
          (r * 3 + c) 0 } := by
  rw [init_overlay_hotspots_table s h (r * 3 + c) (by omega),
    initHotspotTable_eq (r * 3 + c) (by omega)]
  have e1 : (r * 3 + c) % 3 = c := by omega
  have e2 : (r * 3 + c) / 3 = r := by omega
  rw [e1, e2]
  simp only [keypad_map]
  push_cast
  rfl

theorem init_overlay_hotspots_grid_witness :
    Display.init.controller_base_width = 446 ∧
    (init_overlay_hotspots Display.init).overlay_hotspots 5 =
      { x := 952, y := 282, width := 70, height := 70, id := 6, keypad_code := K_6 } :=
  ⟨rfl, init_overlay_hotspots_grid Display.init rfl 1 2 (by decide) (by decide)⟩

/-! ### Pointer input -/

theorem toInt16_range (v : Int) : -32768 ≤ toInt16 v ∧ toInt16 v ≤ 32767 := by
  unfold toInt16
  omega

theorem pointerToPixel_tdiv (n W : Int) (hn0 : -32768 ≤ n) (hn1 : n ≤ 32767)
    (hW0 : 0 < W) (hW1 : W < 65534) :
    Int.tdiv ((n + 32767) * W) 65534 = if n = -32768 then 0 else (n + 32767) * W / 65534 := by
  split_ifs with h
  · subst h
    have e : (-32768 + 32767) * W = -W := by ring
    rw [e, Int.neg_tdiv, Int.tdiv_eq_zero_of_lt (le_of_lt hW0) hW1]
    rfl
  · exact Int.tdiv_eq_ediv (Int.mul_nonneg (by omega) (le_of_lt hW0)) (by decide)

/-- C18: pointer coordinate mapping.  For every 16-bit signed normalized coordinate `n` and
size `W` equal to 1074 (width) or 600 (height), `(n + 32767) * W / 65534` followed by the
clamps lies in [0, W-1], and the product fits in 32-bit signed arithmetic.  The mapping sends
-32767 to 0, 0 to W/2 and 32767 to W-1, it is monotonically non-decreasing in `n`, and with
the pointer pressed at normalized (0, 0) the pixel position is (537, 300); every position
computed by `mousePosition` lies in the workspace. -/
theorem pointerToPixel_spec (n W : Int) (hn0 : -32768 ≤ n) (hn1 : n ≤ 32767)
    (hW : W = WORKSPACE_WIDTH ∨ W = WORKSPACE_HEIGHT) :
    (0 ≤ pointerToPixel n W ∧ pointerToPixel n W ≤ W - 1) ∧
    (-2147483648 ≤ (n + 32767) * W ∧ (n + 32767) * W ≤ 2147483647) ∧
    pointerToPixel (-32767) W = 0 ∧
    pointerToPixel 0 W = W / 2 ∧
    pointerToPixel 32767 W = W - 1 ∧
    (∀ m : Int, m ≤ 32767 → n ≤ m → pointerToPixel n W ≤ pointerToPixel m W) ∧
    (∀ pressed : Int, pressed ≠ 0 → mousePosition ⟨0, 0, pressed⟩ = (537, 300)) ∧
    (∀ p : PointerInput, 0 ≤ (mousePosition p).1 ∧ (mousePosition p).1 ≤ 1073 ∧
      0 ≤ (mousePosition p).2 ∧ (mousePosition p).2 ≤ 599) := by
  have hW0 : 0 < W ∧ W < 65534 := by
    rcases hW with h | h <;> subst h <;> decide
  have key : ∀ k : Int, -32768 ≤ k → k ≤ 32767 →
      pointerToPixel k W = (if (if k = -32768 then 0 else (k + 32767) * W / 65534) ≥ W then W - 1
        else (if k = -32768 then 0 else (k + 32767) * W / 65534)) := by
    intro k hk0 hk1
    unfold pointerToPixel
    simp only [pointerToPixel_tdiv k W hk0 hk1 hW0.1 hW0.2]
    have hnn : ¬ ((if k = -32768 then 0 else (k + 32767) * W / 65534) < 0) := by
      split_ifs
      · omega
      · have : 0 ≤ (k + 32767) * W := Int.mul_nonneg (by omega) (le_of_lt hW0.1)
        have := Int.ediv_nonneg this (by decide : (0 : Int) ≤ 65534)
        omega
    simp only [hnn, if_false]
  have kw : ∀ k : Int, -32768 ≤ k → k ≤ 32767 →
      0 ≤ pointerToPixel k WORKSPACE_WIDTH ∧ pointerToPixel k WORKSPACE_WIDTH ≤ 1073 := by
    intro k hk0 hk1
    unfold pointerToPixel
    simp only [pointerToPixel_tdiv k WORKSPACE_WIDTH hk0 hk1 (by decide) (by decide),
      WORKSPACE_WIDTH]
    split_ifs <;> omega
  have kh : ∀ k : Int, -32768 ≤ k → k ≤ 32767 →
      0 ≤ pointerToPixel k WORKSPACE_HEIGHT ∧ pointerToPixel k WORKSPACE_HEIGHT ≤ 599 := by
    intro k hk0 hk1
    unfold pointerToPixel
    simp only [pointerToPixel_tdiv k WORKSPACE_HEIGHT hk0 hk1 (by decide) (by decide),
      WORKSPACE_HEIGHT]
    split_ifs <;> omega
  refine ⟨?_, ?_, ?_, ?_, ?_, ?_, ?_, ?_⟩
  · rcases hW with h | h <;> subst h
    · have := kw n hn0 hn1
      simp only [WORKSPACE_WIDTH] at this ⊢
      omega
    · have := kh n hn0 hn1
      simp only [WORKSPACE_HEIGHT] at this ⊢
      omega
  · rcases hW with h | h <;> subst h <;> simp only [WORKSPACE_WIDTH, WORKSPACE_HEIGHT] <;> omega
  · rcases hW with h | h <;> subst h <;> decide
  · rcases hW with h | h <;> subst h <;> decide
  · rcases hW with h | h <;> subst h <;> decide
  · intro m hm1 hnm
    rw [key n hn0 hn1, key m (by omega) hm1]
    rcases hW with h | h <;> subst h <;> simp only [WORKSPACE_WIDTH, WORKSPACE_HEIGHT] <;>
      split_ifs <;> omega
  · intro pressed hp
    have hc : toInt16 0 ≠ 0 ∨ toInt16 0 ≠ 0 ∨ pressed ≠ 0 := Or.inr (Or.inr hp)
    simp only [mousePosition]
    rw [if_pos hc]
    decide
  · intro p
    simp only [mousePosition]
    have hx := toInt16_range p.x
    have hy := toInt16_range p.y
    split_ifs
    · have := kw _ hx.1 hx.2
      have := kh _ hy.1 hy.2
      simp only
      omega
    · decide

theorem pointerToPixel_spec_witness :
    (0 ≤ pointerToPixel 16000 WORKSPACE_WIDTH ∧
      pointerToPixel 16000 WORKSPACE_WIDTH ≤ WORKSPACE_WIDTH - 1) :=
  (pointerToPixel_spec 16000 WORKSPACE_WIDTH (by decide) (by decide) (Or.inl rfl)).1

/-! ### Hotspot tracking -/

theorem forNat_succ {σ : Type} (n : Nat) (body : Nat → σ → σ) (s : σ) :
    forNat (n + 1) body s = body n (forNat n body s) := by
  simp [forNat, List.range_succ, List.foldl_append]

theorem forNat_zero {σ : Type} (body : Nat → σ → σ) (s : σ) : forNat 0 body s = s := rfl

theorem trackHotspots_fold (mx my mb : Int) (s : Display) (n : Nat) :
    forNat n (fun i s =>
      if hotspotIsOver s.display_swap (s.overlay_hotspots i) mx my = true ∧ mb ≠ 0 then
        if s.hotspot_pressed i = 0 then { s with hotspot_pressed := setAt s.hotspot_pressed i 1 }
        else s
      else
        if s.hotspot_pressed i ≠ 0 then { s with hotspot_pressed := setAt s.hotspot_pressed i 0 }
        else s) s
    = { s with hotspot_pressed := (fun k =>
          if k < n then
            trackOne (hotspotIsOver s.display_swap (s.overlay_hotspots k) mx my) mb
              (s.hotspot_pressed k)
          else s.hotspot_pressed k) } := by
  induction n with
  | zero => simp [forNat_zero]
  | succ n ih =>
    rw [forNat_succ, ih]
    simp only [Nat.lt_irrefl, if_false]
    have hfun : ∀ v : Int,
        setAt (fun k => if k < n then
            trackOne (hotspotIsOver s.display_swap (s.overlay_hotspots k) mx my) mb
              (s.hotspot_pressed k)
          else s.hotspot_pressed k) n v
        = fun k => if k < n + 1 then
            (if k = n then v else
              trackOne (hotspotIsOver s.display_swap (s.overlay_hotspots k) mx my) mb
                (s.hotspot_pressed k))
          else s.hotspot_pressed k := by
      intro v
      funext k
      simp only [setAt]
      by_cases hk : k = n
      · simp [hk]
      · by_cases hk2 : k < n
        · simp [hk, hk2, Nat.lt_succ_of_lt hk2]
        · have : ¬ k < n + 1 := by omega
          simp [hk, hk2, this]
    have hid : (fun k => if k < n then
            trackOne (hotspotIsOver s.display_swap (s.overlay_hotspots k) mx my) mb
              (s.hotspot_pressed k)
          else s.hotspot_pressed k)
        = fun k => if k < n + 1 then
            (if k = n then s.hotspot_pressed n else
              trackOne (hotspotIsOver s.display_swap (s.overlay_hotspots k) mx my) mb
                (s.hotspot_pressed k))
          else s.hotspot_pressed k := by
      funext k
      by_cases hk : k = n
      · simp [hk]
      · by_cases hk2 : k < n
        · simp [hk, hk2, Nat.lt_succ_of_lt hk2]
        · have : ¬ k < n + 1 := by omega
          simp [hk, hk2, this]
    have hgoal : ∀ v : Int,
        v = trackOne (hotspotIsOver s.display_swap (s.overlay_hotspots n) mx my) mb
          (s.hotspot_pressed n) →
        (fun k => if k < n + 1 then
            (if k = n then v else
              trackOne (hotspotIsOver s.display_swap (s.overlay_hotspots k) mx my) mb
                (s.hotspot_pressed k))
          else s.hotspot_pressed k)
        = fun k => if k < n + 1 then
            trackOne (hotspotIsOver s.display_swap (s.overlay_hotspots k) mx my) mb
              (s.hotspot_pressed k)
          else s.hotspot_pressed k := by
      intro v hv
      funext k
      by_cases hk : k = n
      · simp [hk, hv]
      · simp [hk]
    split_ifs with h1 h2 h3
    · simp only [hfun]
      rw [hgoal 1 (by simp [trackOne, h1, h2])]
    · rw [hid, hgoal _ (by simp [trackOne, h1, h2])]
    · simp only [hfun]
      rw [hgoal 0 (by simp [trackOne, h1, h3])]
    · rw [hid, hgoal _ (by
        have h4 : s.hotspot_pressed n = 0 := by simpa using h3
        simp [trackOne, h1, h4])]

theorem trackHotspots_eq (mx my mb : Int) (s : Display) :
    trackHotspots mx my mb s = { s with hotspot_pressed := (fun k =>
      if k < 12 then
        trackOne (hotspotIsOver s.display_swap (s.overlay_hotspots k) mx my) mb
          (s.hotspot_pressed k)
      else s.hotspot_pressed k) } := by
  unfold trackHotspots
  exact trackHotspots_fold mx my mb s 12

theorem process_hotspot_input_state (p : PointerInput) (s : Display) :
    (process_hotspot_input p s).1
      = trackHotspots (mousePosition p).1 (mousePosition p).2 p.pressed s := by
  unfold process_hotspot_input
  simp only
  split_ifs <;> rfl

theorem hotspotIsOver_iff (display_swap : Int) (h : overlay_hotspot_t) (mx my : Int) :
    hotspotIsOver display_swap h mx my = true ↔
      ((if display_swap ≠ 0 then h.x - 704 else h.x) ≤ mx ∧
        mx < (if display_swap ≠ 0 then h.x - 704 else h.x) + h.width ∧
        h.y ≤ my ∧ my < h.y + h.height) := by
  simp [hotspotIsOver, GAME_SCREEN_WIDTH]

/-- C17: hit test.  After `process_hotspot_input`, for every hotspot index `i` in 0..11,
`hotspot_pressed[i]` is nonzero exactly when the pointer is reported pressed and the mapped
pixel position `(mouse_x, mouse_y)` satisfies `hx <= mouse_x < hx + width` and
`y <= mouse_y < y + height`, where `hx` is the hotspot's `x` when `display_swap` is 0 and
`x - 704` otherwise.  When the previous value is 0 or 1 (as it always is: the array starts
at 0 and only this function writes it), the new value is 1 in that case and 0 otherwise,
whatever the previous value was. -/
theorem process_hotspot_input_hit_test (p : PointerInput) (s : Display) (i : Nat)
    (hi : i < 12) :
    ((process_hotspot_input p s).1.hotspot_pressed i ≠ 0 ↔
      (p.pressed ≠ 0 ∧
        (if s.display_swap ≠ 0 then (s.overlay_hotspots i).x - 704 else (s.overlay_hotspots i).x)
          ≤ (mousePosition p).1 ∧
        (mousePosition p).1 <
          (if s.display_swap ≠ 0 then (s.overlay_hotspots i).x - 704
            else (s.overlay_hotspots i).x) + (s.overlay_hotspots i).width ∧
        (s.overlay_hotspots i).y ≤ (mousePosition p).2 ∧
        (mousePosition p).2 < (s.overlay_hotspots i).y + (s.overlay_hotspots i).height)) ∧
    ((s.hotspot_pressed i = 0 ∨ s.hotspot_pressed i = 1) →
      ((process_hotspot_input p s).1.hotspot_pressed i = 1 ↔
        (p.pressed ≠ 0 ∧
          (if s.display_swap ≠ 0 then (s.overlay_hotspots i).x - 704
            else (s.overlay_hotspots i).x) ≤ (mousePosition p).1 ∧
          (mousePosition p).1 <
            (if s.display_swap ≠ 0 then (s.overlay_hotspots i).x - 704
              else (s.overlay_hotspots i).x) + (s.overlay_hotspots i).width ∧
          (s.overlay_hotspots i).y ≤ (mousePosition p).2 ∧
          (mousePosition p).2 < (s.overlay_hotspots i).y + (s.overlay_hotspots i).height)) ∧
      ((process_hotspot_input p s).1.hotspot_pressed i = 0 ∨
        (process_hotspot_input p s).1.hotspot_pressed i = 1) ∧
      (process_hotspot_input p s).1.hotspot_pressed i
        = (process_hotspot_input p
            { s with hotspot_pressed := fun k => 1 - s.hotspot_pressed k }).1.hotspot_pressed i) := by
  rw [process_hotspot_input_state, process_hotspot_input_state, trackHotspots_eq, trackHotspots_eq]
  simp only [hi, if_true]
  have hov := hotspotIsOver_iff s.display_swap (s.overlay_hotspots i) (mousePosition p).1
    (mousePosition p).2
  simp only [← hov]
  generalize hotspotIsOver s.display_swap (s.overlay_hotspots i) (mousePosition p).1
    (mousePosition p).2 = o
  constructor
  · cases o <;> by_cases hb : p.pressed = 0 <;> by_cases hz : s.hotspot_pressed i = 0 <;>
      simp [trackOne, hb, hz]
  · intro hprev
    cases o <;> by_cases hb : p.pressed = 0 <;> rcases hprev with hz | hz <;>
      simp [trackOne, hb, hz]

theorem process_hotspot_input_hit_test_witness :
    (sampleDisplay.hotspot_pressed 0 = 0 ∨ sampleDisplay.hotspot_pressed 0 = 1) ∧
    ((process_hotspot_input ⟨14000, -10000, 1⟩ sampleDisplay).1.hotspot_pressed 0 = 0 ∨
      (process_hotspot_input ⟨14000, -10000, 1⟩ sampleDisplay).1.hotspot_pressed 0 = 1) :=
  ⟨Or.inr rfl,
   ((process_hotspot_input_hit_test ⟨14000, -10000, 1⟩ sampleDisplay 0 (by decide)).2
      (Or.inr rfl)).2.1⟩

/-- C19 at the failing input: the pointer is pressed inside the toggle circle (pixel
(651, 524)) on a first call and is still pressed, now at pixel (0, 0) outside the circle,
on a second call; `display_swap` is 0 after the first call and 1 after the second, although
the pointer button was pressed during both calls. -/
theorem process_toggle_button_input_flips_while_pressed :
    mousePosition ⟨6957, 24467, 1⟩ = (651, 524) ∧
    mousePosition ⟨-32767, -32767, 1⟩ = (0, 0) ∧
    toggleIsOver 0 651 524 = true ∧ toggleIsOver 0 0 0 = false ∧
    (process_toggle_button_input ⟨6957, 24467, 1⟩ Display.init).display_swap = 0 ∧
    (process_toggle_button_input ⟨6957, 24467, 1⟩ Display.init).toggle_button_pressed = 1 ∧
    (process_toggle_button_input ⟨-32767, -32767, 1⟩
      (process_toggle_button_input ⟨6957, 24467, 1⟩ Display.init)).display_swap = 1 := by
  decide

/-! ### The frame function -/

theorem mixLoop_run (e : AudioEnv) (n : Int) (hn0 : 0 < n) (hn : n ≤ 3733)
    (hsz : 3735 ≤ e.PSGBufferSize) :
    mixLoop e (binary64 ((3733.5 : ℚ) / (n : ℚ))) 1.0 n.toNat
        { audioBufferPos := 0, ivoiceBufferPos := 0, j := 0 }
      = some (closedState e n n.toNat, (List.range n.toNat).map (fun t => closedRecord e n t)) := by
  have hone : (1.0 : ℚ) = 1 := by norm_num
  have hloop := mixLoop_closed e n hn0 hn hsz n.toNat 0 (by omega)
  rw [closedState_zero] at hloop
  simp only [Nat.zero_add] at hloop
  have hinc : binary64 ((3733.5 : ℚ) / (n : ℚ)) = doubleInc n := rfl
  rw [hinc, hone, hloop]

theorem audioPhase_running (F : Int) (e : AudioEnv) (fs : FrameState)
    (ha : fs.audioBufferPos = 0) (hi : fs.ivoiceBufferPos = 0)
    (hn0 : 0 < audioSamples F) (hn : audioSamples F ≤ 3733) (hsz : 3735 ≤ e.PSGBufferSize) :
    ∃ fs2 : FrameState, fs2.paused = fs.paused ∧ fs2.audioBufferPos = 0 ∧
      fs2.ivoiceBufferPos = 0 ∧
      audioPhase F e fs = some (fs2,
        (List.range (audioSamples F).toNat).map (fun t => closedRecord e (audioSamples F) t)) := by
  simp only [audioPhase, ha, hi, mixLoop_run e (audioSamples F) hn0 hn hsz]
  refine ⟨_, ?_, ?_, ?_, rfl⟩
  · rfl
  · norm_num
  · norm_num

theorem videoCalls_append (l1 l2 : List Event) :
    videoCalls (l1 ++ l2) = videoCalls l1 ++ videoCalls l2 := by
  simp [videoCalls]

theorem videoCalls_audio (records : List MixRecord) :
    videoCalls (records.map (fun m => Event.Audio m.left m.right)) = [] := by
  induction records with
  | nil => rfl
  | cons a t ih =>
    simp only [List.map_cons, videoCalls, List.filter_cons] at ih ⊢
    simp [ih]

theorem videoCalls_pauseEvents (a b : FrameState) : videoCalls (pauseEvents a b) = [] := by
  unfold pauseEvents
  split_ifs <;> rfl

theorem videoCalls_helpScreen : videoCalls helpScreen = [] := rfl

theorem videoCalls_player1 (inp : RunInput) (fs : FrameState) :
    videoCalls (player1Input inp fs).2 = [] := by
  unfold player1Input
  split_ifs <;> rfl

theorem videoCalls_player2 (inp : RunInput) (fs : FrameState) :
    videoCalls (player2Input inp fs).2 = [] := by
  unfold player2Input
  split_ifs <;> rfl

theorem videoCalls_hotspot (p : PointerInput) (d : Display) :
    videoCalls (process_hotspot_input p d).2 = [] := by
  unfold process_hotspot_input
  simp only
  split_ifs <;> rfl

theorem videoCalls_multiScreen (inp : RunInput) (fs : FrameState) (d : Display) :
    videoCalls (multiScreenInput inp fs d).2.2 = [] := by
  unfold multiScreenInput
  simp only [videoCalls_append, videoCalls_hotspot, videoCalls_player2, List.nil_append,
    List.append_nil]
  split_ifs <;> rfl

theorem videoCalls_swap (fs : FrameState) (c : Int) : videoCalls (swapControllers fs c).2 = [] := by
  simp only [swapControllers]
  split_ifs <;> rfl

theorem videoCalls_videoCall (d : Display) : videoCalls [videoCall d] = [videoCall d] := by
  unfold videoCall
  split_ifs <;> rfl

theorem videoCalls_finishFrame (inp : RunInput) (s : RunState) (events : List Event)
    (h : videoCalls events = []) :
    videoCalls (finishFrame inp s events).events
      = [videoCall (render_multi_screen inp.malloc { s.d with frame := inp.frame })] := by
  unfold finishFrame
  simp only [videoCalls_append, h, videoCalls_swap, videoCalls_videoCall, List.nil_append]
  split_ifs <;> rfl

theorem process_toggle_button_input_keeps (p : PointerInput) (s : Display) :
    (process_toggle_button_input p s).multi_screen_enabled = s.multi_screen_enabled ∧
    (process_toggle_button_input p s).multi_screen_buffer = s.multi_screen_buffer ∧
    (process_toggle_button_input p s).hotspot_pressed = s.hotspot_pressed ∧
    (process_toggle_button_input p s).overlay_hotspots = s.overlay_hotspots := by
  unfold process_toggle_button_input
  simp only
  split_ifs <;> exact ⟨rfl, rfl, rfl, rfl⟩

theorem process_hotspot_input_keeps (p : PointerInput) (s : Display) :
    (process_hotspot_input p s).1.multi_screen_enabled = s.multi_screen_enabled ∧
    (process_hotspot_input p s).1.multi_screen_buffer = s.multi_screen_buffer ∧
    (process_hotspot_input p s).1.overlay_hotspots = s.overlay_hotspots := by
  rw [process_hotspot_input_state, trackHotspots_eq]
  exact ⟨rfl, rfl, rfl⟩

theorem multiScreenInput_keeps (inp : RunInput) (fs : FrameState) (d : Display) :
    (multiScreenInput inp fs d).1.multi_screen_enabled = d.multi_screen_enabled ∧
    (multiScreenInput inp fs d).1.multi_screen_buffer = d.multi_screen_buffer := by
  unfold multiScreenInput
  simp only
  rw [(process_toggle_button_input_keeps _ _).1, (process_toggle_button_input_keeps _ _).2.1,
    (process_hotspot_input_keeps _ _).1, (process_hotspot_input_keeps _ _).2.1]
  exact ⟨rfl, rfl⟩

theorem videoCall_render (malloc : Option Pixels) (d : Display) :
    (d.multi_screen_enabled = 0 →
      videoCall (render_multi_screen malloc d) = Event.Video VideoBuffer.frame 352 224 (4 * 352)) ∧
    (d.multi_screen_enabled ≠ 0 → (d.multi_screen_buffer.isSome = true ∨ malloc.isSome = true) →
      videoCall (render_multi_screen malloc d)
        = Event.Video VideoBuffer.workspace 1074 600 (4 * 1074)) := by
  constructor
  · intro h
    simp [videoCall, render_multi_screen, h]
    exact ⟨rfl, rfl, rfl⟩
  · intro h hb
    cases hd : d.multi_screen_buffer with
    | some b =>
      simp [videoCall, render_multi_screen, h, hd]
      exact ⟨rfl, rfl, rfl⟩
    | none =>
      cases hm : malloc with
      | some b =>
        simp [videoCall, render_multi_screen, h, hd]
        exact ⟨rfl, rfl, rfl⟩
      | none =>
        rw [hd, hm] at hb
        simp at hb

theorem videoCalls_inputPhase (inp : RunInput) (fs : FrameState) (d : Display) :
    videoCalls (inputPhase inp fs d).2.2.2 = [] := by
  unfold inputPhase
  split_ifs
  · simp only [videoCalls_append, videoCalls_player1, videoCalls_player2, List.append_nil]
  · exact videoCalls_multiScreen inp fs d

theorem inputPhase_keeps (inp : RunInput) (fs : FrameState) (d : Display) :
    (inputPhase inp fs d).1.multi_screen_enabled = d.multi_screen_enabled ∧
    (inputPhase inp fs d).1.multi_screen_buffer = d.multi_screen_buffer := by
  unfold inputPhase
  split_ifs
  · exact ⟨rfl, rfl⟩
  · exact multiScreenInput_keeps inp fs d

theorem videoCalls_keyboard (s : RunState) : videoCalls (keyboardInput s) = [] := by
  unfold keyboardInput
  split_ifs <;> rfl

theorem videoCalls_keypadDraws (a b : Bool) : videoCalls (keypadDraws a b) = [] := by
  cases a <;> cases b <;> rfl

theorem retro_run_paused (F : Int) (inp : RunInput) (s : RunState)
    (hp : (pauseToggle (update_input inp.pad0 inp.pad1 s.fs)).paused = true) :
    retro_run F inp s = some (finishFrame inp
      { s with fs := pauseToggle (update_input inp.pad0 inp.pad1 s.fs) }
      (pauseEvents (update_input inp.pad0 inp.pad1 s.fs)
          (pauseToggle (update_input inp.pad0 inp.pad1 s.fs)) ++
        (if (pauseToggle (update_input inp.pad0 inp.pad1 s.fs)).joypad0 4 = 1 ∨
            (pauseToggle (update_input inp.pad0 inp.pad1 s.fs)).joypad1 4 = 1
          then helpScreen else []))) := by
  simp [retro_run, hp]

theorem retro_run_running (F : Int) (inp : RunInput) (s : RunState)
    (hp : (pauseToggle (update_input inp.pad0 inp.pad1 s.fs)).paused = false)
    (hr : Reachable F s.fs) (hn0 : 0 < audioSamples F) (hn : audioSamples F ≤ 3733)
    (hsz : 3735 ≤ inp.env.PSGBufferSize) :
    ∃ (fs2 : FrameState) (kc : Bool) (records : List MixRecord),
      fs2.paused = false ∧
      retro_run F inp s = some (finishFrame inp
        { s with fs := fs2
                 d := (inputPhase inp (pauseToggle (update_input inp.pad0 inp.pad1 s.fs)) s.d).1
                 keyboardChange := kc }
        (pauseEvents (update_input inp.pad0 inp.pad1 s.fs)
            (pauseToggle (update_input inp.pad0 inp.pad1 s.fs)) ++
          (inputPhase inp (pauseToggle (update_input inp.pad0 inp.pad1 s.fs)) s.d).2.2.2 ++
          keyboardInput s ++ [Event.Run] ++
          keypadDraws
            (inputPhase inp (pauseToggle (update_input inp.pad0 inp.pad1 s.fs)) s.d).2.1
            (inputPhase inp (pauseToggle (update_input inp.pad0 inp.pad1 s.fs)) s.d).2.2.1 ++
          records.map (fun m => Event.Audio m.left m.right) ++
          [Event.PSGFrame, Event.ivoice_frame])) := by
  obtain ⟨ha, hi⟩ := reachable_pos F s.fs hr
  have ha2 : (pauseToggle (update_input inp.pad0 inp.pad1 s.fs)).audioBufferPos = 0 := by
    rw [(pauseToggle_pos _).1, (update_input_pos _ _ _).1, ha]
  have hi2 : (pauseToggle (update_input inp.pad0 inp.pad1 s.fs)).ivoiceBufferPos = 0 := by
    rw [(pauseToggle_pos _).2, (update_input_pos _ _ _).2.1, hi]
  obtain ⟨fs2, hfp, _, _, hau⟩ := audioPhase_running F inp.env _ ha2 hi2 hn0 hn hsz
  refine ⟨fs2, (if s.keyboardDown ∨ s.keyboardChange then false else s.keyboardChange),
    (List.range (audioSamples F).toNat).map (fun t => closedRecord inp.env (audioSamples F) t),
    hfp.trans hp, ?_⟩
  simp only [retro_run, hp, Bool.false_eq_true, if_false, hau]

theorem retro_run_fs (F : Int) (inp : RunInput) (s : RunState) (r : RunResult)
    (h : retro_run F inp s = some r) :
    ∃ records, retro_run_audio F { pad0 := inp.pad0, pad1 := inp.pad1, env := inp.env } s.fs
      = some { state := r.state.fs, records := records } := by
  by_cases hp : (pauseToggle (update_input inp.pad0 inp.pad1 s.fs)).paused = true
  · rw [retro_run_paused F inp s hp] at h
    have hr := (Option.some.inj h).symm
    subst hr
    exact ⟨[], retro_run_audio_paused F _ s.fs hp⟩
  · have hp2 : (pauseToggle (update_input inp.pad0 inp.pad1 s.fs)).paused = false := by
      simpa using hp
    simp only [retro_run, hp2, Bool.false_eq_true, if_false, audioPhase] at h
    simp only [retro_run_audio, hp2, Bool.false_eq_true, if_false]
    generalize mixLoop inp.env _ _ _ _ = ml at h ⊢
    cases ml with
    | none => simp at h
    | some mr =>
      obtain ⟨m, records⟩ := mr
      simp only at h ⊢
      have hr := (Option.some.inj h).symm
      subst hr
      exact ⟨records, rfl⟩

theorem retro_run_reachable (F : Int) (inp : RunInput) (s : RunState) (r : RunResult)
    (hs : Reachable F s.fs) (h : retro_run F inp s = some r) : Reachable F r.state.fs := by
  obtain ⟨records, hrec⟩ := retro_run_fs F inp s r h
  exact Reachable.step _ s.fs _ hs hrec

theorem retro_run_video_core (F : Int) (inp : RunInput) (s : RunState)
    (hc : (pauseToggle (update_input inp.pad0 inp.pad1 s.fs)).paused = true ∨
      (Reachable F s.fs ∧ 0 < audioSamples F ∧ audioSamples F ≤ 3733 ∧
        3735 ≤ inp.env.PSGBufferSize)) :
    ∃ (r : RunResult) (d : Display), retro_run F inp s = some r ∧
      videoCalls r.events = [videoCall (render_multi_screen inp.malloc d)] ∧
      r.state.d = render_multi_screen inp.malloc d ∧
      d.multi_screen_enabled = s.d.multi_screen_enabled ∧
      d.multi_screen_buffer = s.d.multi_screen_buffer := by
  by_cases hp : (pauseToggle (update_input inp.pad0 inp.pad1 s.fs)).paused = true
  · refine ⟨_, _, retro_run_paused F inp s hp, videoCalls_finishFrame _ _ _ ?_, rfl, rfl, rfl⟩
    rw [videoCalls_append, videoCalls_pauseEvents]
    split_ifs
    · exact videoCalls_helpScreen
    · rfl
  · have hp2 : (pauseToggle (update_input inp.pad0 inp.pad1 s.fs)).paused = false := by
      simpa using hp
    rcases hc with hc | ⟨hr, hn0, hn, hsz⟩
    · exact absurd hc hp
    · obtain ⟨fs2, kc, records, _, hrun⟩ := retro_run_running F inp s hp2 hr hn0 hn hsz
      refine ⟨_, _, hrun, videoCalls_finishFrame _ _ _ ?_, rfl, ?_, ?_⟩
      · simp only [videoCalls_append, videoCalls_pauseEvents, videoCalls_inputPhase,
          videoCalls_keyboard, videoCalls_keypadDraws, videoCalls_audio, List.append_nil]
        rfl
      · exact (inputPhase_keeps _ _ _).1
      · exact (inputPhase_keeps _ _ _).2

theorem render_multi_screen_enabled (malloc : Option Pixels) (d : Display) :
    (render_multi_screen malloc d).multi_screen_enabled = d.multi_screen_enabled ∧
    (render_multi_screen malloc d).hotspot_pressed = d.hotspot_pressed ∧
    (render_multi_screen malloc d).overlay_hotspots = d.overlay_hotspots := by
  unfold render_multi_screen
  by_cases h1 : d.multi_screen_enabled = 0
  · simp [h1]
  · cases hb : d.multi_screen_buffer <;> cases malloc <;> simp [h1, hb]

/-- C11: delivered frames match the advertised geometry.  Every `retro_run` call that is
paused, or is made in a reachable state with `audioSamples` between 1 and 3733 and
`PSGBufferSize` at least 3735, completes and calls `Video` exactly once.  With multi-screen
disabled the call passes the emulated framebuffer with width 352, height 224 and pitch
4*352; with multi-screen enabled and the workspace allocated (already, or by `malloc` in
this call) it passes the workspace with width 1074, height 600 and pitch 4*1074.  In both
modes width and height equal `base_width`/`base_height` and `max_width`/`max_height` of
`retro_get_system_av_info` for the same mode, whose `timing.fps` is 60; the call leaves
`multi_screen_enabled` as it was. -/
theorem retro_run_video_geometry (F : Int) (inp : RunInput) (s : RunState)
    (hc : (pauseToggle (update_input inp.pad0 inp.pad1 s.fs)).paused = true ∨
      (Reachable F s.fs ∧ 0 < audioSamples F ∧ audioSamples F ≤ 3733 ∧
        3735 ≤ inp.env.PSGBufferSize)) :
    ∃ r : RunResult, retro_run F inp s = some r ∧
      (videoCalls r.events).length = 1 ∧
      r.state.d.multi_screen_enabled = s.d.multi_screen_enabled ∧
      (retro_get_system_av_info F s.d).fps = 60 ∧
      (s.d.multi_screen_enabled = 0 →
        videoCalls r.events = [Event.Video VideoBuffer.frame 352 224 (4 * 352)] ∧
        (retro_get_system_av_info F s.d).base_width = 352 ∧
        (retro_get_system_av_info F s.d).base_height = 224 ∧
        (retro_get_system_av_info F s.d).max_width = 352 ∧
        (retro_get_system_av_info F s.d).max_height = 224) ∧
      (s.d.multi_screen_enabled ≠ 0 →
        (s.d.multi_screen_buffer.isSome = true ∨ inp.malloc.isSome = true) →
        videoCalls r.events = [Event.Video VideoBuffer.workspace 1074 600 (4 * 1074)] ∧
        (retro_get_system_av_info F s.d).base_width = 1074 ∧
        (retro_get_system_av_info F s.d).base_height = 600 ∧
        (retro_get_system_av_info F s.d).max_width = 1074 ∧
        (retro_get_system_av_info F s.d).max_height = 600) := by
  obtain ⟨r, d, hrun, hv, hd, he, hb⟩ := retro_run_video_core F inp s hc
  refine ⟨r, hrun, by rw [hv]; rfl, ?_, ?_, ?_, ?_⟩
  · rw [hd, (render_multi_screen_enabled _ _).1, he]
  · unfold retro_get_system_av_info
    split_ifs <;> rfl
  · intro h0
    refine ⟨?_, ?_⟩
    · rw [hv, (videoCall_render inp.malloc d).1 (he.trans h0)]
    · simp [retro_get_system_av_info, h0, MaxWidth, MaxHeight]
  · intro h0 hbuf
    refine ⟨?_, ?_⟩
    · rw [hv, (videoCall_render inp.malloc d).2 (by rw [he]; exact h0) (by rw [hb]; exact hbuf)]
    · simp [retro_get_system_av_info, h0, WORKSPACE_WIDTH, WORKSPACE_HEIGHT]

theorem retro_run_video_geometry_witness :
    ∃ r : RunResult, retro_run 44100 sampleRunInput sampleRunState = some r ∧
      (videoCalls r.events).length = 1 ∧
      videoCalls r.events = [Event.Video VideoBuffer.workspace 1074 600 (4 * 1074)] :=
  (retro_run_video_geometry 44100 sampleRunInput sampleRunState
    (Or.inr ⟨Reachable.init, by decide, by decide, by decide⟩)).imp
    (fun _ h => ⟨h.1, h.2.1, (h.2.2.2.2.2 (by decide) (Or.inl rfl)).1⟩)

/-! ### Controller input in multi-screen mode -/

theorem controllerCalls_append (l1 l2 : List Event) :
    controllerCalls (l1 ++ l2) = controllerCalls l1 ++ controllerCalls l2 := by
  simp [controllerCalls]

theorem mem_controllerCalls (events : List Event) (p v : Int) (src : InputSource) :
    Event.setControllerInput p v src ∈ controllerCalls events
      ↔ Event.setControllerInput p v src ∈ events := by
  simp [controllerCalls, List.mem_filter]

theorem controllerCalls_audio (records : List MixRecord) :
    controllerCalls (records.map (fun m => Event.Audio m.left m.right)) = [] := by
  induction records with
  | nil => rfl
  | cons a t ih =>
    simp only [List.map_cons, controllerCalls, List.filter_cons] at ih ⊢
    simp [ih]

theorem controllerCalls_pauseEvents (a b : FrameState) :
    controllerCalls (pauseEvents a b) = [] := by
  unfold pauseEvents
  split_ifs <;> rfl

theorem controllerCalls_keypadDraws (a b : Bool) : controllerCalls (keypadDraws a b) = [] := by
  cases a <;> cases b <;> rfl

theorem controllerCalls_swap (fs : FrameState) (c : Int) :
    controllerCalls (swapControllers fs c).2 = [] := by
  simp only [swapControllers]
  split_ifs <;> rfl

theorem controllerCalls_videoCall (d : Display) : controllerCalls [videoCall d] = [] := by
  unfold videoCall
  split_ifs <;> rfl

theorem controllerCalls_finishFrame (inp : RunInput) (s : RunState) (events : List Event) :
    controllerCalls (finishFrame inp s events).events = controllerCalls events := by
  unfold finishFrame
  simp only [controllerCalls_append, controllerCalls_swap, controllerCalls_videoCall,
    List.append_nil]
  split_ifs <;> simp [controllerCalls]

theorem controllerCalls_hotspot (p : PointerInput) (d : Display) :
    controllerCalls (process_hotspot_input p d).2 = (process_hotspot_input p d).2 := by
  unfold process_hotspot_input
  simp only
  split_ifs <;> rfl

theorem controllerCalls_player2 (inp : RunInput) (fs : FrameState) :
    controllerCalls (player2Input inp fs).2 = (player2Input inp fs).2 := by
  unfold player2Input
  split_ifs <;> rfl

theorem controllerCalls_keyboard (s : RunState) :
    controllerCalls (keyboardInput s) = keyboardInput s := by
  unfold keyboardInput
  split_ifs <;> rfl

theorem anyHotspotPressed_fold (d : Display) (n : Nat) :
    (forNat n (fun h any_hotspot_pressed =>
      if any_hotspot_pressed ≠ 0 then any_hotspot_pressed
      else if d.hotspot_pressed h ≠ 0 then 1 else any_hotspot_pressed) (0 : Int) = 0
      ↔ ∀ i, i < n → d.hotspot_pressed i = 0) := by
  induction n with
  | zero => simp [forNat_zero]
  | succ n ih =>
    rw [forNat_succ]
    constructor
    · intro h i hi
      by_cases h0 : forNat n (fun h any_hotspot_pressed =>
          if any_hotspot_pressed ≠ 0 then any_hotspot_pressed
          else if d.hotspot_pressed h ≠ 0 then 1 else any_hotspot_pressed) (0 : Int) = 0
      · rw [h0] at h
        simp only [ne_eq, not_true_eq_false, if_false] at h
        by_cases hn : d.hotspot_pressed n = 0
        · rcases Nat.lt_succ_iff_lt_or_eq.mp hi with hlt | heq
          · exact ih.mp h0 i hlt
          · rw [heq]; exact hn
        · simp [hn] at h
      · simp only [ne_eq, h0, not_false_eq_true, if_true] at h
    · intro h
      have h0 := ih.mpr (fun i hi => h i (Nat.lt_succ_of_lt hi))
      rw [h0]
      simp [h n (Nat.lt_succ_self n)]

theorem anyHotspotPressed_eq_zero_iff (d : Display) :
    anyHotspotPressed d = 0 ↔ ∀ i, i < 12 → d.hotspot_pressed i = 0 := by
  unfold anyHotspotPressed
  exact anyHotspotPressed_fold d 12

theorem foldl_if_eq_filter {α β : Type} (p : α → Prop) [DecidablePred p] (f : β → α → β)
    (l : List α) (a : β) :
    l.foldl (fun acc i => if p i then f acc i else acc) a
      = (l.filter (fun i => decide (p i))).foldl f a := by
  induction l generalizing a with
  | nil => rfl
  | cons x t ih =>
    simp only [List.foldl_cons, List.filter_cons]
    by_cases hx : p x
    · simp [hx, ih]
    · simp [hx, ih]

theorem hotspotInput_eq_orOfPressed (d : Display) : hotspotInput d = orOfPressed d := by
  unfold hotspotInput orOfPressed forNat
  exact foldl_if_eq_filter (fun i => d.hotspot_pressed i ≠ 0)
    (fun acc i => Int.lor acc (d.overlay_hotspots i).keypad_code) _ 0

theorem testBit_foldl_lor (code : Nat → Int) (l : List Nat) (acc : Int) (k : Nat) :
    Int.testBit (l.foldl (fun a i => Int.lor a (code i)) acc) k
      = (Int.testBit acc k || l.any (fun i => Int.testBit (code i) k)) := by
  induction l generalizing acc with
  | nil => simp
  | cons x t ih =>
    rw [List.foldl_cons, ih, Int.testBit_lor]
    simp [Bool.or_assoc]

theorem keypad_map_bit (i : Nat) (hi : i < 12) :
    ∃ k, Int.testBit (keypad_map.getD i 0) k = true := by
  interval_cases i
  all_goals first
    | exact ⟨0, by decide⟩
    | exact ⟨1, by decide⟩
    | exact ⟨2, by decide⟩
    | exact ⟨3, by decide⟩

theorem orOfPressed_ne_zero (d : Display)
    (htab : ∀ i, i < 12 → d.overlay_hotspots i = initHotspotTable i)
    (i : Nat) (hi : i < 12) (hpressed : d.hotspot_pressed i ≠ 0) : orOfPressed d ≠ 0 := by
  obtain ⟨k, hk⟩ := keypad_map_bit i hi
  have hbit : Int.testBit (orOfPressed d) k = true := by
    unfold orOfPressed
    rw [testBit_foldl_lor (fun i => (d.overlay_hotspots i).keypad_code)]
    simp only [Bool.or_eq_true, List.any_eq_true]
    right
    refine ⟨i, ?_, ?_⟩
    · simp [List.mem_filter, OVERLAY_HOTSPOT_COUNT, hi, hpressed]
    · rw [htab i hi, initHotspotTable_eq i hi]
      exact hk
  intro h0
  rw [h0] at hbit
  simp [Int.testBit] at hbit

theorem orOfPressed_congr (d1 d2 : Display) (h1 : d1.hotspot_pressed = d2.hotspot_pressed)
    (h2 : d1.overlay_hotspots = d2.overlay_hotspots) : orOfPressed d1 = orOfPressed d2 := by
  unfold orOfPressed
  rw [h1, h2]

theorem process_hotspot_input_events (p : PointerInput) (d : Display) :
    (process_hotspot_input p d).2
      = if orOfPressed (process_hotspot_input p d).1 ≠ 0 then
          [Event.setControllerInput 0 (orOfPressed (process_hotspot_input p d).1)
            InputSource.hotspot]
        else [] := by
  rw [← hotspotInput_eq_orOfPressed, process_hotspot_input_state]
  unfold process_hotspot_input
  simp only
  split_ifs <;> rfl

theorem retro_run_multi_calls (F : Int) (inp : RunInput) (s : RunState)
    (hm : s.d.multi_screen_enabled ≠ 0)
    (hp : (pauseToggle (update_input inp.pad0 inp.pad1 s.fs)).paused = false)
    (hr : Reachable F s.fs) (hn0 : 0 < audioSamples F) (hn : audioSamples F ≤ 3733)
    (hsz : 3735 ≤ inp.env.PSGBufferSize) :
    ∃ r : RunResult, retro_run F inp s = some r ∧
      r.state.d.hotspot_pressed = (process_hotspot_input inp.hotspotPointer s.d).1.hotspot_pressed ∧
      r.state.d.overlay_hotspots = s.d.overlay_hotspots ∧
      controllerCalls r.events =
        (process_hotspot_input inp.hotspotPointer s.d).2 ++
        (if anyHotspotPressed (process_hotspot_input inp.hotspotPointer s.d).1 = 0
          then [Event.setControllerInput 0 inp.controllerState0 InputSource.controller]
          else []) ++
        (player2Input inp (pauseToggle (update_input inp.pad0 inp.pad1 s.fs))).2 ++
        keyboardInput s := by
  obtain ⟨fs2, kc, records, _, hrun⟩ := retro_run_running F inp s hp hr hn0 hn hsz
  have hin : inputPhase inp (pauseToggle (update_input inp.pad0 inp.pad1 s.fs)) s.d
      = ((multiScreenInput inp (pauseToggle (update_input inp.pad0 inp.pad1 s.fs)) s.d).1, false,
         (multiScreenInput inp (pauseToggle (update_input inp.pad0 inp.pad1 s.fs)) s.d).2.1,
         (multiScreenInput inp (pauseToggle (update_input inp.pad0 inp.pad1 s.fs)) s.d).2.2) := by
    simp [inputPhase, hm]
  have hany : anyHotspotPressed
      (process_toggle_button_input inp.togglePointer
        (process_hotspot_input inp.hotspotPointer s.d).1)
      = anyHotspotPressed (process_hotspot_input inp.hotspotPointer s.d).1 := by
    unfold anyHotspotPressed
    rw [(process_toggle_button_input_keeps _ _).2.2.1]
  refine ⟨_, hrun, ?_, ?_, ?_⟩
  · simp only [finishFrame, hin, multiScreenInput]
    rw [(render_multi_screen_enabled _ _).2.1]
    simp only
    rw [(process_toggle_button_input_keeps _ _).2.2.1]
  · simp only [finishFrame, hin, multiScreenInput]
    rw [(render_multi_screen_enabled _ _).2.2]
    simp only
    rw [(process_toggle_button_input_keeps _ _).2.2.2, (process_hotspot_input_keeps _ _).2.2]
  · rw [controllerCalls_finishFrame]
    simp only [hin, multiScreenInput, controllerCalls_append, controllerCalls_pauseEvents,
      controllerCalls_hotspot, controllerCalls_player2, controllerCalls_keyboard,
      controllerCalls_keypadDraws, controllerCalls_audio, List.nil_append, List.append_nil]
    rw [hany]
    split_ifs <;> simp [controllerCalls]

/-- C20: in multi-screen mode touch keypad input takes precedence for player 1.  In a
`retro_run` call with multi-screen enabled that is not paused (made in a reachable state,
with `audioSamples` between 1 and 3733 and `PSGBufferSize` at least 3735), the call
`setControllerInput(0, getControllerState(joypad0, 0))` is made if and only if no hotspot is
pressed after hotspot processing.  When some hotspot is pressed, no regular controller state
is sent for player 1, any value sent by the hotspot path is the OR of the pressed hotspots'
keypad codes, and with the hotspot table of `init_overlay_hotspots` that value is sent. -/
theorem retro_run_hotspot_precedence (F : Int) (inp : RunInput) (s : RunState)
    (hm : s.d.multi_screen_enabled ≠ 0)
    (hp : (pauseToggle (update_input inp.pad0 inp.pad1 s.fs)).paused = false)
    (hr : Reachable F s.fs) (hn0 : 0 < audioSamples F) (hn : audioSamples F ≤ 3733)
    (hsz : 3735 ≤ inp.env.PSGBufferSize) :
    ∃ r : RunResult, retro_run F inp s = some r ∧
      (Event.setControllerInput 0 inp.controllerState0 InputSource.controller ∈ r.events
        ↔ ∀ i, i < 12 → r.state.d.hotspot_pressed i = 0) ∧
      ((∃ i, i < 12 ∧ r.state.d.hotspot_pressed i ≠ 0) →
        ∀ v : Int, Event.setControllerInput 0 v InputSource.controller ∉ r.events) ∧
      (∀ v : Int, Event.setControllerInput 0 v InputSource.hotspot ∈ r.events →
        v = orOfPressed r.state.d) ∧
      ((∃ i, i < 12 ∧ r.state.d.hotspot_pressed i ≠ 0) →
        (∀ i, i < 12 → s.d.overlay_hotspots i = initHotspotTable i) →
        Event.setControllerInput 0 (orOfPressed r.state.d) InputSource.hotspot ∈ r.events) := by
  obtain ⟨r, hrun, hpr, hot, hcalls⟩ := retro_run_multi_calls F inp s hm hp hr hn0 hn hsz
  have hor : orOfPressed r.state.d
      = orOfPressed (process_hotspot_input inp.hotspotPointer s.d).1 :=
    orOfPressed_congr _ _ hpr (hot.trans (process_hotspot_input_keeps _ _).2.2.symm)
  have hmem : ∀ (p v : Int) (src : InputSource),
      Event.setControllerInput p v src ∈ r.events ↔
        Event.setControllerInput p v src ∈
          (process_hotspot_input inp.hotspotPointer s.d).2 ++
          (if anyHotspotPressed (process_hotspot_input inp.hotspotPointer s.d).1 = 0
            then [Event.setControllerInput 0 inp.controllerState0 InputSource.controller]
            else []) ++
          (player2Input inp (pauseToggle (update_input inp.pad0 inp.pad1 s.fs))).2 ++
          keyboardInput s := by
    intro p v src
    rw [← hcalls, mem_controllerCalls]
  have hany := anyHotspotPressed_eq_zero_iff (process_hotspot_input inp.hotspotPointer s.d).1
  refine ⟨r, hrun, ?_, ?_, ?_, ?_⟩
  · rw [hmem, hpr, process_hotspot_input_events, ← hany]
    by_cases hz : anyHotspotPressed (process_hotspot_input inp.hotspotPointer s.d).1 = 0
    · simp [hz]
    · simp only [hz, if_false, iff_false]
      unfold player2Input keyboardInput
      split_ifs <;> simp
  · rintro ⟨i, hi, hne⟩ v
    rw [hmem, process_hotspot_input_events]
    have hz : ¬ (anyHotspotPressed (process_hotspot_input inp.hotspotPointer s.d).1 = 0) :=
      fun h => hne (hpr ▸ hany.mp h i hi)
    simp only [hz, if_false]
    unfold player2Input keyboardInput
    split_ifs <;> simp
  · intro v
    rw [hmem, process_hotspot_input_events, hor]
    unfold player2Input keyboardInput
    split_ifs <;> simp
  · rintro ⟨i, hi, hne⟩ htab
    rw [hmem, process_hotspot_input_events, hor]
    have hnz : orOfPressed (process_hotspot_input inp.hotspotPointer s.d).1 ≠ 0 :=
      orOfPressed_ne_zero _
        (fun k hk => by rw [(process_hotspot_input_keeps _ _).2.2]; exact htab k hk)
        i hi (hpr ▸ hne)
    simp [hnz]

theorem retro_run_hotspot_precedence_witness :
    ∃ r : RunResult, retro_run 44100 touchRunInput sampleRunState = some r ∧
      (Event.setControllerInput 0 touchRunInput.controllerState0 InputSource.controller ∈ r.events
        ↔ ∀ i, i < 12 → r.state.d.hotspot_pressed i = 0) :=
  (retro_run_hotspot_precedence 44100 touchRunInput sampleRunState (by decide) (by decide)
    Reachable.init (by decide) (by decide) (by decide)).imp
    (fun _ h => ⟨h.1, h.2.1⟩)

/-! ### Memory exposure -/

/-- C14: `retro_get_memory_size` returns 65536 for `RETRO_MEMORY_SYSTEM_RAM` and 0 for every
other id; `retro_get_memory_data` returns the live `Memory` array for `RETRO_MEMORY_SYSTEM_RAM`
and the null pointer for every other id; hence, for every id, the size is non-zero exactly
when the data pointer is non-null. -/
theorem retro_get_memory_exposure {K : Components} (RETRO_MEMORY_SYSTEM_RAM : Nat)
    (s : Console K) (id : Nat) :
    retro_get_memory_size RETRO_MEMORY_SYSTEM_RAM RETRO_MEMORY_SYSTEM_RAM = 65536 ∧
    (id ≠ RETRO_MEMORY_SYSTEM_RAM → retro_get_memory_size RETRO_MEMORY_SYSTEM_RAM id = 0) ∧
    retro_get_memory_data RETRO_MEMORY_SYSTEM_RAM s RETRO_MEMORY_SYSTEM_RAM = some s.Memory ∧
    (id ≠ RETRO_MEMORY_SYSTEM_RAM →
      retro_get_memory_data RETRO_MEMORY_SYSTEM_RAM s id = none) ∧
    (retro_get_memory_size RETRO_MEMORY_SYSTEM_RAM id ≠ 0 ↔
      retro_get_memory_data RETRO_MEMORY_SYSTEM_RAM s id ≠ none) := by
  refine ⟨by simp [retro_get_memory_size], fun h => by simp [retro_get_memory_size, h],
    by simp [retro_get_memory_data], fun h => by simp [retro_get_memory_data, h], ?_⟩
  by_cases h : id = RETRO_MEMORY_SYSTEM_RAM <;>
    simp [retro_get_memory_size, retro_get_memory_data, h]

/-- With `RETRO_MEMORY_SYSTEM_RAM = 2`: id 2 exposes the 65536 words of `sampleConsole`, id 0
exposes nothing. -/
theorem retro_get_memory_exposure_witness :
    retro_get_memory_size 2 2 = 65536 ∧ retro_get_memory_size 2 0 = 0 ∧
    retro_get_memory_data 2 sampleConsole 2 = some sampleConsole.Memory ∧
    retro_get_memory_data 2 sampleConsole 0 = none :=
  have h := retro_get_memory_exposure 2 sampleConsole 0
  ⟨h.1, h.2.1 (by decide), h.2.2.1, h.2.2.2.1 (by decide)⟩

/-! ### Pause and controller swap -/

theorem pauseToggle_pads (s : FrameState) :
    (pauseToggle s).joypad0 = s.joypad0 ∧ (pauseToggle s).joypad1 = s.joypad1 ∧
    (pauseToggle s).joypre0 = s.joypre0 ∧ (pauseToggle s).joypre1 = s.joypre1 := by
  unfold pauseToggle
  split_ifs <;> exact ⟨rfl, rfl, rfl, rfl⟩

theorem swapControllers_congr (a b : FrameState) (c : Int)
    (h0 : a.joypad0 = b.joypad0) (h1 : a.joypad1 = b.joypad1)
    (h2 : a.joypre0 = b.joypre0) (h3 : a.joypre1 = b.joypre1) :
    swapControllers a c = swapControllers b c := by
  simp only [swapControllers, h0, h1, h2, h3]

theorem swapControllers_fst (fs : FrameState) (c : Int) :
    (swapControllers fs c).1 =
      if (fs.joypad0 9 = 1 ∧ fs.joypre0 9 = 0) ∨ (fs.joypad1 9 = 1 ∧ fs.joypre1 9 = 0)
      then Int.xor c 1 else c := by
  simp only [swapControllers]
  by_cases he : (fs.joypad0 9 = 1 ∧ fs.joypre0 9 = 0) ∨ (fs.joypad1 9 = 1 ∧ fs.joypre1 9 = 0)
  · have ho : fs.joypad0 9 = 1 ∨ fs.joypad1 9 = 1 := he.imp (fun h => h.1) (fun h => h.1)
    rw [if_pos ho, if_pos he]
    split_ifs <;> rfl
  · rw [if_neg he]
    split_ifs <;> rfl

theorem update_input_pads (p0 p1 : Nat → Int) (s : FrameState) (i : Nat) (hi : i < 20) :
    (update_input p0 p1 s).joypad0 i = p0 i ∧ (update_input p0 p1 s).joypad1 i = p1 i ∧
    (update_input p0 p1 s).joypre0 i = s.joypad0 i ∧
    (update_input p0 p1 s).joypre1 i = s.joypad1 i := by
  simp [update_input, hi]

theorem retro_run_globals (F : Int) (inp : RunInput) (s : RunState) (r : RunResult)
    (h : retro_run F inp s = some r) :
    r.state.fs.paused = (pauseToggle (update_input inp.pad0 inp.pad1 s.fs)).paused ∧
    r.state.fs.joypad0 = (update_input inp.pad0 inp.pad1 s.fs).joypad0 ∧
    r.state.fs.joypad1 = (update_input inp.pad0 inp.pad1 s.fs).joypad1 ∧
    r.state.controllerSwap
      = (swapControllers (update_input inp.pad0 inp.pad1 s.fs) s.controllerSwap).1 := by
  by_cases hp : (pauseToggle (update_input inp.pad0 inp.pad1 s.fs)).paused = true
  · rw [retro_run_paused F inp s hp] at h
    have hr := (Option.some.inj h).symm
    subst hr
    obtain ⟨h0, h1, h2, h3⟩ := pauseToggle_pads (update_input inp.pad0 inp.pad1 s.fs)
    refine ⟨rfl, h0, h1, ?_⟩
    simp only [finishFrame]
    rw [swapControllers_congr _ _ _ h0 h1 h2 h3]
  · have hp2 : (pauseToggle (update_input inp.pad0 inp.pad1 s.fs)).paused = false := by
      simpa using hp
    simp only [retro_run, hp2, Bool.false_eq_true, if_false, audioPhase] at h
    generalize mixLoop inp.env _ _ _ _ = ml at h
    cases ml with
    | none => simp at h
    | some mr =>
      obtain ⟨m, records⟩ := mr
      simp only at h
      have hr := (Option.some.inj h).symm
      subst hr
      obtain ⟨h0, h1, h2, h3⟩ := pauseToggle_pads (update_input inp.pad0 inp.pad1 s.fs)
      refine ⟨hp2.symm ▸ rfl, h0, h1, ?_⟩
      simp only [finishFrame]
      exact congrArg Prod.fst (swapControllers_congr _ _ _ h0 h1 h2 h3)

theorem retro_run_completes (F : Int) (inp : RunInput) (s : RunState)
    (hc : (pauseToggle (update_input inp.pad0 inp.pad1 s.fs)).paused = true ∨
      (Reachable F s.fs ∧ 0 < audioSamples F ∧ audioSamples F ≤ 3733 ∧
        3735 ≤ inp.env.PSGBufferSize)) :
    ∃ r : RunResult, retro_run F inp s = some r := by
  obtain ⟨r, _, hrun, _⟩ := retro_run_video_core F inp s hc
  exact ⟨r, hrun⟩

theorem xor_one_xor_one (c : Int) : Int.xor (Int.xor c 1) 1 = c := by
  cases c with
  | ofNat n =>
    show Int.xor (Int.xor (Int.ofNat n) (Int.ofNat 1)) (Int.ofNat 1) = Int.ofNat n
    simp only [Int.xor]
    rw [Nat.xor_assoc, Nat.xor_self, Nat.xor_zero]
    rfl
  | negSucc n =>
    show Int.xor (Int.xor (Int.negSucc n) (Int.ofNat 1)) (Int.ofNat 1) = Int.negSucc n
    simp only [Int.xor]
    rw [Nat.xor_assoc, Nat.xor_self, Nat.xor_zero]

theorem pauseToggle_paused (s : FrameState) :
    (pauseToggle s).paused =
      if (s.joypad0 8 = 1 ∧ s.joypre0 8 = 0) ∨ (s.joypad1 8 = 1 ∧ s.joypre1 8 = 0)
      then !s.paused else s.paused := by
  unfold pauseToggle
  split_ifs <;> rfl

theorem retro_run_paused_events (F : Int) (inp : RunInput) (s : RunState) (r : RunResult)
    (h : retro_run F inp s = some r) (hp : r.state.fs.paused = true) :
    ∀ e ∈ r.events,
      e = Event.OSD_drawPaused ∨ (∃ row text, e = Event.OSD_drawTextCenterBG row text) ∨
      (∃ x y text, e = Event.OSD_drawTextBG x y text) ∨ e = Event.OSD_drawLeftRight ∨
      e = Event.OSD_drawRightLeft ∨ (∃ b w ht p, e = Event.Video b w ht p) := by
  have hp2 : (pauseToggle (update_input inp.pad0 inp.pad1 s.fs)).paused = true := by
    rw [← (retro_run_globals F inp s r h).1]
    exact hp
  rw [retro_run_paused F inp s hp2] at h
  have hr := (Option.some.inj h).symm
  subst hr
  intro e he
  simp only [finishFrame, List.mem_append, List.mem_singleton] at he
  rcases he with (((he | he) | he) | he) | he
  · unfold pauseEvents at he
    split_ifs at he <;> simp at he
    rcases he with rfl | rfl
    · exact Or.inl rfl
    · exact Or.inr (Or.inl ⟨_, _, rfl⟩)
  · split_ifs at he
    · simp only [helpScreen, List.mem_cons, List.mem_singleton] at he
      refine Or.inr (Or.inr (Or.inl ?_))
      rcases he with rfl | rfl | rfl | rfl | rfl | rfl | rfl | rfl | rfl | rfl | rfl | rfl |
        rfl | rfl | rfl | he
      all_goals first | exact ⟨_, _, _, rfl⟩ | simp at he
    · simp at he
  · simp only [swapControllers] at he
    split_ifs at he <;> simp at he
    · exact Or.inr (Or.inr (Or.inr (Or.inl he)))
    · exact Or.inr (Or.inr (Or.inr (Or.inr (Or.inl he))))
    · exact Or.inr (Or.inr (Or.inr (Or.inl he)))
    · exact Or.inr (Or.inr (Or.inr (Or.inr (Or.inl he))))
  · split_ifs at he <;> simp at he
    exact Or.inr (Or.inr (Or.inl ⟨_, _, _, he⟩))
  · refine Or.inr (Or.inr (Or.inr (Or.inr (Or.inr ?_))))
    rw [he]
    unfold videoCall
    split_ifs
    · exact ⟨_, _, _, _, rfl⟩
    · exact ⟨_, _, _, _, rfl⟩

/-- C21: pause toggle.  Every `retro_run` call that completes (it is paused after the toggle,
or it is made in a reachable state with `audioSamples` between 1 and 3733 and
`PSGBufferSize` at least 3735) negates `paused` when Start (index 8) is 1 in this poll and
was 0 in the previous poll on pad 0 or on pad 1, once also when both pads show the edge, and
leaves `paused` as it was otherwise.  When `paused` is true after this step, the call invokes
none of `Run`, `Audio`, `PSGFrame`, `ivoice_frame` and `setControllerInput`; when it is false
the call invokes `Run`. -/
theorem retro_run_pause_toggle (F : Int) (inp : RunInput) (s : RunState)
    (hc : (pauseToggle (update_input inp.pad0 inp.pad1 s.fs)).paused = true ∨
      (Reachable F s.fs ∧ 0 < audioSamples F ∧ audioSamples F ≤ 3733 ∧
        3735 ≤ inp.env.PSGBufferSize)) :
    ∃ r : RunResult, retro_run F inp s = some r ∧
      (((inp.pad0 8 = 1 ∧ s.fs.joypad0 8 = 0) ∨ (inp.pad1 8 = 1 ∧ s.fs.joypad1 8 = 0)) →
        r.state.fs.paused = !s.fs.paused) ∧
      (¬ ((inp.pad0 8 = 1 ∧ s.fs.joypad0 8 = 0) ∨ (inp.pad1 8 = 1 ∧ s.fs.joypad1 8 = 0)) →
        r.state.fs.paused = s.fs.paused) ∧
      (r.state.fs.paused = true →
        Event.Run ∉ r.events ∧ Event.PSGFrame ∉ r.events ∧ Event.ivoice_frame ∉ r.events ∧
        (∀ left right : Int, Event.Audio left right ∉ r.events) ∧
        (∀ (player state : Int) (src : InputSource),
          Event.setControllerInput player state src ∉ r.events)) ∧
      (r.state.fs.paused = false → Event.Run ∈ r.events) := by
  obtain ⟨r, hrun⟩ := retro_run_completes F inp s hc
  obtain ⟨hpa, _, _, _⟩ := retro_run_globals F inp s r hrun
  obtain ⟨h0, h1, h2, h3⟩ := update_input_pads inp.pad0 inp.pad1 s.fs 8 (by decide)
  have hpause : r.state.fs.paused =
      if (inp.pad0 8 = 1 ∧ s.fs.joypad0 8 = 0) ∨ (inp.pad1 8 = 1 ∧ s.fs.joypad1 8 = 0)
      then !s.fs.paused else s.fs.paused := by
    rw [hpa, pauseToggle_paused, h0, h1, h2, h3, (update_input_pos _ _ _).2.2]
  refine ⟨r, hrun, fun he => by rw [hpause, if_pos he], fun he => by rw [hpause, if_neg he],
    ?_, ?_⟩
  · intro hp
    have hev := retro_run_paused_events F inp s r hrun hp
    refine ⟨fun hm => ?_, fun hm => ?_, fun hm => ?_, fun a b hm => ?_, fun p v src hm => ?_⟩
    all_goals
      rcases hev _ hm with h | ⟨_, _, h⟩ | ⟨_, _, _, h⟩ | h | h | ⟨_, _, _, _, h⟩ <;>
        exact Event.noConfusion h
  · intro hp
    have hp2 : (pauseToggle (update_input inp.pad0 inp.pad1 s.fs)).paused = false := by
      rw [← hpa]
      exact hp
    rcases hc with hc | ⟨hr, hn0, hn, hsz⟩
    · rw [hp2] at hc
      exact absurd hc (by decide)
    · obtain ⟨fs2, kc, records, _, hrun2⟩ := retro_run_running F inp s hp2 hr hn0 hn hsz
      rw [hrun] at hrun2
      have hr2 := Option.some.inj hrun2
      subst hr2
      simp [finishFrame]

theorem retro_run_pause_toggle_witness :
    ∃ r : RunResult, retro_run 44100 startRunInput sampleRunState = some r ∧
      r.state.fs.paused = true ∧ Event.Run ∉ r.events :=
  (retro_run_pause_toggle 44100 startRunInput sampleRunState
    (Or.inr ⟨Reachable.init, by decide, by decide, by decide⟩)).imp
    (fun _ h => ⟨h.1, h.2.1 (Or.inl ⟨rfl, rfl⟩),
      (h.2.2.2.1 (h.2.1 (Or.inl ⟨rfl, rfl⟩))).1⟩)

theorem xor_one_range (c : Int) (h : c = 0 ∨ c = 1) : Int.xor c 1 = 0 ∨ Int.xor c 1 = 1 := by
  rcases h with rfl | rfl
  · exact Or.inr rfl
  · exact Or.inl rfl

theorem iterate_xor_range (n : Nat) (c : Int) (h : c = 0 ∨ c = 1) :
    (fun v : Int => Int.xor v 1)^[n] c = 0 ∨ (fun v : Int => Int.xor v 1)^[n] c = 1 := by
  induction n generalizing c with
  | zero => exact h
  | succ k ih =>
    rw [Function.iterate_succ_apply]
    exact ih _ (xor_one_range c h)

theorem selectEdges_hold (p0 p1 : Int) (rest : List RunInput)
    (h : ∀ i ∈ rest, i.pad0 9 = p0 ∧ i.pad1 9 = p1) : selectEdges p0 p1 rest = 0 := by
  induction rest with
  | nil => rfl
  | cons a t ih =>
    obtain ⟨ha0, ha1⟩ := h a (List.mem_cons_self _ _)
    have hne : ¬ ((p0 = 1 ∧ p0 = 0) ∨ (p1 = 1 ∧ p1 = 0)) := by
      rintro (⟨h1, h2⟩ | ⟨h1, h2⟩) <;> omega
    simp only [selectEdges, ha0, ha1]
    rw [if_neg hne, Nat.zero_add]
    exact ih (fun i hi => h i (List.mem_cons_of_mem _ hi))

theorem retro_run_swap_step (F : Int) (inp : RunInput) (s : RunState) (r : RunResult)
    (h : retro_run F inp s = some r) :
    r.state.fs.joypad0 9 = inp.pad0 9 ∧ r.state.fs.joypad1 9 = inp.pad1 9 ∧
    r.state.controllerSwap =
      (if (inp.pad0 9 = 1 ∧ s.fs.joypad0 9 = 0) ∨ (inp.pad1 9 = 1 ∧ s.fs.joypad1 9 = 0)
        then Int.xor s.controllerSwap 1 else s.controllerSwap) := by
  obtain ⟨_, hj0, hj1, hsw⟩ := retro_run_globals F inp s r h
  obtain ⟨h0, h1, h2, h3⟩ := update_input_pads inp.pad0 inp.pad1 s.fs 9 (by decide)
  refine ⟨by rw [hj0, h0], by rw [hj1, h1], ?_⟩
  rw [hsw, swapControllers_fst, h0, h1, h2, h3]

theorem retroRunCalls_swap (F : Int) (hn0 : 0 < audioSamples F) (hn : audioSamples F ≤ 3733)
    (inps : List RunInput) :
    ∀ s : RunState, Reachable F s.fs → (∀ i ∈ inps, 3735 ≤ i.env.PSGBufferSize) →
      ∃ s2 : RunState, retroRunCalls F inps s = some s2 ∧
        s2.controllerSwap =
          (fun v : Int => Int.xor v 1)^[selectEdges (s.fs.joypad0 9) (s.fs.joypad1 9) inps]
            s.controllerSwap := by
  induction inps with
  | nil => exact fun s _ _ => ⟨s, rfl, rfl⟩
  | cons inp rest ih =>
    intro s hr hsz
    obtain ⟨r, hrun⟩ := retro_run_completes F inp s
      (Or.inr ⟨hr, hn0, hn, hsz inp (List.mem_cons_self _ _)⟩)
    obtain ⟨hj0, hj1, hsw⟩ := retro_run_swap_step F inp s r hrun
    obtain ⟨s2, hs2, hc2⟩ := ih r.state (retro_run_reachable F inp s r hr hrun)
      (fun i hi => hsz i (List.mem_cons_of_mem _ hi))
    refine ⟨s2, by simp only [retroRunCalls, hrun, hs2], ?_⟩
    rw [hc2, hj0, hj1, hsw]
    simp only [selectEdges]
    rw [Nat.add_comm, Function.iterate_add_apply]
    split_ifs <;> rfl

/-- C22: controller swap toggle.  Take a `retro_run` call followed by any number of further
calls, made from a reachable state with `audioSamples` between 1 and 3733 and
`PSGBufferSize` at least 3735 in every call; all the calls complete.  The first call sets
`controllerSwap` to `controllerSwap ^ 1` when Select (index 9) is 1 in this poll and was 0 in
the previous poll on pad 0 or on pad 1, and leaves it as it was otherwise.  A value in {0, 1}
stays in {0, 1}, after the first call and after all of them.  While the further calls poll
the same Select values as the first call did (Select held, or left alone), `controllerSwap`
keeps the value the first call left.  When exactly two calls of the whole sequence see a
rising edge of Select, `controllerSwap` ends at its original value. -/
theorem retro_run_controller_swap (F : Int) (inp : RunInput) (rest : List RunInput)
    (s : RunState) (hr : Reachable F s.fs) (hn0 : 0 < audioSamples F)
    (hn : audioSamples F ≤ 3733) (hsz : ∀ i ∈ inp :: rest, 3735 ≤ i.env.PSGBufferSize) :
    ∃ (r : RunResult) (s2 : RunState),
      retro_run F inp s = some r ∧ retroRunCalls F rest r.state = some s2 ∧
      (((inp.pad0 9 = 1 ∧ s.fs.joypad0 9 = 0) ∨ (inp.pad1 9 = 1 ∧ s.fs.joypad1 9 = 0)) →
        r.state.controllerSwap = Int.xor s.controllerSwap 1) ∧
      (¬ ((inp.pad0 9 = 1 ∧ s.fs.joypad0 9 = 0) ∨ (inp.pad1 9 = 1 ∧ s.fs.joypad1 9 = 0)) →
        r.state.controllerSwap = s.controllerSwap) ∧
      ((s.controllerSwap = 0 ∨ s.controllerSwap = 1) →
        (r.state.controllerSwap = 0 ∨ r.state.controllerSwap = 1) ∧
        (s2.controllerSwap = 0 ∨ s2.controllerSwap = 1)) ∧
      ((∀ i ∈ rest, i.pad0 9 = inp.pad0 9 ∧ i.pad1 9 = inp.pad1 9) →
        s2.controllerSwap = r.state.controllerSwap) ∧
      (selectEdges (s.fs.joypad0 9) (s.fs.joypad1 9) (inp :: rest) = 2 →
        s2.controllerSwap = s.controllerSwap) := by
  obtain ⟨r, hrun⟩ := retro_run_completes F inp s
    (Or.inr ⟨hr, hn0, hn, hsz inp (List.mem_cons_self _ _)⟩)
  obtain ⟨hj0, hj1, hsw⟩ := retro_run_swap_step F inp s r hrun
  obtain ⟨s2, hs2, hc2⟩ := retroRunCalls_swap F hn0 hn rest r.state
    (retro_run_reachable F inp s r hr hrun) (fun i hi => hsz i (List.mem_cons_of_mem _ hi))
  rw [hj0, hj1] at hc2
  have hrange : (s.controllerSwap = 0 ∨ s.controllerSwap = 1) →
      (r.state.controllerSwap = 0 ∨ r.state.controllerSwap = 1) := by
    intro h01
    rw [hsw]
    split_ifs
    · exact xor_one_range _ h01
    · exact h01
  refine ⟨r, s2, hrun, hs2, fun he => by rw [hsw, if_pos he],
    fun he => by rw [hsw, if_neg he], fun h01 => ⟨hrange h01, ?_⟩, ?_, ?_⟩
  · rw [hc2]
    exact iterate_xor_range _ _ (hrange h01)
  · intro hold
    rw [hc2, selectEdges_hold _ _ rest hold]
    rfl
  · intro h2
    have hall : s2.controllerSwap =
        (fun v : Int => Int.xor v 1)^[selectEdges (s.fs.joypad0 9) (s.fs.joypad1 9)
          (inp :: rest)] s.controllerSwap := by
      rw [hc2, hsw]
      simp only [selectEdges]
      rw [Nat.add_comm, Function.iterate_add_apply]
      split_ifs <;> rfl
    rw [hall, h2]
    exact xor_one_xor_one s.controllerSwap

theorem retro_run_controller_swap_witness :
    ∃ (r : RunResult) (s2 : RunState),
      retro_run 44100 selectRunInput sampleRunState = some r ∧
      retroRunCalls 44100 [sampleRunInput, selectRunInput] r.state = some s2 ∧
      r.state.controllerSwap = 1 ∧ s2.controllerSwap = 0 :=
  (retro_run_controller_swap 44100 selectRunInput [sampleRunInput, selectRunInput]
    sampleRunState Reachable.init (by decide) (by decide)
    (by
      intro i hi
      simp only [List.mem_cons, List.mem_singleton, List.not_mem_nil, or_false] at hi
      rcases hi with rfl | rfl | rfl <;> decide)).imp
    (fun _ h => h.imp (fun _ h2 =>
      ⟨h2.1, h2.2.1, h2.2.2.1 (Or.inl ⟨rfl, rfl⟩), h2.2.2.2.2.2.2 (by decide)⟩))

end FreeIntv
